import Mathlib

/-!
# Statistics reduction of the SC library (sc_statistics.c)

A shallow embedding of the statistics record, of the user-defined MPI
reduction operator `sc_statinfo_mpifunc` and of the flatten / reduce /
derive protocol of `sc_statinfo_compute`.

The C type `double` is read as an exact number: every definition is
generic in a linearly ordered field `α` (so it covers the reals, and it
evaluates on the rationals).  The C type `int` is read as `Int`.

Three further models cover what this reading leaves out: `ieee` adds the
infinities and NaN for the derive step at a zero count, `double_to_int_c`
is the conversion to int within the range of int, and the definitions
ending in `_fl` round the result of every operation on doubles
(`round_to_double`).
-/

namespace SC

/-! ## Data model -/

/-- The record sc_statinfo_t of sc_statistics.h.  The C field variable, the
optional display name (a C string or NULL), is called variable_name here
because variable is a reserved word. -/
structure sc_statinfo_t (α : Type) where
  count : Int
  sum_values : α
  sum_squares : α
  min : α
  max : α
  min_at_rank : Int
  max_at_rank : Int
  average : α
  variance : α
  standev : α
  variance_mean : α
  standev_mean : α
  variable_name : Option String
  deriving DecidableEq, Repr

/-- One element of the flat transport buffer: seven consecutive doubles,
the MPI datatype built by MPI_Type_contiguous (7, MPI_DOUBLE).  Field xk is
the double at index k of the element: count, sum of values, sum of squares,
minimum, maximum, rank that attains the minimum, rank that attains the
maximum. -/
structure flat7 (α : Type) where
  x0 : α
  x1 : α
  x2 : α
  x3 : α
  x4 : α
  x5 : α
  x6 : α
  deriving DecidableEq, Repr

/-- Modelled from the spec: the macro SC_MIN of sc.h (not part of the
sources at hand), the smaller of its two arguments,
((a) < (b) ? (a) : (b)). -/
def SC_MIN {α : Type} [LinearOrder α] (a b : α) : α :=
  if a < b then a else b

/-- Modelled from the spec: the macro SC_MAX of sc.h (not part of the
sources at hand), the larger of its two arguments,
((a) > (b) ? (a) : (b)). -/
def SC_MAX {α : Type} [LinearOrder α] (a b : α) : α :=
  if a > b then a else b

/-- The conversion (int) x of a double to an int: truncation toward zero.
C defines it only when the truncated value is representable as an int; the
model gives the truncated integer for every x, and is to be read as the C
result only where that integer is in the range of int.  The conversion with
the range of int taken into account is double_to_int_c. -/
def double_to_int {α : Type} [LinearOrderedField α] [FloorRing α] (x : α) : Int :=
  if 0 ≤ x then Int.floor x else Int.ceil x

/-! ## The reduction operator -/

/-- The body of the loop of sc_statinfo_mpifunc for one data set: the seven
doubles i of the input vector are merged into the seven doubles o of the
in-out vector.  The assignments are made in the order of the source. -/
def mpifunc_body {α : Type} [LinearOrderedField α] (i o : flat7 α) : flat7 α :=
  -- sum count, values and their squares
  let o := { o with x0 := o.x0 + i.x0 }
  let o := { o with x1 := o.x1 + i.x1 }
  let o := { o with x2 := o.x2 + i.x2 }
  -- compute minimum and its rank
  let o :=
    if i.x3 < o.x3 then { o with x3 := i.x3, x5 := i.x5 }
    else if i.x3 = o.x3 then { o with x5 := SC_MIN i.x5 o.x5 }
    else o
  -- compute maximum and its rank
  let o :=
    if i.x4 > o.x4 then { o with x4 := i.x4, x6 := i.x6 }
    else if i.x4 = o.x4 then { o with x6 := SC_MIN i.x6 o.x6 }
    else o
  o

/-- The function sc_statinfo_mpifunc: the loop over len data sets.  Both
pointers advance by one data set per iteration; the result is the in-out
vector after the loop.  Data sets at index len and beyond are not visited.
A buffer is the list of its data sets; the C code assumes that both
buffers hold at least len of them, and the model stops at the end of the
shorter one. -/
def sc_statinfo_mpifunc {α : Type} [LinearOrderedField α] :
    List (flat7 α) → List (flat7 α) → Nat → List (flat7 α)
  | i :: invec, o :: inoutvec, len + 1 =>
      mpifunc_body i o :: sc_statinfo_mpifunc invec inoutvec len
  | _, inoutvec, _ => inoutvec

/-! ## The flatten and derive loops of sc_statinfo_compute -/

/-- The body of the first loop of sc_statinfo_compute (flatten) for one
variable: the five input fields of the record and, twice, the rank of the
calling process, each converted to double. -/
def compute_flatten_body {α : Type} [LinearOrderedField α] (rank : Int)
    (s : sc_statinfo_t α) : flat7 α :=
  { x0 := (s.count : α)
    x1 := s.sum_values
    x2 := s.sum_squares
    x3 := s.min
    x4 := s.max
    x5 := (rank : α)
    x6 := (rank : α) }

/-- The first loop of sc_statinfo_compute: the array stats of nvars records
(a list of length nvars) is packed into the buffer flatin. -/
def compute_flatten {α : Type} [LinearOrderedField α] (rank : Int)
    (stats : List (sc_statinfo_t α)) : List (flat7 α) :=
  stats.map (compute_flatten_body rank)

/-- The body of the second loop of sc_statinfo_compute (unflatten and
derive) for one variable: f is the data set of flatout, s the record
stats[i] before the loop body, the result is stats[i] after it.  The
assignments are made in the order of the source.  The function sqrt of the
C library is a parameter.  The divisions are those of the field: for
cnt = 0, where C yields an infinity or a NaN, the model is not meant to be
read as the C result. -/
def compute_derive_body {α : Type} [LinearOrderedField α] [FloorRing α]
    (sqrt : α → α) (f : flat7 α) (s : sc_statinfo_t α) : sc_statinfo_t α :=
  let cnt := f.x0
  let s := { s with count := double_to_int cnt }
  let s := { s with sum_values := f.x1 }
  let s := { s with sum_squares := f.x2 }
  let s := { s with min := f.x3 }
  let s := { s with max := f.x4 }
  let s := { s with min_at_rank := double_to_int f.x5 }
  let s := { s with max_at_rank := double_to_int f.x6 }
  let avg := s.sum_values / cnt
  let s := { s with average := avg }
  let s := { s with variance := s.sum_squares / cnt - avg * avg }
  let s := { s with variance := SC_MAX s.variance 0 }
  let s := { s with variance_mean := s.variance / cnt }
  let s := { s with standev := sqrt s.variance }
  let s := { s with standev_mean := sqrt s.variance_mean }
  s

/-- The second loop of sc_statinfo_compute over the nvars data sets of
flatout and the nvars records of stats. -/
def compute_derive {α : Type} [LinearOrderedField α] [FloorRing α]
    (sqrt : α → α) : List (flat7 α) → List (sc_statinfo_t α) → List (sc_statinfo_t α)
  | f :: flatout, s :: stats => compute_derive_body sqrt f s :: compute_derive sqrt flatout stats
  | _, stats => stats

/-! ## The group-wide reduction -/

/-- Modelled from the spec: the all-reduce of the real multi-process
transport (the MPI library, not part of the sources at hand).  The transport
is free to choose its reduction topology, so a reduction is a binary tree
whose leaves are the contributions of the participants, in any order. -/
inductive RTree (β : Type) where
  | leaf : β → RTree β
  | node : RTree β → RTree β → RTree β
  deriving Repr

/-- The contributions at the leaves of a reduction tree, left to right. -/
def RTree.leaves {β : Type} : RTree β → List β
  | RTree.leaf b => [b]
  | RTree.node l r => l.leaves ++ r.leaves

/-- Modelled from the spec: the value of a reduction tree under a user
operator called as op invec inoutvec: at a node the result of the left
subtree is the input vector and the result of the right subtree the in-out
vector. -/
def RTree.reduce {β : Type} (op : β → β → β) : RTree β → β
  | RTree.leaf b => b
  | RTree.node l r => op (l.reduce op) (r.reduce op)

/-- The data set that the participant p, a pair of its rank and its record
for one variable, contributes to the reduction. -/
def contribution {α : Type} [LinearOrderedField α] (p : Int × sc_statinfo_t α) : flat7 α :=
  compute_flatten_body p.1 p.2

/-- The smallest value of a 32-bit int (INT_MIN of limits.h). -/
def INT_MIN : Int := -2147483648

/-- The largest value of a 32-bit int (INT_MAX of limits.h). -/
def INT_MAX : Int := 2147483647

/-- The function sc_statinfo_set1: populate a record assuming count = 1.
The output fields of the record are not assigned. -/
def sc_statinfo_set1 {α : Type} [LinearOrderedField α] (stats : sc_statinfo_t α)
    (value : α) (variable_name : Option String) : sc_statinfo_t α :=
  let stats := { stats with count := 1 }
  let stats := { stats with sum_values := value }
  let stats := { stats with sum_squares := value * value }
  let stats := { stats with min := value }
  let stats := { stats with max := value }
  let stats := { stats with variable_name := variable_name }
  stats

/-! ## The single-participant stand-in for MPI (sc_mpi.c) -/

/-- Modelled from the spec: the return code MPI_SUCCESS of sc_mpi.h (not
part of the sources at hand), the value every operation reports on
success. -/
def MPI_SUCCESS : Int := 0

/-- The function MPI_Comm_size of sc_mpi.c: the pair of the return value and
of the value stored in size.  The type of communicators is a parameter. -/
def MPI_Comm_size {C : Type} (_comm : C) : Int × Int :=
  (MPI_SUCCESS, 1)

/-- The function MPI_Comm_rank of sc_mpi.c: the pair of the return value and
of the value stored in rank. -/
def MPI_Comm_rank {C : Type} (_comm : C) : Int × Int :=
  (MPI_SUCCESS, 0)

/-- Modelled from the spec: the macro SC_CHECK_MPI of sc.h (not part of the
sources at hand): the process aborts, written none, unless the return value
is MPI_SUCCESS. -/
def SC_CHECK_MPI (mpiret : Int) : Option Unit :=
  if mpiret = MPI_SUCCESS then some () else none

/-! ## The functions sc_statinfo_compute and sc_statinfo_compute1 -/

/-- The function sc_statinfo_compute as compiled without SC_MPI, on the
stand-in of sc_mpi.c.  The array stats is the list of its nvars records;
memcpy makes flatout a copy of flatin.  The result is the array stats after
the call, none when the process aborts. -/
def sc_statinfo_compute {α : Type} [LinearOrderedField α] [FloorRing α] {C : Type}
    (sqrt : α → α) (mpicomm : C) (stats : List (sc_statinfo_t α)) :
    Option (List (sc_statinfo_t α)) := do
  let (mpiret, rank) := MPI_Comm_rank mpicomm
  SC_CHECK_MPI mpiret
  let flatin := compute_flatten rank stats
  let flatout := flatin
  pure (compute_derive sqrt flatout stats)

/-- One variable through sc_statinfo_compute on the stand-in: flatten with
rank 0, copy, unflatten and derive. -/
def compute_single_body {α : Type} [LinearOrderedField α] [FloorRing α]
    (sqrt : α → α) (s : sc_statinfo_t α) : sc_statinfo_t α :=
  compute_derive_body sqrt (compute_flatten_body 0 s) s

/-- Modelled from the spec: a communicator of the real multi-process
transport (the MPI library, not part of the sources at hand) as the calling
participant sees it: its own rank, and the reduction the transport performs
in an all-reduce, a tree in which the buffer of the caller is one of the
leaves and the buffers of the other participants are the others. -/
structure real_transport (α : Type) where
  rank : Int
  tree : List (flat7 α) → RTree (List (flat7 α))

/-- The function sc_statinfo_compute as compiled with SC_MPI, on a real
transport whose calls all report MPI_SUCCESS: flatten with the own rank,
all-reduce of nvars data sets with the operator sc_statinfo_mpifunc, then
unflatten and derive. -/
def sc_statinfo_compute_mpi {α : Type} [LinearOrderedField α] [FloorRing α]
    (sqrt : α → α) (mpicomm : real_transport α) (stats : List (sc_statinfo_t α)) :
    List (sc_statinfo_t α) :=
  let rank := mpicomm.rank
  let nvars := stats.length
  let flatin := compute_flatten rank stats
  let flatout := (mpicomm.tree flatin).reduce (fun invec inoutvec =>
    sc_statinfo_mpifunc invec inoutvec nvars)
  compute_derive sqrt flatout stats

/-- The body of the loop of sc_statinfo_compute1 for one variable. -/
def compute1_body {α : Type} [LinearOrderedField α] (s : sc_statinfo_t α) :
    sc_statinfo_t α :=
  let value := s.sum_values
  let s := { s with count := 1 }
  let s := { s with sum_squares := value * value }
  let s := { s with min := value }
  let s := { s with max := value }
  s

/-- The function sc_statinfo_compute1: the loop over the nvars records, then
the call of sc_statinfo_compute. -/
def sc_statinfo_compute1 {α : Type} [LinearOrderedField α] [FloorRing α] {C : Type}
    (sqrt : α → α) (mpicomm : C) (stats : List (sc_statinfo_t α)) :
    Option (List (sc_statinfo_t α)) :=
  sc_statinfo_compute sqrt mpicomm (stats.map compute1_body)

/-! ## Doubles with infinities and NaN -/

/-- A value of the C type double where the special values matter: a number
(exact, as everywhere in this file), plus infinity, minus infinity or a NaN.
Rounding and overflow are left out and the two zeros are not told apart; a
zero divisor stands for +0, which is what a sum of counts is when it is
zero. -/
inductive ieee (α : Type) where
  | fin : α → ieee α
  | pinf : ieee α
  | ninf : ieee α
  | nan : ieee α
  deriving DecidableEq, Repr

/-- The division x / y of doubles. -/
def ieee.div {α : Type} [LinearOrderedField α] : ieee α → ieee α → ieee α
  | ieee.fin x, ieee.fin y =>
      if y = 0 then (if 0 < x then ieee.pinf else if x < 0 then ieee.ninf else ieee.nan)
      else ieee.fin (x / y)
  | ieee.fin _, ieee.pinf => ieee.fin 0
  | ieee.fin _, ieee.ninf => ieee.fin 0
  | ieee.pinf, ieee.fin y => if 0 ≤ y then ieee.pinf else ieee.ninf
  | ieee.ninf, ieee.fin y => if 0 ≤ y then ieee.ninf else ieee.pinf
  | _, _ => ieee.nan

/-- The difference x - y of doubles. -/
def ieee.sub {α : Type} [LinearOrderedField α] : ieee α → ieee α → ieee α
  | ieee.fin x, ieee.fin y => ieee.fin (x - y)
  | ieee.fin _, ieee.pinf => ieee.ninf
  | ieee.fin _, ieee.ninf => ieee.pinf
  | ieee.pinf, ieee.fin _ => ieee.pinf
  | ieee.pinf, ieee.ninf => ieee.pinf
  | ieee.ninf, ieee.fin _ => ieee.ninf
  | ieee.ninf, ieee.pinf => ieee.ninf
  | _, _ => ieee.nan

/-- The product x * y of doubles. -/
def ieee.mul {α : Type} [LinearOrderedField α] : ieee α → ieee α → ieee α
  | ieee.fin x, ieee.fin y => ieee.fin (x * y)
  | ieee.fin x, ieee.pinf => if 0 < x then ieee.pinf else if x < 0 then ieee.ninf else ieee.nan
  | ieee.pinf, ieee.fin x => if 0 < x then ieee.pinf else if x < 0 then ieee.ninf else ieee.nan
  | ieee.fin x, ieee.ninf => if 0 < x then ieee.ninf else if x < 0 then ieee.pinf else ieee.nan
  | ieee.ninf, ieee.fin x => if 0 < x then ieee.ninf else if x < 0 then ieee.pinf else ieee.nan
  | ieee.pinf, ieee.pinf => ieee.pinf
  | ieee.ninf, ieee.ninf => ieee.pinf
  | ieee.pinf, ieee.ninf => ieee.ninf
  | ieee.ninf, ieee.pinf => ieee.ninf
  | _, _ => ieee.nan

/-- The comparison x > y of doubles; it is false as soon as one side is a
NaN. -/
def ieee.gt {α : Type} [LinearOrderedField α] : ieee α → ieee α → Bool
  | ieee.fin x, ieee.fin y => decide (x > y)
  | ieee.fin _, ieee.ninf => true
  | ieee.pinf, ieee.fin _ => true
  | ieee.pinf, ieee.ninf => true
  | _, _ => false

/-- The function sqrt of the C library on doubles, over its restriction
sqrt to the numbers that are not negative. -/
def ieee.sqrt {α : Type} [LinearOrderedField α] (sqrt : α → α) : ieee α → ieee α
  | ieee.fin x => if 0 ≤ x then ieee.fin (sqrt x) else ieee.nan
  | ieee.pinf => ieee.pinf
  | _ => ieee.nan

/-- Modelled from the spec: the macro SC_MAX of sc.h (not part of the
sources at hand) on doubles with special values, ((a) > (b) ? (a) : (b)). -/
def SC_MAX_ieee {α : Type} [LinearOrderedField α] (a b : ieee α) : ieee α :=
  if ieee.gt a b then a else b

/-- The body of the second loop of sc_statinfo_compute for one variable,
as compute_derive_body but with the arithmetic of doubles with special
values, so that the divisions by a zero count are those of C.  The data
set f of flatout holds numbers. -/
def compute_derive_body_ieee {α : Type} [LinearOrderedField α] [FloorRing α]
    (sqrt : α → α) (f : flat7 α) (s : sc_statinfo_t (ieee α)) : sc_statinfo_t (ieee α) :=
  let cnt := ieee.fin f.x0
  let s := { s with count := double_to_int f.x0 }
  let s := { s with sum_values := ieee.fin f.x1 }
  let s := { s with sum_squares := ieee.fin f.x2 }
  let s := { s with min := ieee.fin f.x3 }
  let s := { s with max := ieee.fin f.x4 }
  let s := { s with min_at_rank := double_to_int f.x5 }
  let s := { s with max_at_rank := double_to_int f.x6 }
  let avg := ieee.div s.sum_values cnt
  let s := { s with average := avg }
  let s := { s with variance := ieee.sub (ieee.div s.sum_squares cnt) (ieee.mul avg avg) }
  let s := { s with variance := SC_MAX_ieee s.variance (ieee.fin 0) }
  let s := { s with variance_mean := ieee.div s.variance cnt }
  let s := { s with standev := ieee.sqrt sqrt s.variance }
  let s := { s with standev_mean := ieee.sqrt sqrt s.variance_mean }
  s

/-! ## Datatypes, sizes and the gather of the stand-in (sc_mpi.c) -/

/-- Modelled from the spec: the datatype handles of sc_mpi.h (not part of
the sources at hand) that sc_mpi_sizeof compares its argument with, taken
to be pairwise different; other stands for every other handle. -/
inductive MPI_Datatype where
  | MPI_CHAR : MPI_Datatype
  | MPI_BYTE : MPI_Datatype
  | MPI_SHORT : MPI_Datatype
  | MPI_UNSIGNED_SHORT : MPI_Datatype
  | MPI_INT : MPI_Datatype
  | MPI_UNSIGNED : MPI_Datatype
  | MPI_LONG : MPI_Datatype
  | MPI_UNSIGNED_LONG : MPI_Datatype
  | MPI_FLOAT : MPI_Datatype
  | MPI_DOUBLE : MPI_Datatype
  | MPI_LONG_DOUBLE : MPI_Datatype
  | MPI_LONG_LONG_INT : MPI_Datatype
  | other : Nat → MPI_Datatype
  deriving DecidableEq, Repr

/-- The values of sizeof on the platform, a parameter; sizeof (char) is 1
in C. -/
structure c_sizes where
  sizeof_short : Nat
  sizeof_int : Nat
  sizeof_long : Nat
  sizeof_float : Nat
  sizeof_double : Nat
  sizeof_long_double : Nat
  sizeof_long_long : Nat
  deriving DecidableEq, Repr

/-- The function sc_mpi_sizeof; SC_CHECK_NOT_REACHED at its end aborts the
process, written none. -/
def sc_mpi_sizeof (abi : c_sizes) (t : MPI_Datatype) : Option Nat :=
  if t = MPI_Datatype.MPI_CHAR then some 1
  else if t = MPI_Datatype.MPI_BYTE then some 1
  else if t = MPI_Datatype.MPI_SHORT ∨ t = MPI_Datatype.MPI_UNSIGNED_SHORT then
    some abi.sizeof_short
  else if t = MPI_Datatype.MPI_INT ∨ t = MPI_Datatype.MPI_UNSIGNED then some abi.sizeof_int
  else if t = MPI_Datatype.MPI_LONG ∨ t = MPI_Datatype.MPI_UNSIGNED_LONG then
    some abi.sizeof_long
  else if t = MPI_Datatype.MPI_FLOAT then some abi.sizeof_float
  else if t = MPI_Datatype.MPI_DOUBLE then some abi.sizeof_double
  else if t = MPI_Datatype.MPI_LONG_DOUBLE then some abi.sizeof_long_double
  else if t = MPI_Datatype.MPI_LONG_LONG_INT then some abi.sizeof_long_long
  else none

/-- Modelled from the spec: the macro SC_ASSERT of sc.h (not part of the
sources at hand).  The spec makes a failed assertion of the stand-in a fatal
contract violation: the process aborts, written none.  A build of sc.h that
compiles assertions out is not what is modelled. -/
def SC_ASSERT (c : Prop) [Decidable c] : Option Unit :=
  if c then some () else none

/-- The call memcpy (q, p, n) on buffers that are lists of bytes: the result
is q after the call, its first n bytes replaced by the first n bytes of p.
C defines the call when both buffers hold at least n bytes. -/
def memcpy {β : Type} (q p : List β) (n : Nat) : List β :=
  p.take n ++ q.drop n

/-- The function MPI_Gather of sc_mpi.c.  The result is the pair of the
return value and of the receive buffer q after the call, none when the
process aborts.  The products of type size_t are products of natural
numbers: a buffer of np elements fits in the address space, so they do not
wrap around. -/
def MPI_Gather {β C : Type} (abi : c_sizes) (p : List β) (np : Int) (tp : MPI_Datatype)
    (q : List β) (nq : Int) (tq : MPI_Datatype) (rank : Int) (_comm : C) :
    Option (Int × List β) := do
  SC_ASSERT (rank = 0 ∧ np ≥ 0 ∧ nq ≥ 0)
  let sp ← sc_mpi_sizeof abi tp
  let lp := np.toNat * sp
  let sq ← sc_mpi_sizeof abi tq
  let lq := nq.toNat * sq
  SC_ASSERT (lp = lq)
  let q := memcpy q p lp
  pure (MPI_SUCCESS, q)

/-! ## Broadcast, reductions and point-to-point calls of the stand-in (sc_mpi.c) -/

/-- Modelled from the spec: the operator handles of sc_mpi.h (not part of
the sources at hand) that mpi_dummy_assert_op lists, taken to be pairwise
different; other stands for every other handle. -/
inductive MPI_Op where
  | MPI_MAX : MPI_Op
  | MPI_MIN : MPI_Op
  | MPI_SUM : MPI_Op
  | MPI_PROD : MPI_Op
  | MPI_LAND : MPI_Op
  | MPI_BAND : MPI_Op
  | MPI_LOR : MPI_Op
  | MPI_BOR : MPI_Op
  | MPI_LXOR : MPI_Op
  | MPI_BXOR : MPI_Op
  | MPI_MINLOC : MPI_Op
  | MPI_MAXLOC : MPI_Op
  | MPI_REPLACE : MPI_Op
  | other : Nat → MPI_Op
  deriving DecidableEq, Repr

/-- The function mpi_dummy_assert_op: the switch breaks on the thirteen
listed operators; SC_CHECK_NOT_REACHED in the default case aborts the
process, written none. -/
def mpi_dummy_assert_op (op : MPI_Op) : Option Unit :=
  match op with
  | MPI_Op.MPI_MAX => some ()
  | MPI_Op.MPI_MIN => some ()
  | MPI_Op.MPI_SUM => some ()
  | MPI_Op.MPI_PROD => some ()
  | MPI_Op.MPI_LAND => some ()
  | MPI_Op.MPI_BAND => some ()
  | MPI_Op.MPI_LOR => some ()
  | MPI_Op.MPI_BOR => some ()
  | MPI_Op.MPI_LXOR => some ()
  | MPI_Op.MPI_BXOR => some ()
  | MPI_Op.MPI_MINLOC => some ()
  | MPI_Op.MPI_MAXLOC => some ()
  | MPI_Op.MPI_REPLACE => some ()
  | MPI_Op.other _ => none

/-- Modelled from the spec: the macro SC_CHECK_ABORT of sc.h (not part of
the sources at hand): the process aborts with the message, written none,
unless the condition holds. -/
def SC_CHECK_ABORT (c : Prop) [Decidable c] (_message : String) : Option Unit :=
  if c then some () else none

/-- The function MPI_Bcast of sc_mpi.c: the pair of the return value and of
the buffer p after the call, none when the process aborts. -/
def MPI_Bcast {β C : Type} (p : List β) (_n : Int) (_t : MPI_Datatype) (rank : Int)
    (_comm : C) : Option (Int × List β) := do
  SC_ASSERT (rank = 0)
  pure (MPI_SUCCESS, p)

/-- The function MPI_Reduce of sc_mpi.c: the pair of the return value and of
the receive buffer q after the call, none when the process aborts. -/
def MPI_Reduce {β C : Type} (abi : c_sizes) (p q : List β) (n : Int) (t : MPI_Datatype)
    (op : MPI_Op) (rank : Int) (_comm : C) : Option (Int × List β) := do
  SC_ASSERT (rank = 0 ∧ n ≥ 0)
  mpi_dummy_assert_op op
  let s ← sc_mpi_sizeof abi t
  let l := n.toNat * s
  let q := memcpy q p l
  pure (MPI_SUCCESS, q)

/-- The function MPI_Allreduce of sc_mpi.c: the pair of the return value and
of the receive buffer q after the call, none when the process aborts. -/
def MPI_Allreduce {β C : Type} (abi : c_sizes) (p q : List β) (n : Int) (t : MPI_Datatype)
    (op : MPI_Op) (_comm : C) : Option (Int × List β) := do
  SC_ASSERT (n ≥ 0)
  mpi_dummy_assert_op op
  let s ← sc_mpi_sizeof abi t
  let l := n.toNat * s
  let q := memcpy q p l
  pure (MPI_SUCCESS, q)

/-- The function MPI_Irecv of sc_mpi.c: the return value, none when the
process aborts.  The types of the buffer, of communicators and of requests
are parameters. -/
def MPI_Irecv {B C R : Type} (_buf : B) (_count : Int) (_datatype : MPI_Datatype)
    (_source _tag : Int) (_comm : C) (_request : R) : Option Int := do
  SC_CHECK_ABORT False "MPI_Irecv is not implemented"
  pure MPI_SUCCESS

/-- The function MPI_Isend of sc_mpi.c. -/
def MPI_Isend {B C R : Type} (_buf : B) (_count : Int) (_datatype : MPI_Datatype)
    (_dest _tag : Int) (_comm : C) (_request : R) : Option Int := do
  SC_CHECK_ABORT False "MPI_Isend is not implemented"
  pure MPI_SUCCESS

/-- The function MPI_Send of sc_mpi.c. -/
def MPI_Send {B C : Type} (_buf : B) (_count : Int) (_datatype : MPI_Datatype)
    (_dest _tag : Int) (_comm : C) : Option Int := do
  SC_CHECK_ABORT False "MPI_Send is not implemented"
  pure MPI_SUCCESS

/-- The function MPI_Waitall of sc_mpi.c. -/
def MPI_Waitall {R S : Type} (count : Int) (_array_of_requests : R)
    (_array_of_statuses : S) : Option Int := do
  SC_CHECK_ABORT (count = 0) "MPI_Waitall handles only zero requests"
  pure MPI_SUCCESS

/-! ## The function sc_statinfo_print -/

/-- An argument of a formatted output call: a string for %s, an int for %d,
a double for %g, or the local array buffer as snprintf (buffer, BUFSIZ,
format, argument) has filled it. -/
inductive print_arg (α : Type) where
  | str : String → print_arg α
  | int : Int → print_arg α
  | dbl : α → print_arg α
  | buffer : String → print_arg α → print_arg α
  deriving Repr

/-- One call that writes to a stream: fprintf with its format and its
arguments, or fputs with its string. -/
inductive output_call (α : Type) where
  | fprintf : String → List (print_arg α) → output_call α
  | fputs : String → output_call α
  deriving Repr

/-- The body of the loop of sc_statinfo_print for full output: the calls
made for the record si of index i. -/
def print_full_body {α : Type} [LinearOrderedField α] (i : Nat) (si : sc_statinfo_t α) :
    List (output_call α) :=
  [ (match si.variable_name with
      | some v => output_call.fprintf "Statistics for variable: %s\n" [print_arg.str v]
      | none => output_call.fprintf "Statistics for variable no. %d\n" [print_arg.int i]),
    output_call.fprintf "   Global number of values: %5d\n" [print_arg.int si.count],
    (if si.average ≠ 0 then
      output_call.fprintf "   Mean value (std. dev.):         %g (%.3g = %.3g%%)\n"
        [print_arg.dbl si.average, print_arg.dbl si.standev,
          print_arg.dbl (100 * si.standev / abs si.average)]
    else
      output_call.fprintf "   Mean value (std. dev.):         %g (%.3g)\n"
        [print_arg.dbl si.average, print_arg.dbl si.standev]),
    output_call.fprintf "   Minimum attained at rank %5d: %g\n"
      [print_arg.int si.min_at_rank, print_arg.dbl si.min],
    output_call.fprintf "   Maximum attained at rank %5d: %g\n"
      [print_arg.int si.max_at_rank, print_arg.dbl si.max] ]

/-- The body of the loop of sc_statinfo_print for short output. -/
def print_short_body {α : Type} [LinearOrderedField α] (i : Nat) (si : sc_statinfo_t α) :
    List (output_call α) :=
  let buffer : print_arg α :=
    match si.variable_name with
    | some v => print_arg.buffer "for variable %s:" (print_arg.str v)
    | none => print_arg.buffer "for variable no. %d:" (print_arg.int i)
  [ if si.average ≠ 0 then
      output_call.fprintf "Mean value (std. dev.) %-28s %g (%.3g = %.3g%%)\n"
        [buffer, print_arg.dbl si.average, print_arg.dbl si.standev,
          print_arg.dbl (100 * si.standev / abs si.average)]
    else
      output_call.fprintf "Mean value (std. dev.) %-28s %g (%.3g)\n"
        [buffer, print_arg.dbl si.average, print_arg.dbl si.standev] ]

/-- The body of the loop of sc_statinfo_print for the summary. -/
def print_summary_body {α : Type} [LinearOrderedField α] (i : Nat) (si : sc_statinfo_t α) :
    List (output_call α) :=
  [ output_call.fprintf "%s%g"
      [print_arg.str (if i = 0 then "[ " else " "), print_arg.dbl si.average] ]

/-- A loop for (i = first; ...; ++i) of sc_statinfo_print over the records
from index first on, with the given body. -/
def print_loop {α : Type} (body : Nat → sc_statinfo_t α → List (output_call α)) :
    Nat → List (sc_statinfo_t α) → List (output_call α)
  | _, [] => []
  | i, si :: stats => body i si ++ print_loop body (i + 1) stats

/-- The function sc_statinfo_print.  The array stats is the list of its
nvars records; the stream nout is none for NULL and otherwise the list of
the calls that have written to it so far.  The result is the pair of the
array and of the stream after the call. -/
def sc_statinfo_print {α : Type} [LinearOrderedField α] (stats : List (sc_statinfo_t α))
    (full summary : Bool) (nout : Option (List (output_call α))) :
    List (sc_statinfo_t α) × Option (List (output_call α)) :=
  match nout with
  | none => (stats, none)
  | some written =>
    let written :=
      if full then written ++ print_loop print_full_body 0 stats
      else written ++ print_loop print_short_body 0 stats
    let written :=
      if summary then
        written ++ [output_call.fputs "Summary = "] ++ print_loop print_summary_body 0 stats
          ++ [output_call.fputs " ];\n"]
      else written
    (stats, some written)

/-! ## The reduction operator on buffers of doubles -/

/-- The data set of seven doubles that starts at element p of a memory of
doubles. -/
def read7 {α : Type} (mem : Nat → α) (p : Nat) : flat7 α :=
  { x0 := mem (p + 0)
    x1 := mem (p + 1)
    x2 := mem (p + 2)
    x3 := mem (p + 3)
    x4 := mem (p + 4)
    x5 := mem (p + 5)
    x6 := mem (p + 6) }

/-- The buffer of n data sets that starts at element p of a memory of
doubles. -/
def load7 {α : Type} (mem : Nat → α) (p n : Nat) : List (flat7 α) :=
  (List.range n).map (fun k => read7 mem (p + 7 * k))

/-- The first block of the loop body of sc_statinfo_mpifunc on a memory of
doubles, the pointers in and inout being the element indices inp and inout:
sum count, values and their squares.  The assignments are made one by one in
the order of the source, each on the memory the earlier ones have left. -/
def mpifunc_mem_sums {α : Type} [LinearOrderedField α] (mem : Nat → α) (inp inout : Nat) :
    Nat → α :=
  let mem := Function.update mem (inout + 0) (mem (inout + 0) + mem (inp + 0))
  let mem := Function.update mem (inout + 1) (mem (inout + 1) + mem (inp + 1))
  let mem := Function.update mem (inout + 2) (mem (inout + 2) + mem (inp + 2))
  mem

/-- The second block of the loop body: compute minimum and its rank. -/
def mpifunc_mem_min {α : Type} [LinearOrderedField α] (mem : Nat → α) (inp inout : Nat) :
    Nat → α :=
  if mem (inp + 3) < mem (inout + 3) then
    let mem := Function.update mem (inout + 3) (mem (inp + 3))
    Function.update mem (inout + 5) (mem (inp + 5))
  else if mem (inp + 3) = mem (inout + 3) then
    Function.update mem (inout + 5) (SC_MIN (mem (inp + 5)) (mem (inout + 5)))
  else mem

/-- The third block of the loop body: compute maximum and its rank. -/
def mpifunc_mem_max {α : Type} [LinearOrderedField α] (mem : Nat → α) (inp inout : Nat) :
    Nat → α :=
  if mem (inp + 4) > mem (inout + 4) then
    let mem := Function.update mem (inout + 4) (mem (inp + 4))
    Function.update mem (inout + 6) (mem (inp + 6))
  else if mem (inp + 4) = mem (inout + 4) then
    Function.update mem (inout + 6) (SC_MIN (mem (inp + 6)) (mem (inout + 6)))
  else mem

/-- The body of the loop of sc_statinfo_mpifunc on a memory of doubles: its
three blocks one after the other. -/
def mpifunc_mem_body {α : Type} [LinearOrderedField α] (mem : Nat → α) (inp inout : Nat) :
    Nat → α :=
  let mem := mpifunc_mem_sums mem inp inout
  let mem := mpifunc_mem_min mem inp inout
  let mem := mpifunc_mem_max mem inp inout
  mem

/-- The loop of sc_statinfo_mpifunc on a memory of doubles with n iterations
left: after the body both pointers advance to the next data set. -/
def mpifunc_mem_loop {α : Type} [LinearOrderedField α] :
    Nat → (Nat → α) → Nat → Nat → (Nat → α)
  | 0, mem, _, _ => mem
  | n + 1, mem, inp, inout =>
      mpifunc_mem_loop n (mpifunc_mem_body mem inp inout) (inp + 7) (inout + 7)

/-- The function sc_statinfo_mpifunc on a memory of doubles: invec and
inoutvec are the element indices at which the two buffers start, len is the
int that the third argument points to.  The loop for (i = 0; i < len; ++i)
makes len iterations, none for a negative len.  The result is the memory
after the call. -/
def sc_statinfo_mpifunc_mem {α : Type} [LinearOrderedField α] (mem : Nat → α)
    (invec inoutvec : Nat) (len : Int) : Nat → α :=
  mpifunc_mem_loop len.toNat mem invec inoutvec

/-- Data set number k of the in-out buffer after sc_statinfo_mpifunc, for
the data sets a and b that the two buffers hold at that index, none where a
buffer has no such data set: the merge when the loop visits k, the data set
as it was when it does not. -/
def mpifunc_at {α : Type} [LinearOrderedField α] (visited : Bool) :
    Option (flat7 α) → Option (flat7 α) → Option (flat7 α)
  | some a, some b => if visited then some (mpifunc_body a b) else some b
  | _, b => b

/-- Record number k of the array stats after the second loop of
sc_statinfo_compute, for the data set and the record at that index. -/
def compute_derive_at {α : Type} [LinearOrderedField α] [FloorRing α] (sqrt : α → α) :
    Option (flat7 α) → Option (sc_statinfo_t α) → Option (sc_statinfo_t α)
  | some f, some s => some (compute_derive_body sqrt f s)
  | _, s => s

/-- The reduction tree with the function f applied to every contribution. -/
def RTree.map {β γ : Type} (f : β → γ) : RTree β → RTree γ
  | RTree.leaf b => RTree.leaf (f b)
  | RTree.node l r => RTree.node (l.map f) (r.map f)

/-! ## The conversion to int within the range of int -/

/-- The conversion (int) x of a double to an int with the range of int taken
into account.  Where the truncated value is representable as an int the
result is that value, as with double_to_int.  Where it is not, C leaves the
behaviour undefined; the value given here is the one the conversion
instruction of x86 processors yields, INT_MIN. -/
def double_to_int_c {α : Type} [LinearOrderedField α] [FloorRing α] (x : α) : Int :=
  if INT_MIN ≤ double_to_int x ∧ double_to_int x ≤ INT_MAX then double_to_int x else INT_MIN

/-- The body of the second loop of sc_statinfo_compute as
compute_derive_body has it, with the three conversions to int made within
the range of int. -/
def compute_derive_body_c {α : Type} [LinearOrderedField α] [FloorRing α]
    (sqrt : α → α) (f : flat7 α) (s : sc_statinfo_t α) : sc_statinfo_t α :=
  let cnt := f.x0
  let s := { s with count := double_to_int_c cnt }
  let s := { s with sum_values := f.x1 }
  let s := { s with sum_squares := f.x2 }
  let s := { s with min := f.x3 }
  let s := { s with max := f.x4 }
  let s := { s with min_at_rank := double_to_int_c f.x5 }
  let s := { s with max_at_rank := double_to_int_c f.x6 }
  let avg := s.sum_values / cnt
  let s := { s with average := avg }
  let s := { s with variance := s.sum_squares / cnt - avg * avg }
  let s := { s with variance := SC_MAX s.variance 0 }
  let s := { s with variance_mean := s.variance / cnt }
  let s := { s with standev := sqrt s.variance }
  let s := { s with standev_mean := sqrt s.variance_mean }
  s

/-! ## Double arithmetic with rounding -/

/-- The integer nearest to q, the even one of the two when q lies half way
between two integers: the rounding of IEEE 754 arithmetic in its default
mode (round to nearest, ties to even). -/
def round_half_even (q : ℚ) : Int :=
  let f := Int.floor q
  let r := q - f
  if r < 1 / 2 then f
  else if 1 / 2 < r then f + 1
  else if f % 2 = 0 then f else f + 1

/-- The double nearest to the rational x, ties to even: with 2 ^ e the power
of two with 2 ^ e <= |x| < 2 ^ (e + 1), the doubles of that magnitude are the
multiples of 2 ^ (e - 52) (a significand of 53 bits), and x is rounded to
the nearest of them.  This is the result of a double operation whose exact
result is x, for |x| in the range of the normal doubles, from 2 ^ (-1022) to
the largest finite double; zero stays zero.  Outside that range (subnormal
results, overflow) the function is not meant to be read as the C result. -/
def round_to_double (x : ℚ) : ℚ :=
  if x = 0 then 0
  else
    let e := Int.log 2 |x|
    let ulp : ℚ := 2 ^ (e - 52)
    round_half_even (x / ulp) * ulp

/-- The function sc_statinfo_set1 in double arithmetic: fl is the rounding
of the result of an operation on doubles to a double. -/
def sc_statinfo_set1_fl {α : Type} [LinearOrderedField α] (fl : α → α)
    (stats : sc_statinfo_t α) (value : α) (variable_name : Option String) :
    sc_statinfo_t α :=
  let stats := { stats with count := 1 }
  let stats := { stats with sum_values := value }
  let stats := { stats with sum_squares := fl (value * value) }
  let stats := { stats with min := value }
  let stats := { stats with max := value }
  let stats := { stats with variable_name := variable_name }
  stats

/-- The body of the loop of sc_statinfo_mpifunc in double arithmetic: the
three sums are rounded by fl; the comparisons and the assignments of the
minimum, the maximum and their ranks involve no arithmetic. -/
def mpifunc_body_fl {α : Type} [LinearOrderedField α] (fl : α → α) (i o : flat7 α) :
    flat7 α :=
  -- sum count, values and their squares
  let o := { o with x0 := fl (o.x0 + i.x0) }
  let o := { o with x1 := fl (o.x1 + i.x1) }
  let o := { o with x2 := fl (o.x2 + i.x2) }
  -- compute minimum and its rank
  let o :=
    if i.x3 < o.x3 then { o with x3 := i.x3, x5 := i.x5 }
    else if i.x3 = o.x3 then { o with x5 := SC_MIN i.x5 o.x5 }
    else o
  -- compute maximum and its rank
  let o :=
    if i.x4 > o.x4 then { o with x4 := i.x4, x6 := i.x6 }
    else if i.x4 = o.x4 then { o with x6 := SC_MIN i.x6 o.x6 }
    else o
  o

/-- The function sc_statinfo_mpifunc in double arithmetic: the loop over len
data sets. -/
def sc_statinfo_mpifunc_fl {α : Type} [LinearOrderedField α] (fl : α → α) :
    List (flat7 α) → List (flat7 α) → Nat → List (flat7 α)
  | i :: invec, o :: inoutvec, len + 1 =>
      mpifunc_body_fl fl i o :: sc_statinfo_mpifunc_fl fl invec inoutvec len
  | _, inoutvec, _ => inoutvec

/-- The body of the second loop of sc_statinfo_compute in double arithmetic:
every division, multiplication and subtraction is rounded by fl on its own,
in the order in which the source evaluates them (no fused multiply-add, no
intermediate result of a higher precision); the function sqrt of the C
library is a parameter and returns a double. -/
def compute_derive_body_fl {α : Type} [LinearOrderedField α] [FloorRing α]
    (fl sqrt : α → α) (f : flat7 α) (s : sc_statinfo_t α) : sc_statinfo_t α :=
  let cnt := f.x0
  let s := { s with count := double_to_int cnt }
  let s := { s with sum_values := f.x1 }
  let s := { s with sum_squares := f.x2 }
  let s := { s with min := f.x3 }
  let s := { s with max := f.x4 }
  let s := { s with min_at_rank := double_to_int f.x5 }
  let s := { s with max_at_rank := double_to_int f.x6 }
  let avg := fl (s.sum_values / cnt)
  let s := { s with average := avg }
  let s := { s with variance := fl (fl (s.sum_squares / cnt) - fl (avg * avg)) }
  let s := { s with variance := SC_MAX s.variance 0 }
  let s := { s with variance_mean := fl (s.variance / cnt) }
  let s := { s with standev := sqrt s.variance }
  let s := { s with standev_mean := sqrt s.variance_mean }
  s

/-- The second loop of sc_statinfo_compute in double arithmetic. -/
def compute_derive_fl {α : Type} [LinearOrderedField α] [FloorRing α]
    (fl sqrt : α → α) : List (flat7 α) → List (sc_statinfo_t α) → List (sc_statinfo_t α)
  | f :: flatout, s :: stats =>
      compute_derive_body_fl fl sqrt f s :: compute_derive_fl fl sqrt flatout stats
  | _, stats => stats

/-- The function sc_statinfo_compute as compiled with SC_MPI, on a real
transport whose calls all report MPI_SUCCESS, in double arithmetic: flatten
with the own rank (the conversion of an int to double is exact), all-reduce
of nvars data sets with the operator sc_statinfo_mpifunc, then unflatten and
derive. -/
def sc_statinfo_compute_mpi_fl {α : Type} [LinearOrderedField α] [FloorRing α]
    (fl sqrt : α → α) (mpicomm : real_transport α) (stats : List (sc_statinfo_t α)) :
    List (sc_statinfo_t α) :=
  let rank := mpicomm.rank
  let nvars := stats.length
  let flatin := compute_flatten rank stats
  let flatout := (mpicomm.tree flatin).reduce (fun invec inoutvec =>
    sc_statinfo_mpifunc_fl fl invec inoutvec nvars)
  compute_derive_fl fl sqrt flatout stats

/-- The first data set of a buffer, the zero data set for an empty
buffer. -/
def first_data_set {α : Type} [LinearOrderedField α] (b : List (flat7 α)) : flat7 α :=
  b.headD { x0 := 0, x1 := 0, x2 := 0, x3 := 0, x4 := 0, x5 := 0, x6 := 0 }

/-! ## Sample data -/

/-- A record over the rationals with every field zero and no name. -/
def sample_blank : sc_statinfo_t ℚ :=
  { count := 0, sum_values := 0, sum_squares := 0, min := 0, max := 0,
    min_at_rank := 0, max_at_rank := 0, average := 0, variance := 0, standev := 0,
    variance_mean := 0, standev_mean := 0, variable_name := none }

/-- Three participants, ranks 0, 1 and 2, seeded with the values 4, 2 and 2. -/
def sample_group : List (Int × sc_statinfo_t ℚ) :=
  [(0, sc_statinfo_set1 sample_blank 4 none),
   (1, sc_statinfo_set1 sample_blank 2 none),
   (2, sc_statinfo_set1 sample_blank 2 none)]

/-- A reduction tree over the contributions of the sample group, taken in
the order 2, 0, 1 and grouped to the right. -/
def sample_tree : RTree (flat7 ℚ) :=
  RTree.node (RTree.leaf (contribution (2, sc_statinfo_set1 sample_blank 2 none)))
    (RTree.node (RTree.leaf (contribution (0, sc_statinfo_set1 sample_blank 4 none)))
      (RTree.leaf (contribution (1, sc_statinfo_set1 sample_blank 2 none))))

/-- A contribution with count 0 whose min exceeds its max. -/
def sample_idle : flat7 ℚ :=
  { x0 := 0, x1 := 0, x2 := 0, x3 := 5, x4 := -5, x5 := 1, x6 := 1 }

/-- A contribution with count 2, values 1 and 2. -/
def sample_busy : flat7 ℚ :=
  { x0 := 2, x1 := 3, x2 := 5, x3 := 1, x4 := 2, x5 := 0, x6 := 0 }

/-- The reduced tuple of the four values -2, 2, 2 and 6 reported by the
ranks 0, 1, 2 and 3: count 4, sum of values 8 and sum of squares 48. -/
def sample_reduced : flat7 ℚ :=
  { x0 := 4, x1 := 8, x2 := 48, x3 := -2, x4 := 6, x5 := 0, x6 := 3 }

/-- A record of doubles with special values, every field zero and no
name. -/
def sample_blank_ieee : sc_statinfo_t (ieee ℚ) :=
  { count := 0, sum_values := ieee.fin 0, sum_squares := ieee.fin 0, min := ieee.fin 0,
    max := ieee.fin 0, min_at_rank := 0, max_at_rank := 0, average := ieee.fin 0,
    variance := ieee.fin 0, standev := ieee.fin 0, variance_mean := ieee.fin 0,
    standev_mean := ieee.fin 0, variable_name := none }

/-- A reduced tuple with count 0 and sum of values 0. -/
def sample_empty : flat7 ℚ :=
  { x0 := 0, x1 := 0, x2 := 0, x3 := 0, x4 := 0, x5 := 0, x6 := 0 }

/-- A reduced tuple with count 0 and sum of values 1. -/
def sample_empty_one : flat7 ℚ :=
  { x0 := 0, x1 := 1, x2 := 1, x3 := 1, x4 := 1, x5 := 0, x6 := 0 }

/-- The sizes of an LP64 platform. -/
def sample_lp64 : c_sizes :=
  { sizeof_short := 2, sizeof_int := 4, sizeof_long := 8, sizeof_float := 4,
    sizeof_double := 8, sizeof_long_double := 16, sizeof_long_long := 8 }

/-- Two participants with count 0, the first with sum of values 0 and the
second with sum of values 1, reduced in this order. -/
def sample_zero_tree : RTree (flat7 ℚ) :=
  RTree.node (RTree.leaf sample_empty) (RTree.leaf sample_empty_one)

/-- Two participants, ranks 0 and 1, both seeded with the value 3. -/
def sample_equal_group : List (Int × sc_statinfo_t ℚ) :=
  [(0, sc_statinfo_set1 sample_blank 3 none),
   (1, sc_statinfo_set1 sample_blank 3 (some "b"))]

/-- The reduction of the two equal participants, rank 1 first. -/
def sample_equal_tree : RTree (flat7 ℚ) :=
  RTree.node (RTree.leaf (contribution (1, sc_statinfo_set1 sample_blank 3 (some "b"))))
    (RTree.leaf (contribution (0, sc_statinfo_set1 sample_blank 3 none)))

/-- The scenario of the values 2, 4 and 6, reported by the ranks 1, 2 and
0, reduced in the order of the ranks and grouped to the left. -/
def sample_scenario_tree : RTree (flat7 ℚ) :=
  RTree.node
    (RTree.node (RTree.leaf (contribution (0, sc_statinfo_set1 sample_blank 6 none)))
      (RTree.leaf (contribution (1, sc_statinfo_set1 sample_blank 2 none))))
    (RTree.leaf (contribution (2, sc_statinfo_set1 sample_blank 4 none)))

/-- A real transport with one participant: rank 0, and the reduction of an
all-reduce is the buffer of the caller alone. -/
def sample_one_participant : real_transport ℚ :=
  { rank := 0, tree := RTree.leaf }

/-- A send buffer of five bytes. -/
def sample_send : List Nat := [1, 2, 3, 4, 5]

/-- A receive buffer of six bytes. -/
def sample_recv : List Nat := [0, 0, 0, 0, 0, 0]

/-- A memory of doubles with an input buffer of two data sets at element 0
and an in-out buffer of two data sets at element 14; the cells that follow
hold 99. -/
def sample_memory : Nat → ℚ := fun a =>
  ([1, 4, 16, 4, 4, 0, 0,  1, 5, 25, 5, 5, 0, 0,
    1, 2, 4, 2, 2, 1, 1,  1, 5, 25, 5, 5, 1, 1] : List ℚ).getD a 99

/-- A real transport of two participants seen by the participant of rank 0:
the buffer of the caller is merged with the buffer other of the participant
of rank 1. -/
def sample_pair (other : List (flat7 ℚ)) : real_transport ℚ :=
  { rank := 0
    tree := fun b => RTree.node (RTree.leaf b) (RTree.leaf other) }

/-- Two participants, ranks 0 and 1, whose local counts are both INT_MAX. -/
def sample_full_group : List (Int × sc_statinfo_t ℚ) :=
  [(0, { sample_blank with count := INT_MAX, sum_values := 1, sum_squares := 1 }),
   (1, { sample_blank with count := INT_MAX, sum_values := 1, sum_squares := 1 })]

/-- The reduction tree over the contributions of the two participants with
the local count INT_MAX. -/
def sample_full_tree : RTree (flat7 ℚ) :=
  RTree.node
    (RTree.leaf (contribution
      (0, { sample_blank with count := INT_MAX, sum_values := 1, sum_squares := 1 })))
    (RTree.leaf (contribution
      (1, { sample_blank with count := INT_MAX, sum_values := 1, sum_squares := 1 })))

/-- A real transport of three participants as the participant of rank 0 sees
it: its buffer is merged with the merge of the buffers b1 and b2 of the two
other participants. -/
def sample_trio (b1 b2 : List (flat7 ℚ)) : real_transport ℚ :=
  { rank := 0
    tree := fun b => RTree.node (RTree.leaf b) (RTree.node (RTree.leaf b1) (RTree.leaf b2)) }

/-! ## Field-wise description of the loop body -/

section body_fields

variable {α : Type} [LinearOrderedField α]

theorem mpifunc_body_x0 (a b : flat7 α) : (mpifunc_body a b).x0 = b.x0 + a.x0 := by
  unfold mpifunc_body
  dsimp only
  split_ifs <;> rfl

theorem mpifunc_body_x1 (a b : flat7 α) : (mpifunc_body a b).x1 = b.x1 + a.x1 := by
  unfold mpifunc_body
  dsimp only
  split_ifs <;> rfl

theorem mpifunc_body_x2 (a b : flat7 α) : (mpifunc_body a b).x2 = b.x2 + a.x2 := by
  unfold mpifunc_body
  dsimp only
  split_ifs <;> rfl

theorem mpifunc_body_x3 (a b : flat7 α) :
    (mpifunc_body a b).x3 = if a.x3 < b.x3 then a.x3 else b.x3 := by
  unfold mpifunc_body
  dsimp only
  split_ifs <;> rfl

theorem mpifunc_body_x4 (a b : flat7 α) :
    (mpifunc_body a b).x4 = if a.x4 > b.x4 then a.x4 else b.x4 := by
  unfold mpifunc_body
  dsimp only
  split_ifs <;> rfl

theorem mpifunc_body_x5 (a b : flat7 α) :
    (mpifunc_body a b).x5 =
      if a.x3 < b.x3 then a.x5 else if a.x3 = b.x3 then SC_MIN a.x5 b.x5 else b.x5 := by
  unfold mpifunc_body
  dsimp only
  split_ifs <;> rfl

theorem mpifunc_body_x6 (a b : flat7 α) :
    (mpifunc_body a b).x6 =
      if a.x4 > b.x4 then a.x6 else if a.x4 = b.x4 then SC_MIN a.x6 b.x6 else b.x6 := by
  unfold mpifunc_body
  dsimp only
  split_ifs <;> rfl

theorem SC_MIN_eq_min {β : Type} [LinearOrder β] (a b : β) : SC_MIN a b = Min.min a b := by
  unfold SC_MIN
  split_ifs with h
  · exact (min_eq_left h.le).symm
  · exact (min_eq_right (not_lt.mp h)).symm

theorem SC_MAX_eq_max {β : Type} [LinearOrder β] (a b : β) : SC_MAX a b = Max.max a b := by
  unfold SC_MAX
  split_ifs with h
  · exact (max_eq_left h.le).symm
  · exact (max_eq_right (not_lt.mp h)).symm

end body_fields

/-! ## Auxiliary facts -/

theorem flat7_eq_of_fields {α : Type} (a b : flat7 α)
    (h0 : a.x0 = b.x0) (h1 : a.x1 = b.x1) (h2 : a.x2 = b.x2) (h3 : a.x3 = b.x3)
    (h4 : a.x4 = b.x4) (h5 : a.x5 = b.x5) (h6 : a.x6 = b.x6) : a = b := by
  cases a
  cases b
  simp only [flat7.mk.injEq]
  exact ⟨h0, h1, h2, h3, h4, h5, h6⟩

theorem rank_min_comm {α : Type} [LinearOrderedField α] (a3 b3 a5 b5 : α) :
    (if a3 < b3 then a5 else if a3 = b3 then Min.min a5 b5 else b5) =
    (if b3 < a3 then b5 else if b3 = a3 then Min.min b5 a5 else a5) := by
  rcases lt_trichotomy a3 b3 with h | h | h
  · simp [h, not_lt.mpr h.le, h.ne']
  · simp [h, min_comm]
  · simp [h, not_lt.mpr h.le, h.ne']

theorem rank_min_assoc {α : Type} [LinearOrderedField α] (a3 b3 c3 a5 b5 c5 : α) :
    (if a3 < (if b3 < c3 then b3 else c3) then a5
      else if a3 = (if b3 < c3 then b3 else c3) then
        Min.min a5 (if b3 < c3 then b5 else if b3 = c3 then Min.min b5 c5 else c5)
      else (if b3 < c3 then b5 else if b3 = c3 then Min.min b5 c5 else c5)) =
    (if (if a3 < b3 then a3 else b3) < c3 then
        (if a3 < b3 then a5 else if a3 = b3 then Min.min a5 b5 else b5)
      else if (if a3 < b3 then a3 else b3) = c3 then
        Min.min (if a3 < b3 then a5 else if a3 = b3 then Min.min a5 b5 else b5) c5
      else c5) := by
  rcases lt_trichotomy a3 b3 with h1 | h1 | h1 <;>
  rcases lt_trichotomy b3 c3 with h2 | h2 | h2 <;>
  rcases lt_trichotomy a3 c3 with h3 | h3 | h3 <;>
  first
    | (exfalso; linarith)
    | (subst_vars; simp_all [min_assoc, not_lt.mpr, le_of_lt, ne_of_gt, ne_of_lt, lt_asymm])

theorem rank_max_assoc {α : Type} [LinearOrderedField α] (a4 b4 c4 a6 b6 c6 : α) :
    (if a4 > (if b4 > c4 then b4 else c4) then a6
      else if a4 = (if b4 > c4 then b4 else c4) then
        Min.min a6 (if b4 > c4 then b6 else if b4 = c4 then Min.min b6 c6 else c6)
      else (if b4 > c4 then b6 else if b4 = c4 then Min.min b6 c6 else c6)) =
    (if (if a4 > b4 then a4 else b4) > c4 then
        (if a4 > b4 then a6 else if a4 = b4 then Min.min a6 b6 else b6)
      else if (if a4 > b4 then a4 else b4) = c4 then
        Min.min (if a4 > b4 then a6 else if a4 = b4 then Min.min a6 b6 else b6) c6
      else c6) := by
  rcases lt_trichotomy a4 b4 with h1 | h1 | h1 <;>
  rcases lt_trichotomy b4 c4 with h2 | h2 | h2 <;>
  rcases lt_trichotomy a4 c4 with h3 | h3 | h3 <;>
  first
    | (exfalso; linarith)
    | (subst_vars; simp_all [min_assoc, not_lt.mpr, le_of_lt, ne_of_gt, ne_of_lt, lt_asymm])

theorem ite_lt_eq_min {β : Type} [LinearOrder β] (a b : β) :
    (if a < b then a else b) = Min.min a b := SC_MIN_eq_min a b

theorem ite_gt_eq_max {β : Type} [LinearOrder β] (a b : β) :
    (if a > b then a else b) = Max.max a b := SC_MAX_eq_max a b

theorem mpifunc_single {α : Type} [LinearOrderedField α] (a b : flat7 α) :
    sc_statinfo_mpifunc [a] [b] 1 = [mpifunc_body a b] := rfl

/-! ## Claims about the merge operator -/

/-- C1: the merge operator of sc_statinfo_mpifunc is commutative; merging
record a into b gives the same seven fields as merging b into a, for the
loop body and for the function called on one data set. -/
theorem merge_commutative {α : Type} [LinearOrderedField α] (a b : flat7 α) :
    mpifunc_body a b = mpifunc_body b a ∧
    sc_statinfo_mpifunc [a] [b] 1 = sc_statinfo_mpifunc [b] [a] 1 := by
  suffices h : mpifunc_body a b = mpifunc_body b a by
    exact ⟨h, by rw [mpifunc_single, mpifunc_single, h]⟩
  apply flat7_eq_of_fields
  · rw [mpifunc_body_x0, mpifunc_body_x0, add_comm]
  · rw [mpifunc_body_x1, mpifunc_body_x1, add_comm]
  · rw [mpifunc_body_x2, mpifunc_body_x2, add_comm]
  · rw [mpifunc_body_x3, mpifunc_body_x3, ite_lt_eq_min, ite_lt_eq_min, min_comm]
  · rw [mpifunc_body_x4, mpifunc_body_x4, ite_gt_eq_max, ite_gt_eq_max, max_comm]
  · rw [mpifunc_body_x5, mpifunc_body_x5, SC_MIN_eq_min, SC_MIN_eq_min]
    exact rank_min_comm a.x3 b.x3 a.x5 b.x5
  · rw [mpifunc_body_x6, mpifunc_body_x6, SC_MIN_eq_min, SC_MIN_eq_min]
    have h := rank_min_comm (-a.x4) (-b.x4) a.x6 b.x6
    simp only [neg_lt_neg_iff, neg_inj] at h
    exact h

/-- C2: the merge operator of sc_statinfo_mpifunc is associative; merging a
into the merge of b into c gives the same seven fields, the two rank fields
included, as merging the merge of a into b into c, for the loop body and
for the function called on one data set. -/
theorem merge_associative {α : Type} [LinearOrderedField α] (a b c : flat7 α) :
    mpifunc_body a (mpifunc_body b c) = mpifunc_body (mpifunc_body a b) c ∧
    sc_statinfo_mpifunc [a] (sc_statinfo_mpifunc [b] [c] 1) 1 =
      sc_statinfo_mpifunc (sc_statinfo_mpifunc [a] [b] 1) [c] 1 := by
  suffices h : mpifunc_body a (mpifunc_body b c) = mpifunc_body (mpifunc_body a b) c by
    exact ⟨h, by rw [mpifunc_single, mpifunc_single, mpifunc_single, mpifunc_single, h]⟩
  apply flat7_eq_of_fields
  · simp only [mpifunc_body_x0]
    ring
  · simp only [mpifunc_body_x1]
    ring
  · simp only [mpifunc_body_x2]
    ring
  · simp only [mpifunc_body_x3, ite_lt_eq_min]
    exact (min_assoc _ _ _).symm
  · simp only [mpifunc_body_x4, ite_gt_eq_max]
    exact (max_assoc _ _ _).symm
  · simp only [mpifunc_body_x5, mpifunc_body_x3, SC_MIN_eq_min]
    exact rank_min_assoc a.x3 b.x3 c.x3 a.x5 b.x5 c.x5
  · simp only [mpifunc_body_x6, mpifunc_body_x4, SC_MIN_eq_min]
    exact rank_max_assoc a.x4 b.x4 c.x4 a.x6 b.x6 c.x6

/-- C3: merging record a into record b, the resulting min is the smaller of
the two input mins; the resulting rank-of-min is the rank of the record
with the strictly smaller min, and on equal mins it is the smaller of the
two input ranks-of-min. -/
theorem merge_min_and_rank {α : Type} [LinearOrderedField α] (a b : flat7 α) :
    sc_statinfo_mpifunc [a] [b] 1 = [mpifunc_body a b] ∧
    (mpifunc_body a b).x3 = Min.min a.x3 b.x3 ∧
    (a.x3 < b.x3 → (mpifunc_body a b).x5 = a.x5) ∧
    (b.x3 < a.x3 → (mpifunc_body a b).x5 = b.x5) ∧
    (a.x3 = b.x3 → (mpifunc_body a b).x5 = Min.min a.x5 b.x5) := by
  refine ⟨rfl, ?_, ?_, ?_, ?_⟩
  · rw [mpifunc_body_x3, ite_lt_eq_min]
  · intro h
    rw [mpifunc_body_x5, if_pos h]
  · intro h
    rw [mpifunc_body_x5, if_neg (not_lt.mpr h.le), if_neg h.ne']
  · intro h
    rw [mpifunc_body_x5, if_neg (not_lt.mpr h.ge), if_pos h, SC_MIN_eq_min]

/-- C4: merging record a into record b, the resulting max is the larger of
the two input maxes; the resulting rank-of-max is the rank of the record
with the strictly larger max, and on equal maxes it is the smaller of the
two input ranks-of-max. -/
theorem merge_max_and_rank {α : Type} [LinearOrderedField α] (a b : flat7 α) :
    sc_statinfo_mpifunc [a] [b] 1 = [mpifunc_body a b] ∧
    (mpifunc_body a b).x4 = Max.max a.x4 b.x4 ∧
    (a.x4 > b.x4 → (mpifunc_body a b).x6 = a.x6) ∧
    (b.x4 > a.x4 → (mpifunc_body a b).x6 = b.x6) ∧
    (a.x4 = b.x4 → (mpifunc_body a b).x6 = Min.min a.x6 b.x6) := by
  refine ⟨rfl, ?_, ?_, ?_, ?_⟩
  · rw [mpifunc_body_x4, ite_gt_eq_max]
  · intro h
    rw [mpifunc_body_x6, if_pos h]
  · intro h
    rw [mpifunc_body_x6, if_neg (not_lt.mpr (le_of_lt h)), if_neg (ne_of_lt h)]
  · intro h
    rw [mpifunc_body_x6, if_neg (not_lt.mpr h.le), if_pos h, SC_MIN_eq_min]

/-- C5: merging record a into record b, the resulting count, sum of values
and sum of squares are the sums of the corresponding fields of a and b. -/
theorem merge_sums {α : Type} [LinearOrderedField α] (a b : flat7 α) :
    sc_statinfo_mpifunc [a] [b] 1 = [mpifunc_body a b] ∧
    (mpifunc_body a b).x0 = a.x0 + b.x0 ∧
    (mpifunc_body a b).x1 = a.x1 + b.x1 ∧
    (mpifunc_body a b).x2 = a.x2 + b.x2 := by
  refine ⟨rfl, ?_, ?_, ?_⟩
  · rw [mpifunc_body_x0, add_comm]
  · rw [mpifunc_body_x1, add_comm]
  · rw [mpifunc_body_x2, add_comm]

/-! ## Reductions over a tree -/

section reduction

variable {α : Type} [LinearOrderedField α]

theorem reduce_x0 (t : RTree (flat7 α)) :
    (t.reduce mpifunc_body).x0 = (t.leaves.map flat7.x0).sum := by
  induction t with
  | leaf b => simp [RTree.reduce, RTree.leaves]
  | node l r ihl ihr =>
    simp only [RTree.reduce, RTree.leaves, mpifunc_body_x0, List.map_append, List.sum_append,
      ihl, ihr]
    exact add_comm _ _

/-- The pair (x3, x5) of a merge is the lexicographically smallest of the
pairs of the operands. -/
theorem merge_min_spec (a b : flat7 α) :
    (mpifunc_body a b).x3 ≤ a.x3 ∧ (mpifunc_body a b).x3 ≤ b.x3 ∧
    ((a.x3 = (mpifunc_body a b).x3 ∧ a.x5 = (mpifunc_body a b).x5) ∨
     (b.x3 = (mpifunc_body a b).x3 ∧ b.x5 = (mpifunc_body a b).x5)) ∧
    (a.x3 = (mpifunc_body a b).x3 → (mpifunc_body a b).x5 ≤ a.x5) ∧
    (b.x3 = (mpifunc_body a b).x3 → (mpifunc_body a b).x5 ≤ b.x5) := by
  rw [mpifunc_body_x3, mpifunc_body_x5, SC_MIN_eq_min]
  rcases lt_trichotomy a.x3 b.x3 with h | h | h
  · rw [if_pos h, if_pos h]
    exact ⟨le_refl _, h.le, Or.inl ⟨rfl, rfl⟩, fun _ => le_refl _, fun h2 => absurd h2 h.ne'⟩
  · rw [if_neg (not_lt.mpr h.ge), if_neg (not_lt.mpr h.ge), if_pos h]
    refine ⟨h.ge, le_refl _, ?_, fun _ => min_le_left _ _, fun _ => min_le_right _ _⟩
    rcases le_total a.x5 b.x5 with h5 | h5
    · exact Or.inl ⟨h, (min_eq_left h5).symm⟩
    · exact Or.inr ⟨rfl, (min_eq_right h5).symm⟩
  · rw [if_neg (not_lt.mpr h.le), if_neg (not_lt.mpr h.le), if_neg h.ne']
    exact ⟨h.le, le_refl _, Or.inr ⟨rfl, rfl⟩, fun h2 => absurd h2 h.ne', fun _ => le_refl _⟩

/-- The pair (x4, x6) of a merge: the largest x4, and among equal x4 the
smallest x6. -/
theorem merge_max_spec (a b : flat7 α) :
    a.x4 ≤ (mpifunc_body a b).x4 ∧ b.x4 ≤ (mpifunc_body a b).x4 ∧
    ((a.x4 = (mpifunc_body a b).x4 ∧ a.x6 = (mpifunc_body a b).x6) ∨
     (b.x4 = (mpifunc_body a b).x4 ∧ b.x6 = (mpifunc_body a b).x6)) ∧
    (a.x4 = (mpifunc_body a b).x4 → (mpifunc_body a b).x6 ≤ a.x6) ∧
    (b.x4 = (mpifunc_body a b).x4 → (mpifunc_body a b).x6 ≤ b.x6) := by
  rw [mpifunc_body_x4, mpifunc_body_x6, SC_MIN_eq_min]
  rcases lt_trichotomy a.x4 b.x4 with h | h | h
  · rw [if_neg (not_lt.mpr h.le), if_neg (not_lt.mpr h.le), if_neg h.ne]
    exact ⟨h.le, le_refl _, Or.inr ⟨rfl, rfl⟩, fun h2 => absurd h2 h.ne, fun _ => le_refl _⟩
  · rw [if_neg (not_lt.mpr h.le), if_neg (not_lt.mpr h.le), if_pos h]
    refine ⟨h.le, le_refl _, ?_, fun _ => min_le_left _ _, fun _ => min_le_right _ _⟩
    rcases le_total a.x6 b.x6 with h6 | h6
    · exact Or.inl ⟨h, (min_eq_left h6).symm⟩
    · exact Or.inr ⟨rfl, (min_eq_right h6).symm⟩
  · rw [if_pos h, if_pos h]
    exact ⟨le_refl _, h.le, Or.inl ⟨rfl, rfl⟩, fun _ => le_refl _, fun h2 => absurd h2 h.ne⟩

theorem reduce_min_spec (t : RTree (flat7 α)) :
    (∀ l ∈ t.leaves, (t.reduce mpifunc_body).x3 ≤ l.x3) ∧
    (∃ l ∈ t.leaves, l.x3 = (t.reduce mpifunc_body).x3 ∧ l.x5 = (t.reduce mpifunc_body).x5) ∧
    (∀ l ∈ t.leaves, l.x3 = (t.reduce mpifunc_body).x3 → (t.reduce mpifunc_body).x5 ≤ l.x5) := by
  induction t with
  | leaf b =>
    simp only [RTree.reduce, RTree.leaves, List.mem_singleton]
    exact ⟨fun l hl => hl ▸ le_refl _, ⟨b, rfl, rfl, rfl⟩, fun l hl _ => hl ▸ le_refl _⟩
  | node l r ihl ihr =>
    obtain ⟨la, lb, lc⟩ := ihl
    obtain ⟨ra, rb, rc⟩ := ihr
    obtain ⟨m1, m2, m3, m4, m5⟩ := merge_min_spec (l.reduce mpifunc_body) (r.reduce mpifunc_body)
    simp only [RTree.reduce, RTree.leaves, List.mem_append]
    refine ⟨?_, ?_, ?_⟩
    · rintro x (hx | hx)
      · exact le_trans m1 (la x hx)
      · exact le_trans m2 (ra x hx)
    · rcases m3 with ⟨e3, e5⟩ | ⟨e3, e5⟩
      · obtain ⟨x, hx, x3, x5⟩ := lb
        exact ⟨x, Or.inl hx, x3.trans e3, x5.trans e5⟩
      · obtain ⟨x, hx, x3, x5⟩ := rb
        exact ⟨x, Or.inr hx, x3.trans e3, x5.trans e5⟩
    · rintro x (hx | hx) hx3
      · have e : (l.reduce mpifunc_body).x3 = (mpifunc_body (l.reduce mpifunc_body)
            (r.reduce mpifunc_body)).x3 := le_antisymm (hx3 ▸ la x hx) m1
        exact le_trans (m4 e) (lc x hx (hx3.trans e.symm))
      · have e : (r.reduce mpifunc_body).x3 = (mpifunc_body (l.reduce mpifunc_body)
            (r.reduce mpifunc_body)).x3 := le_antisymm (hx3 ▸ ra x hx) m2
        exact le_trans (m5 e) (rc x hx (hx3.trans e.symm))

theorem reduce_max_spec (t : RTree (flat7 α)) :
    (∀ l ∈ t.leaves, l.x4 ≤ (t.reduce mpifunc_body).x4) ∧
    (∃ l ∈ t.leaves, l.x4 = (t.reduce mpifunc_body).x4 ∧ l.x6 = (t.reduce mpifunc_body).x6) ∧
    (∀ l ∈ t.leaves, l.x4 = (t.reduce mpifunc_body).x4 → (t.reduce mpifunc_body).x6 ≤ l.x6) := by
  induction t with
  | leaf b =>
    simp only [RTree.reduce, RTree.leaves, List.mem_singleton]
    exact ⟨fun l hl => hl ▸ le_refl _, ⟨b, rfl, rfl, rfl⟩, fun l hl _ => hl ▸ le_refl _⟩
  | node l r ihl ihr =>
    obtain ⟨la, lb, lc⟩ := ihl
    obtain ⟨ra, rb, rc⟩ := ihr
    obtain ⟨m1, m2, m3, m4, m5⟩ := merge_max_spec (l.reduce mpifunc_body) (r.reduce mpifunc_body)
    simp only [RTree.reduce, RTree.leaves, List.mem_append]
    refine ⟨?_, ?_, ?_⟩
    · rintro x (hx | hx)
      · exact le_trans (la x hx) m1
      · exact le_trans (ra x hx) m2
    · rcases m3 with ⟨e4, e6⟩ | ⟨e4, e6⟩
      · obtain ⟨x, hx, x4, x6⟩ := lb
        exact ⟨x, Or.inl hx, x4.trans e4, x6.trans e6⟩
      · obtain ⟨x, hx, x4, x6⟩ := rb
        exact ⟨x, Or.inr hx, x4.trans e4, x6.trans e6⟩
    · rintro x (hx | hx) hx4
      · have e : (l.reduce mpifunc_body).x4 = (mpifunc_body (l.reduce mpifunc_body)
            (r.reduce mpifunc_body)).x4 := le_antisymm m1 (hx4 ▸ la x hx)
        exact le_trans (m4 e) (lc x hx (hx4.trans e.symm))
      · have e : (r.reduce mpifunc_body).x4 = (mpifunc_body (l.reduce mpifunc_body)
            (r.reduce mpifunc_body)).x4 := le_antisymm m2 (hx4 ▸ ra x hx)
        exact le_trans (m5 e) (rc x hx (hx4.trans e.symm))

theorem double_to_int_intCast [FloorRing α] (n : Int) : double_to_int (n : α) = n := by
  unfold double_to_int
  split_ifs
  · exact Int.floor_intCast n
  · exact Int.ceil_intCast n

end reduction

/-! ## Field-wise description of the derive loop body -/

section derive_fields

variable {α : Type} [LinearOrderedField α] [FloorRing α]

theorem derive_count (sqrt : α → α) (f : flat7 α) (s : sc_statinfo_t α) :
    (compute_derive_body sqrt f s).count = double_to_int f.x0 := rfl

theorem derive_min (sqrt : α → α) (f : flat7 α) (s : sc_statinfo_t α) :
    (compute_derive_body sqrt f s).min = f.x3 := rfl

theorem derive_max (sqrt : α → α) (f : flat7 α) (s : sc_statinfo_t α) :
    (compute_derive_body sqrt f s).max = f.x4 := rfl

theorem derive_min_at_rank (sqrt : α → α) (f : flat7 α) (s : sc_statinfo_t α) :
    (compute_derive_body sqrt f s).min_at_rank = double_to_int f.x5 := rfl

theorem derive_max_at_rank (sqrt : α → α) (f : flat7 α) (s : sc_statinfo_t α) :
    (compute_derive_body sqrt f s).max_at_rank = double_to_int f.x6 := rfl

theorem derive_average (sqrt : α → α) (f : flat7 α) (s : sc_statinfo_t α) :
    (compute_derive_body sqrt f s).average = f.x1 / f.x0 := rfl

theorem derive_variance (sqrt : α → α) (f : flat7 α) (s : sc_statinfo_t α) :
    (compute_derive_body sqrt f s).variance =
      SC_MAX (f.x2 / f.x0 - f.x1 / f.x0 * (f.x1 / f.x0)) 0 := rfl

theorem derive_variance_mean (sqrt : α → α) (f : flat7 α) (s : sc_statinfo_t α) :
    (compute_derive_body sqrt f s).variance_mean =
      (compute_derive_body sqrt f s).variance / f.x0 := rfl

theorem derive_standev (sqrt : α → α) (f : flat7 α) (s : sc_statinfo_t α) :
    (compute_derive_body sqrt f s).standev = sqrt (compute_derive_body sqrt f s).variance := rfl

theorem derive_standev_mean (sqrt : α → α) (f : flat7 α) (s : sc_statinfo_t α) :
    (compute_derive_body sqrt f s).standev_mean =
      sqrt (compute_derive_body sqrt f s).variance_mean := rfl

end derive_fields

theorem mem_leaves_of_mem {α : Type} [LinearOrderedField α] (ps : List (Int × sc_statinfo_t α)) (t : RTree (flat7 α))
    (h : t.leaves.Perm (ps.map contribution)) (p : Int × sc_statinfo_t α) (hp : p ∈ ps) :
    contribution p ∈ t.leaves :=
  h.mem_iff.mpr (List.mem_map_of_mem contribution hp)

theorem exists_of_mem_leaves {α : Type} [LinearOrderedField α] (ps : List (Int × sc_statinfo_t α)) (t : RTree (flat7 α))
    (h : t.leaves.Perm (ps.map contribution)) (l : flat7 α) (hl : l ∈ t.leaves) :
    ∃ p ∈ ps, contribution p = l :=
  List.mem_map.mp (h.mem_iff.mp hl)

theorem sum_contribution_x0 {α : Type} [LinearOrderedField α]
    (ps : List (Int × sc_statinfo_t α)) :
    ((ps.map contribution).map flat7.x0).sum = (((ps.map fun p => p.2.count).sum : Int) : α) := by
  induction ps with
  | nil => simp
  | cons p ps ih =>
    simp only [List.map_cons, List.sum_cons, Int.cast_add]
    rw [ih]
    rfl


/-! ## Claims about the group-wide reduction and the derive step -/

/-- Field 0 of the reduced tuple and the range of int: for every list of
per-participant records, reduced with the merge operator along any tree
over any ordering of the list, field 0 of the result is the sum of the
fields 0; when the records are the contributions of participants and the
sum of the local counts is representable as an int, the count written by
the derive step is that sum. -/
theorem global_count_is_sum {α : Type} [LinearOrderedField α] [FloorRing α]
    (sqrt : α → α) (l : List (flat7 α)) (t : RTree (flat7 α)) (s0 : sc_statinfo_t α)
    (h : t.leaves.Perm l) :
    (t.reduce mpifunc_body).x0 = (l.map flat7.x0).sum ∧
    ∀ ps : List (Int × sc_statinfo_t α), l = ps.map contribution →
      INT_MIN ≤ (ps.map fun p => p.2.count).sum →
      (ps.map fun p => p.2.count).sum ≤ INT_MAX →
      (compute_derive_body sqrt (t.reduce mpifunc_body) s0).count =
        (ps.map fun p => p.2.count).sum := by
  have hsum : (t.reduce mpifunc_body).x0 = (l.map flat7.x0).sum := by
    rw [reduce_x0]
    exact (h.map flat7.x0).sum_eq
  refine ⟨hsum, ?_⟩
  intro ps hl _ _
  have hcast : (l.map flat7.x0).sum = (((ps.map fun p => p.2.count).sum : Int) : α) := by
    rw [hl]
    exact sum_contribution_x0 ps
  rw [derive_count, hsum, hcast]
  exact double_to_int_intCast _

/-- C7: participants, each contributing its record flattened with its own
rank, are reduced with the merge operator along any tree over any ordering.
Then the global min is the smallest local min, min_at_rank is the rank of a
participant whose local min is the global min, and it is the lowest such
rank; if exactly two participants p and q report the global min,
min_at_rank is the lower of their two ranks. -/
theorem min_at_rank_is_lowest {α : Type} [LinearOrderedField α] [FloorRing α]
    (sqrt : α → α) (ps : List (Int × sc_statinfo_t α)) (t : RTree (flat7 α))
    (s0 : sc_statinfo_t α) (h : t.leaves.Perm (ps.map contribution)) :
    (∀ p ∈ ps, (compute_derive_body sqrt (t.reduce mpifunc_body) s0).min ≤ p.2.min) ∧
    (∃ p ∈ ps, p.2.min = (compute_derive_body sqrt (t.reduce mpifunc_body) s0).min ∧
      p.1 = (compute_derive_body sqrt (t.reduce mpifunc_body) s0).min_at_rank) ∧
    (∀ p ∈ ps, p.2.min = (compute_derive_body sqrt (t.reduce mpifunc_body) s0).min →
      (compute_derive_body sqrt (t.reduce mpifunc_body) s0).min_at_rank ≤ p.1) ∧
    (∀ p ∈ ps, ∀ q ∈ ps,
      p.2.min = (compute_derive_body sqrt (t.reduce mpifunc_body) s0).min →
      q.2.min = (compute_derive_body sqrt (t.reduce mpifunc_body) s0).min →
      (∀ x ∈ ps, x.2.min = (compute_derive_body sqrt (t.reduce mpifunc_body) s0).min →
        x.1 = p.1 ∨ x.1 = q.1) →
      (compute_derive_body sqrt (t.reduce mpifunc_body) s0).min_at_rank = Min.min p.1 q.1) := by
  obtain ⟨ha, ⟨l, hl, hl3, hl5⟩, hc⟩ := reduce_min_spec t
  obtain ⟨w, hw, rfl⟩ := exists_of_mem_leaves ps t h l hl
  have hrank : (compute_derive_body sqrt (t.reduce mpifunc_body) s0).min_at_rank = w.1 := by
    rw [derive_min_at_rank, ← hl5]
    exact double_to_int_intCast w.1
  have hlow : ∀ p ∈ ps, p.2.min = (compute_derive_body sqrt (t.reduce mpifunc_body) s0).min →
      (compute_derive_body sqrt (t.reduce mpifunc_body) s0).min_at_rank ≤ p.1 := by
    intro p hp hpm
    rw [hrank]
    have hle := hc (contribution p) (mem_leaves_of_mem ps t h p hp) hpm
    rw [← hl5] at hle
    exact Int.cast_le.mp hle
  refine ⟨?_, ⟨w, hw, hl3, hrank.symm⟩, hlow, ?_⟩
  · intro p hp
    exact ha (contribution p) (mem_leaves_of_mem ps t h p hp)
  · intro p hp q hq hpm hqm honly
    apply le_antisymm
    · exact le_min (hlow p hp hpm) (hlow q hq hqm)
    · rw [hrank]
      rcases honly w hw hl3 with e | e
      · rw [e]
        exact min_le_left _ _
      · rw [e]
        exact min_le_right _ _

/-- C8: participants, each contributing its record flattened with its own
rank, are reduced with the merge operator along any tree over any ordering.
Then the global max is the largest local max, max_at_rank is the rank of a
participant whose local max is the global max, and it is the lowest such
rank. -/
theorem max_at_rank_is_lowest {α : Type} [LinearOrderedField α] [FloorRing α]
    (sqrt : α → α) (ps : List (Int × sc_statinfo_t α)) (t : RTree (flat7 α))
    (s0 : sc_statinfo_t α) (h : t.leaves.Perm (ps.map contribution)) :
    (∀ p ∈ ps, p.2.max ≤ (compute_derive_body sqrt (t.reduce mpifunc_body) s0).max) ∧
    (∃ p ∈ ps, p.2.max = (compute_derive_body sqrt (t.reduce mpifunc_body) s0).max ∧
      p.1 = (compute_derive_body sqrt (t.reduce mpifunc_body) s0).max_at_rank) ∧
    (∀ p ∈ ps, p.2.max = (compute_derive_body sqrt (t.reduce mpifunc_body) s0).max →
      (compute_derive_body sqrt (t.reduce mpifunc_body) s0).max_at_rank ≤ p.1) := by
  obtain ⟨ha, ⟨l, hl, hl4, hl6⟩, hc⟩ := reduce_max_spec t
  obtain ⟨w, hw, rfl⟩ := exists_of_mem_leaves ps t h l hl
  have hrank : (compute_derive_body sqrt (t.reduce mpifunc_body) s0).max_at_rank = w.1 := by
    rw [derive_max_at_rank, ← hl6]
    exact double_to_int_intCast w.1
  refine ⟨?_, ⟨w, hw, hl4, hrank.symm⟩, ?_⟩
  · intro p hp
    exact ha (contribution p) (mem_leaves_of_mem ps t h p hp)
  · intro p hp hpm
    rw [hrank]
    have hle := hc (contribution p) (mem_leaves_of_mem ps t h p hp) hpm
    rw [← hl6] at hle
    exact Int.cast_le.mp hle

/-- C9: after reducing a list of participant records along any tree over
any ordering, the global min is at most the global max as soon as one
participant has count > 0 and min <= max in its own record; nothing is
assumed of the other records. -/
theorem global_min_le_max {α : Type} [LinearOrderedField α] [FloorRing α]
    (sqrt : α → α) (l : List (flat7 α)) (t : RTree (flat7 α)) (s0 : sc_statinfo_t α)
    (h : t.leaves.Perm l) (p : flat7 α) (hp : p ∈ l) (_hcount : 0 < p.x0)
    (hp34 : p.x3 ≤ p.x4) :
    (compute_derive_body sqrt (t.reduce mpifunc_body) s0).min ≤
      (compute_derive_body sqrt (t.reduce mpifunc_body) s0).max := by
  rw [derive_min, derive_max]
  have hmem : p ∈ t.leaves := h.mem_iff.mpr hp
  exact le_trans ((reduce_min_spec t).1 p hmem) (le_trans hp34 ((reduce_max_spec t).1 p hmem))

/-- C10: for every reduced tuple f with count > 0 the derive step sets
average = sum_values / count, variance = max (0, sum_squares / count -
average * average), standev = sqrt (variance), variance_mean = variance /
count and standev_mean = sqrt (variance_mean); the count it stores is the
count of the tuple whenever that is a whole number. -/
theorem derive_step_fields {α : Type} [LinearOrderedField α] [FloorRing α]
    (sqrt : α → α) (f : flat7 α) (s : sc_statinfo_t α) (_hcount : 0 < f.x0) :
    (compute_derive_body sqrt f s).average = f.x1 / f.x0 ∧
    (compute_derive_body sqrt f s).variance =
      Max.max 0 (f.x2 / f.x0 -
        (compute_derive_body sqrt f s).average * (compute_derive_body sqrt f s).average) ∧
    (compute_derive_body sqrt f s).standev = sqrt (compute_derive_body sqrt f s).variance ∧
    (compute_derive_body sqrt f s).variance_mean =
      (compute_derive_body sqrt f s).variance / f.x0 ∧
    (compute_derive_body sqrt f s).standev_mean =
      sqrt (compute_derive_body sqrt f s).variance_mean ∧
    (∀ n : Int, f.x0 = (n : α) → (compute_derive_body sqrt f s).count = n) := by
  refine ⟨rfl, ?_, rfl, rfl, rfl, ?_⟩
  · rw [derive_variance, derive_average, SC_MAX_eq_max, max_comm]
  · intro n hn
    rw [derive_count, hn]
    exact double_to_int_intCast n

/-! ## The claims on the sample data -/

theorem sample_tree_perm : sample_tree.leaves.Perm (sample_group.map contribution) := by
  simp only [sample_tree, sample_group, RTree.leaves, List.map, List.cons_append, List.nil_append]
  exact (List.Perm.swap _ _ _).trans (List.Perm.cons _ (List.Perm.swap _ _ _))

theorem sample_reduce :
    sample_tree.reduce mpifunc_body =
      { x0 := 3, x1 := 8, x2 := 24, x3 := 2, x4 := 4, x5 := 1, x6 := 0 } := by
  apply flat7_eq_of_fields <;>
  simp only [sample_tree, RTree.reduce, mpifunc_body_x0, mpifunc_body_x1, mpifunc_body_x2,
    mpifunc_body_x3, mpifunc_body_x4, mpifunc_body_x5, mpifunc_body_x6, contribution,
    compute_flatten_body, sc_statinfo_set1, sample_blank, SC_MIN] <;>
  norm_num

theorem global_count_is_sum_witness :
    sample_tree.leaves.Perm (sample_group.map contribution) ∧
    (sample_tree.reduce mpifunc_body).x0 = 3 ∧
    (compute_derive_body id (sample_tree.reduce mpifunc_body) sample_blank).count = 3 := by
  obtain ⟨h1, h2⟩ := global_count_is_sum id (sample_group.map contribution) sample_tree
    sample_blank sample_tree_perm
  refine ⟨sample_tree_perm, ?_, ?_⟩
  · rw [h1]
    simp [sample_group, contribution, compute_flatten_body, sc_statinfo_set1]
    norm_num
  · rw [h2 sample_group rfl (by decide) (by decide)]
    decide

theorem min_at_rank_is_lowest_witness :
    sample_tree.leaves.Perm (sample_group.map contribution) ∧
    (compute_derive_body id (sample_tree.reduce mpifunc_body) sample_blank).min = 2 ∧
    (compute_derive_body id (sample_tree.reduce mpifunc_body) sample_blank).min_at_rank = 1 := by
  obtain ⟨_, _, _, h4⟩ := min_at_rank_is_lowest id sample_group sample_tree sample_blank
    sample_tree_perm
  have hmin : (compute_derive_body id (sample_tree.reduce mpifunc_body) sample_blank).min = 2 := by
    rw [derive_min, sample_reduce]
  refine ⟨sample_tree_perm, hmin, ?_⟩
  have h := h4 (1, sc_statinfo_set1 sample_blank 2 none) (by simp [sample_group])
    (2, sc_statinfo_set1 sample_blank 2 none) (by simp [sample_group])
    (by rw [hmin]; rfl) (by rw [hmin]; rfl)
    (by
      intro x hx hx2
      rw [hmin] at hx2
      simp only [sample_group, List.mem_cons, List.mem_singleton, List.not_mem_nil,
        or_false] at hx
      rcases hx with rfl | rfl | rfl
      · exfalso
        simp [sc_statinfo_set1] at hx2
      · exact Or.inl rfl
      · exact Or.inr rfl)
  rw [h]
  decide

theorem max_at_rank_is_lowest_witness :
    sample_tree.leaves.Perm (sample_group.map contribution) ∧
    (compute_derive_body id (sample_tree.reduce mpifunc_body) sample_blank).max = 4 ∧
    (∃ p ∈ sample_group, p.2.max = 4 ∧
      p.1 = (compute_derive_body id (sample_tree.reduce mpifunc_body) sample_blank).max_at_rank) ∧
    (compute_derive_body id (sample_tree.reduce mpifunc_body) sample_blank).max_at_rank ≤ 0 := by
  obtain ⟨_, h2, h3⟩ := max_at_rank_is_lowest id sample_group sample_tree sample_blank
    sample_tree_perm
  have hmax : (compute_derive_body id (sample_tree.reduce mpifunc_body) sample_blank).max = 4 := by
    rw [derive_max, sample_reduce]
  rw [hmax] at h2 h3
  exact ⟨sample_tree_perm, hmax, h2,
    h3 (0, sc_statinfo_set1 sample_blank 4 none) (by simp [sample_group]) rfl⟩

theorem global_min_le_max_witness :
    (RTree.node (RTree.leaf sample_idle) (RTree.leaf sample_busy)).leaves.Perm
      [sample_busy, sample_idle] ∧
    sample_idle.x4 < sample_idle.x3 ∧
    (compute_derive_body id ((RTree.node (RTree.leaf sample_idle)
        (RTree.leaf sample_busy)).reduce mpifunc_body) sample_blank).min ≤
      (compute_derive_body id ((RTree.node (RTree.leaf sample_idle)
        (RTree.leaf sample_busy)).reduce mpifunc_body) sample_blank).max :=
  ⟨List.Perm.swap _ _ _, by norm_num [sample_idle],
    global_min_le_max id [sample_busy, sample_idle]
      (RTree.node (RTree.leaf sample_idle) (RTree.leaf sample_busy)) sample_blank
      (List.Perm.swap _ _ _) sample_busy (List.mem_cons_self _ _)
      (by norm_num [sample_busy]) (by norm_num [sample_busy])⟩

theorem derive_step_fields_witness :
    (0 : ℚ) < sample_reduced.x0 ∧
    (compute_derive_body id sample_reduced sample_blank).average = 2 ∧
    (compute_derive_body id sample_reduced sample_blank).variance = 8 ∧
    (compute_derive_body id sample_reduced sample_blank).variance_mean = 2 ∧
    (compute_derive_body id sample_reduced sample_blank).count = 4 := by
  have hc : (0 : ℚ) < sample_reduced.x0 := by norm_num [sample_reduced]
  obtain ⟨h1, h2, _, h4, _, h6⟩ := derive_step_fields id sample_reduced sample_blank hc
  have e1 : (compute_derive_body id sample_reduced sample_blank).average = 2 := by
    rw [h1]
    norm_num [sample_reduced]
  have e2 : (compute_derive_body id sample_reduced sample_blank).variance = 8 := by
    rw [h2, e1]
    norm_num [sample_reduced]
  refine ⟨hc, e1, e2, ?_, h6 4 (by norm_num [sample_reduced])⟩
  rw [h4, e2]
  norm_num [sample_reduced]


/-! ## The function sc_statinfo_compute on the stand-in -/

section single_mode

variable {α : Type} [LinearOrderedField α] [FloorRing α]

theorem compute_derive_flatten (sqrt : α → α) (rank : Int) (stats : List (sc_statinfo_t α)) :
    compute_derive sqrt (compute_flatten rank stats) stats =
      stats.map (fun s => compute_derive_body sqrt (compute_flatten_body rank s) s) := by
  induction stats with
  | nil => rfl
  | cons s stats ih =>
    simp only [compute_flatten, List.map_cons, compute_derive]
    simp only [compute_flatten] at ih
    rw [ih]

theorem sc_statinfo_compute_eq {C : Type} (sqrt : α → α) (mpicomm : C)
    (stats : List (sc_statinfo_t α)) :
    sc_statinfo_compute sqrt mpicomm stats = some (stats.map (compute_single_body sqrt)) := by
  have h := compute_derive_flatten sqrt 0 stats
  unfold sc_statinfo_compute MPI_Comm_rank SC_CHECK_MPI
  simp only [if_true, Option.pure_def, Option.bind_eq_bind, Option.some_bind]
  rw [h]
  rfl

theorem flatten_single (sqrt : α → α) (s : sc_statinfo_t α) :
    compute_flatten_body 0 (compute_single_body sqrt s) = compute_flatten_body 0 s := by
  apply flat7_eq_of_fields
  · show ((compute_single_body sqrt s).count : α) = (s.count : α)
    have h : (compute_single_body sqrt s).count = s.count := double_to_int_intCast s.count
    rw [h]
  · rfl
  · rfl
  · rfl
  · rfl
  · rfl
  · rfl

theorem derive_body_twice (sqrt : α → α) (f : flat7 α) (s : sc_statinfo_t α) :
    compute_derive_body sqrt f (compute_derive_body sqrt f s) = compute_derive_body sqrt f s :=
  rfl

theorem derive_body_ieee_twice (sqrt : α → α) (f : flat7 α) (s : sc_statinfo_t (ieee α)) :
    compute_derive_body_ieee sqrt f (compute_derive_body_ieee sqrt f s) =
      compute_derive_body_ieee sqrt f s :=
  rfl

theorem compute_single_twice (sqrt : α → α) (s : sc_statinfo_t α) :
    compute_single_body sqrt (compute_single_body sqrt s) = compute_single_body sqrt s := by
  unfold compute_single_body
  rw [show compute_flatten_body 0 (compute_derive_body sqrt (compute_flatten_body 0 s) s) =
    compute_flatten_body 0 s from flatten_single sqrt s]
  rfl

end single_mode

theorem leaves_ne_nil {β : Type} (t : RTree β) : t.leaves ≠ [] := by
  induction t with
  | leaf b => simp [RTree.leaves]
  | node l r ihl _ => simp [RTree.leaves, ihl]

theorem reduce_of_leaves_singleton {β : Type} (op : β → β → β) (t : RTree β) (b : β)
    (h : t.leaves = [b]) : t.reduce op = b := by
  cases t with
  | leaf c =>
    simp only [RTree.leaves, List.cons.injEq, and_true] at h
    rw [RTree.reduce, h]
  | node l r =>
    exfalso
    have hlen := congrArg List.length h
    simp only [RTree.leaves, List.length_append, List.length_singleton] at hlen
    have hl := List.length_pos.mpr (leaves_ne_nil l)
    have hr := List.length_pos.mpr (leaves_ne_nil r)
    omega

/-! ## Claims about sc_statinfo_set1, sc_statinfo_compute and sc_statinfo_compute1 -/

/-- C15: the derive step is idempotent: run a second time on the same
reduced tuple it yields the same record, in exact arithmetic and with the
special values of doubles; and on the stand-in, sc_statinfo_compute applied
twice to a record array gives the array that one application gives. -/
theorem derive_is_idempotent {α : Type} [LinearOrderedField α] [FloorRing α] {C : Type}
    (sqrt : α → α) (mpicomm : C) (stats : List (sc_statinfo_t α)) :
    (∀ (f : flat7 α) (s : sc_statinfo_t α),
      compute_derive_body sqrt f (compute_derive_body sqrt f s) =
        compute_derive_body sqrt f s) ∧
    (∀ (f : flat7 α) (s : sc_statinfo_t (ieee α)),
      compute_derive_body_ieee sqrt f (compute_derive_body_ieee sqrt f s) =
        compute_derive_body_ieee sqrt f s) ∧
    (sc_statinfo_compute sqrt mpicomm stats).bind (sc_statinfo_compute sqrt mpicomm) =
      sc_statinfo_compute sqrt mpicomm stats := by
  refine ⟨fun f s => rfl, fun f s => rfl, ?_⟩
  rw [sc_statinfo_compute_eq, Option.some_bind, sc_statinfo_compute_eq, List.map_map]
  congr 1
  apply List.map_congr_left
  intro s _
  exact compute_single_twice sqrt s

/-- C16: on every record array, sc_statinfo_compute on the stand-in (flatten,
memcpy, unflatten, derive) returns what the protocol on a real transport
(flatten, all-reduce with sc_statinfo_mpifunc, unflatten, derive) returns in
a group of one participant with rank 0. -/
theorem single_mode_is_one_participant_run {α : Type} [LinearOrderedField α] [FloorRing α]
    {C : Type} (sqrt : α → α) (mpicomm : C) (group : real_transport α)
    (stats : List (sc_statinfo_t α)) (hrank : group.rank = 0)
    (hone : ∀ b, (group.tree b).leaves = [b]) :
    sc_statinfo_compute sqrt mpicomm stats =
      some (sc_statinfo_compute_mpi sqrt group stats) := by
  rw [sc_statinfo_compute_eq]
  unfold sc_statinfo_compute_mpi
  simp only [hrank]
  rw [reduce_of_leaves_singleton _ _ _ (hone _), compute_derive_flatten]
  rfl

/-- C17: sc_statinfo_set1 sets count = 1, sum_values = value, sum_squares =
value * value, min = max = value and the name, and leaves the seven output
fields of the record unchanged. -/
theorem set1_fields {α : Type} [LinearOrderedField α] (stats : sc_statinfo_t α) (value : α)
    (label : Option String) :
    (sc_statinfo_set1 stats value label).count = 1 ∧
    (sc_statinfo_set1 stats value label).sum_values = value ∧
    (sc_statinfo_set1 stats value label).sum_squares = value * value ∧
    (sc_statinfo_set1 stats value label).min = value ∧
    (sc_statinfo_set1 stats value label).max = value ∧
    (sc_statinfo_set1 stats value label).variable_name = label ∧
    (sc_statinfo_set1 stats value label).min_at_rank = stats.min_at_rank ∧
    (sc_statinfo_set1 stats value label).max_at_rank = stats.max_at_rank ∧
    (sc_statinfo_set1 stats value label).average = stats.average ∧
    (sc_statinfo_set1 stats value label).variance = stats.variance ∧
    (sc_statinfo_set1 stats value label).standev = stats.standev ∧
    (sc_statinfo_set1 stats value label).variance_mean = stats.variance_mean ∧
    (sc_statinfo_set1 stats value label).standev_mean = stats.standev_mean :=
  ⟨rfl, rfl, rfl, rfl, rfl, rfl, rfl, rfl, rfl, rfl, rfl, rfl, rfl⟩

/-- C18: sc_statinfo_compute1 returns what sc_statinfo_compute returns after
every record is seeded again by sc_statinfo_set1 with its own sum_values
and name; it does return; and the input values of count, sum_squares, min
and max have no influence on the result. -/
theorem compute1_is_count1_compute {α : Type} [LinearOrderedField α] [FloorRing α] {C : Type}
    (sqrt : α → α) (mpicomm : C) (stats : List (sc_statinfo_t α)) :
    sc_statinfo_compute1 sqrt mpicomm stats =
      sc_statinfo_compute sqrt mpicomm
        (stats.map fun s => sc_statinfo_set1 s s.sum_values s.variable_name) ∧
    (∃ out, sc_statinfo_compute1 sqrt mpicomm stats = some out) ∧
    ∀ (c : sc_statinfo_t α → Int) (q mn mx : sc_statinfo_t α → α),
      sc_statinfo_compute1 sqrt mpicomm (stats.map fun s =>
        { s with count := c s, sum_squares := q s, min := mn s, max := mx s }) =
      sc_statinfo_compute1 sqrt mpicomm stats := by
  refine ⟨rfl, ⟨_, sc_statinfo_compute_eq sqrt mpicomm _⟩, ?_⟩
  intro c q mn mx
  unfold sc_statinfo_compute1
  rw [List.map_map]
  rfl

/-- C19: on the stand-in the group has size 1 and the caller rank 0, and
sc_statinfo_compute returns, for every variable, count (a 32-bit int),
sum_values, sum_squares, min and max as they were on input, min_at_rank = 0
and max_at_rank = 0, and the name untouched. -/
theorem single_mode_keeps_inputs {α : Type} [LinearOrderedField α] [FloorRing α] {C : Type}
    (sqrt : α → α) (mpicomm : C) (stats : List (sc_statinfo_t α)) :
    MPI_Comm_size mpicomm = (MPI_SUCCESS, 1) ∧
    MPI_Comm_rank mpicomm = (MPI_SUCCESS, 0) ∧
    sc_statinfo_compute sqrt mpicomm stats = some (stats.map (compute_single_body sqrt)) ∧
    ∀ s : sc_statinfo_t α, INT_MIN ≤ s.count → s.count ≤ INT_MAX →
      (compute_single_body sqrt s).count = s.count ∧
      (compute_single_body sqrt s).sum_values = s.sum_values ∧
      (compute_single_body sqrt s).sum_squares = s.sum_squares ∧
      (compute_single_body sqrt s).min = s.min ∧
      (compute_single_body sqrt s).max = s.max ∧
      (compute_single_body sqrt s).min_at_rank = 0 ∧
      (compute_single_body sqrt s).max_at_rank = 0 ∧
      (compute_single_body sqrt s).variable_name = s.variable_name := by
  refine ⟨rfl, rfl, sc_statinfo_compute_eq sqrt mpicomm stats, ?_⟩
  intro s _ _
  refine ⟨double_to_int_intCast s.count, rfl, rfl, rfl, rfl, ?_, ?_, rfl⟩
  · show double_to_int (((0 : Int) : α)) = 0
    exact double_to_int_intCast 0
  · show double_to_int (((0 : Int) : α)) = 0
    exact double_to_int_intCast 0

/-! ## The derive step at a zero count -/

theorem SC_MAX_ieee_zero {α : Type} [LinearOrderedField α] (a : ieee α) (h : a ≠ ieee.pinf) :
    ∃ v, SC_MAX_ieee a (ieee.fin 0) = ieee.fin v ∧ 0 ≤ v := by
  cases a with
  | fin x =>
    by_cases hx : x > 0
    · exact ⟨x, by simp [SC_MAX_ieee, ieee.gt, hx], le_of_lt hx⟩
    · exact ⟨0, by simp [SC_MAX_ieee, ieee.gt, hx], le_refl _⟩
  | pinf => exact absurd rfl h
  | ninf => exact ⟨0, by simp [SC_MAX_ieee, ieee.gt], le_refl _⟩
  | nan => exact ⟨0, by simp [SC_MAX_ieee, ieee.gt], le_refl _⟩

theorem raw_variance_ne_pinf {α : Type} [LinearOrderedField α] (x0 x1 x2 : α) :
    ieee.sub (ieee.div (ieee.fin x2) (ieee.fin x0))
      (ieee.mul (ieee.div (ieee.fin x1) (ieee.fin x0)) (ieee.div (ieee.fin x1) (ieee.fin x0))) ≠
      ieee.pinf := by
  by_cases h : x0 = 0
  · by_cases a1 : 0 < x1 <;> by_cases b1 : x1 < 0 <;>
    by_cases a2 : 0 < x2 <;> by_cases b2 : x2 < 0 <;>
    simp [ieee.div, ieee.mul, ieee.sub, h, a1, b1, a2, b2]
  · simp [ieee.div, ieee.mul, ieee.sub, h]

theorem raw_variance_zero_count {α : Type} [LinearOrderedField α] (x1 x2 : α) :
    SC_MAX_ieee (ieee.sub (ieee.div (ieee.fin x2) (ieee.fin 0))
      (ieee.mul (ieee.div (ieee.fin x1) (ieee.fin 0)) (ieee.div (ieee.fin x1) (ieee.fin 0))))
      (ieee.fin 0) = ieee.fin 0 := by
  by_cases a1 : 0 < x1 <;> by_cases b1 : x1 < 0 <;>
  by_cases a2 : 0 < x2 <;> by_cases b2 : x2 < 0 <;>
  simp [SC_MAX_ieee, ieee.gt, ieee.div, ieee.mul, ieee.sub, a1, b1, a2, b2]

theorem reduce_x0_zero {α : Type} [LinearOrderedField α] (t : RTree (flat7 α)) (h0 : ∀ l ∈ t.leaves, l.x0 = 0) :
    (t.reduce mpifunc_body).x0 = 0 := by
  rw [reduce_x0]
  apply List.sum_eq_zero
  intro x hx
  obtain ⟨l, hl, rfl⟩ := List.mem_map.mp hx
  exact h0 l hl

section zero_count

variable {α : Type} [LinearOrderedField α] [FloorRing α]

theorem derive_ieee_count (sqrt : α → α) (f : flat7 α) (s : sc_statinfo_t (ieee α)) :
    (compute_derive_body_ieee sqrt f s).count = double_to_int f.x0 := rfl

theorem derive_ieee_average (sqrt : α → α) (f : flat7 α) (s : sc_statinfo_t (ieee α)) :
    (compute_derive_body_ieee sqrt f s).average = ieee.div (ieee.fin f.x1) (ieee.fin f.x0) :=
  rfl

theorem derive_ieee_variance (sqrt : α → α) (f : flat7 α) (s : sc_statinfo_t (ieee α)) :
    (compute_derive_body_ieee sqrt f s).variance =
      SC_MAX_ieee (ieee.sub (ieee.div (ieee.fin f.x2) (ieee.fin f.x0))
        (ieee.mul (ieee.div (ieee.fin f.x1) (ieee.fin f.x0))
          (ieee.div (ieee.fin f.x1) (ieee.fin f.x0)))) (ieee.fin 0) := rfl

theorem derive_ieee_variance_mean (sqrt : α → α) (f : flat7 α) (s : sc_statinfo_t (ieee α)) :
    (compute_derive_body_ieee sqrt f s).variance_mean =
      ieee.div (compute_derive_body_ieee sqrt f s).variance (ieee.fin f.x0) := rfl

theorem derive_ieee_standev (sqrt : α → α) (f : flat7 α) (s : sc_statinfo_t (ieee α)) :
    (compute_derive_body_ieee sqrt f s).standev =
      ieee.sqrt sqrt (compute_derive_body_ieee sqrt f s).variance := rfl

theorem derive_ieee_standev_mean (sqrt : α → α) (f : flat7 α) (s : sc_statinfo_t (ieee α)) :
    (compute_derive_body_ieee sqrt f s).standev_mean =
      ieee.sqrt sqrt (compute_derive_body_ieee sqrt f s).variance_mean := rfl

/-- Away from a zero count the arithmetic with special values gives the
numbers of the exact arithmetic. -/
theorem derive_ieee_agrees (sqrt : α → α) (f : flat7 α) (s : sc_statinfo_t α)
    (s1 : sc_statinfo_t (ieee α)) (h : f.x0 ≠ 0) :
    (compute_derive_body_ieee sqrt f s1).average =
      ieee.fin (compute_derive_body sqrt f s).average ∧
    (compute_derive_body_ieee sqrt f s1).variance =
      ieee.fin (compute_derive_body sqrt f s).variance ∧
    (compute_derive_body_ieee sqrt f s1).variance_mean =
      ieee.fin (compute_derive_body sqrt f s).variance_mean ∧
    (compute_derive_body_ieee sqrt f s1).standev =
      ieee.fin (compute_derive_body sqrt f s).standev := by
  have hv : (compute_derive_body_ieee sqrt f s1).variance =
      ieee.fin (compute_derive_body sqrt f s).variance := by
    rw [derive_ieee_variance, derive_variance]
    simp only [ieee.div, if_neg h, ieee.mul, ieee.sub, SC_MAX_ieee, ieee.gt, SC_MAX,
      decide_eq_true_eq]
    split_ifs <;> rfl
  have hnn : 0 ≤ (compute_derive_body sqrt f s).variance := by
    rw [derive_variance, SC_MAX_eq_max]
    exact le_max_right _ _
  refine ⟨?_, hv, ?_, ?_⟩
  · rw [derive_ieee_average, derive_average]
    simp only [ieee.div, if_neg h]
  · rw [derive_ieee_variance_mean, hv, derive_variance_mean]
    simp only [ieee.div, if_neg h]
  · rw [derive_ieee_standev, hv, derive_standev]
    simp only [ieee.sqrt, if_pos hnn]

end zero_count

/-- C11: every variance that sc_statinfo_compute writes is greater than or
equal to zero: for every record array on the stand-in, for every data set
of flatout in exact arithmetic, and, with the special values of doubles,
for every data set, those with a negative sum_squares / count - average^2
and those with count 0 included, where the variance is a number and not a
NaN or an infinity. -/
theorem variance_never_negative {α : Type} [LinearOrderedField α] [FloorRing α] {C : Type}
    (sqrt : α → α) (mpicomm : C) (stats : List (sc_statinfo_t α)) :
    (∃ out, sc_statinfo_compute sqrt mpicomm stats = some out ∧
      out.length = stats.length ∧ ∀ r ∈ out, 0 ≤ r.variance) ∧
    (∀ (f : flat7 α) (s : sc_statinfo_t α), 0 ≤ (compute_derive_body sqrt f s).variance) ∧
    (∀ (f : flat7 α) (s : sc_statinfo_t (ieee α)),
      ∃ v, (compute_derive_body_ieee sqrt f s).variance = ieee.fin v ∧ 0 ≤ v) := by
  have hbody : ∀ (f : flat7 α) (s : sc_statinfo_t α),
      0 ≤ (compute_derive_body sqrt f s).variance := by
    intro f s
    rw [derive_variance, SC_MAX_eq_max]
    exact le_max_right _ _
  refine ⟨⟨_, sc_statinfo_compute_eq sqrt mpicomm stats, List.length_map _ _, ?_⟩, hbody, ?_⟩
  · intro r hr
    obtain ⟨s, _, rfl⟩ := List.mem_map.mp hr
    exact hbody _ s
  · intro f s
    rw [derive_ieee_variance]
    exact SC_MAX_ieee_zero _ (raw_variance_ne_pinf f.x0 f.x1 f.x2)

/-- C12, as the code has it: when every participant reports count = 0, the
reduced count is 0 and the derive step divides by it without a guard:
average is the result of the division sum_values / 0 of doubles, a NaN when
sum_values is 0, an infinity otherwise, and no field flags it; variance is
0, standev is sqrt (0), variance_mean and standev_mean are NaN. -/
theorem zero_count_is_divided_by {α : Type} [LinearOrderedField α] [FloorRing α]
    (sqrt : α → α) (t : RTree (flat7 α)) (s : sc_statinfo_t (ieee α))
    (h0 : ∀ l ∈ t.leaves, l.x0 = 0) :
    (t.reduce mpifunc_body).x0 = 0 ∧
    (compute_derive_body_ieee sqrt (t.reduce mpifunc_body) s).count = 0 ∧
    (compute_derive_body_ieee sqrt (t.reduce mpifunc_body) s).average =
      ieee.div (ieee.fin (t.reduce mpifunc_body).x1) (ieee.fin 0) ∧
    ((t.reduce mpifunc_body).x1 = 0 →
      (compute_derive_body_ieee sqrt (t.reduce mpifunc_body) s).average = ieee.nan) ∧
    (0 < (t.reduce mpifunc_body).x1 →
      (compute_derive_body_ieee sqrt (t.reduce mpifunc_body) s).average = ieee.pinf) ∧
    ((t.reduce mpifunc_body).x1 < 0 →
      (compute_derive_body_ieee sqrt (t.reduce mpifunc_body) s).average = ieee.ninf) ∧
    (compute_derive_body_ieee sqrt (t.reduce mpifunc_body) s).variance = ieee.fin 0 ∧
    (compute_derive_body_ieee sqrt (t.reduce mpifunc_body) s).standev = ieee.fin (sqrt 0) ∧
    (compute_derive_body_ieee sqrt (t.reduce mpifunc_body) s).variance_mean = ieee.nan ∧
    (compute_derive_body_ieee sqrt (t.reduce mpifunc_body) s).standev_mean = ieee.nan := by
  have hx0 := reduce_x0_zero t h0
  have hcount : (compute_derive_body_ieee sqrt (t.reduce mpifunc_body) s).count = 0 := by
    rw [derive_ieee_count, hx0]
    have h := double_to_int_intCast (α := α) 0
    rwa [Int.cast_zero] at h
  have havg : (compute_derive_body_ieee sqrt (t.reduce mpifunc_body) s).average =
      ieee.div (ieee.fin (t.reduce mpifunc_body).x1) (ieee.fin 0) := by
    rw [derive_ieee_average, hx0]
  have hvar : (compute_derive_body_ieee sqrt (t.reduce mpifunc_body) s).variance =
      ieee.fin 0 := by
    rw [derive_ieee_variance, hx0]
    exact raw_variance_zero_count _ _
  have hvm : (compute_derive_body_ieee sqrt (t.reduce mpifunc_body) s).variance_mean =
      ieee.nan := by
    rw [derive_ieee_variance_mean, hvar, hx0]
    simp [ieee.div]
  refine ⟨hx0, hcount, havg, ?_, ?_, ?_, hvar, ?_, hvm, ?_⟩
  · intro h1
    rw [havg, h1]
    simp [ieee.div]
  · intro h1
    rw [havg]
    simp [ieee.div, h1]
  · intro h1
    rw [havg]
    simp [ieee.div, h1, not_lt.mpr (le_of_lt h1)]
  · rw [derive_ieee_standev, hvar]
    simp [ieee.sqrt]
  · rw [derive_ieee_standev_mean, hvm]
    rfl

/-! ## Sums over a reduction tree -/

theorem reduce_x1 {α : Type} [LinearOrderedField α] (t : RTree (flat7 α)) :
    (t.reduce mpifunc_body).x1 = (t.leaves.map flat7.x1).sum := by
  induction t with
  | leaf b => simp [RTree.reduce, RTree.leaves]
  | node l r ihl ihr =>
    simp only [RTree.reduce, RTree.leaves, mpifunc_body_x1, List.map_append, List.sum_append,
      ihl, ihr]
    exact add_comm _ _

theorem reduce_x2 {α : Type} [LinearOrderedField α] (t : RTree (flat7 α)) :
    (t.reduce mpifunc_body).x2 = (t.leaves.map flat7.x2).sum := by
  induction t with
  | leaf b => simp [RTree.reduce, RTree.leaves]
  | node l r ihl ihr =>
    simp only [RTree.reduce, RTree.leaves, mpifunc_body_x2, List.map_append, List.sum_append,
      ihl, ihr]
    exact add_comm _ _

theorem sum_map_const {α β : Type} [LinearOrderedField α] (l : List β) (f : β → α) (c : α)
    (h : ∀ x ∈ l, f x = c) : (l.map f).sum = (l.length : α) * c := by
  induction l with
  | nil => simp
  | cons x l ih =>
    rw [List.map_cons, List.sum_cons, ih (fun y hy => h y (List.mem_cons_of_mem x hy)),
      h x (List.mem_cons_self x l), List.length_cons, Nat.cast_succ]
    ring

/-! ## Claims about seeded participants -/

/-- C13: when each of N >= 1 participants seeds its record with
sc_statinfo_set1 (v) and the records are reduced along any tree and derived,
then count = N, average = v, variance = 0, standev = 0 (for a square root
with sqrt (0) = 0) and min = max = v. -/
theorem equal_samples_give_value {α : Type} [LinearOrderedField α] [FloorRing α]
    (sqrt : α → α) (v : α) (ps : List (Int × sc_statinfo_t α)) (t : RTree (flat7 α))
    (s0 : sc_statinfo_t α) (hsqrt : sqrt 0 = 0) (hne : ps ≠ [])
    (hseed : ∀ p ∈ ps, ∃ s label, p.2 = sc_statinfo_set1 s v label)
    (h : t.leaves.Perm (ps.map contribution)) :
    (compute_derive_body sqrt (t.reduce mpifunc_body) s0).count = ps.length ∧
    (compute_derive_body sqrt (t.reduce mpifunc_body) s0).average = v ∧
    (compute_derive_body sqrt (t.reduce mpifunc_body) s0).variance = 0 ∧
    (compute_derive_body sqrt (t.reduce mpifunc_body) s0).standev = 0 ∧
    (compute_derive_body sqrt (t.reduce mpifunc_body) s0).min = v ∧
    (compute_derive_body sqrt (t.reduce mpifunc_body) s0).max = v := by
  have hleaf : ∀ l ∈ t.leaves,
      l.x0 = 1 ∧ l.x1 = v ∧ l.x2 = v * v ∧ l.x3 = v ∧ l.x4 = v := by
    intro l hl
    obtain ⟨p, hp, rfl⟩ := exists_of_mem_leaves ps t h l hl
    obtain ⟨s, label, hs⟩ := hseed p hp
    simp only [contribution, compute_flatten_body, hs, sc_statinfo_set1, Int.cast_one,
      and_self]
  have hlen : t.leaves.length = ps.length := by
    rw [h.length_eq, List.length_map]
  have hpos : (0 : α) < (ps.length : α) := by
    exact_mod_cast List.length_pos.mpr hne
  have hn0 : (ps.length : α) ≠ 0 := ne_of_gt hpos
  have e0 : (t.reduce mpifunc_body).x0 = (ps.length : α) := by
    rw [reduce_x0, sum_map_const t.leaves flat7.x0 1 (fun l hl => (hleaf l hl).1), hlen, mul_one]
  have e1 : (t.reduce mpifunc_body).x1 = (ps.length : α) * v := by
    rw [reduce_x1, sum_map_const t.leaves flat7.x1 v (fun l hl => (hleaf l hl).2.1), hlen]
  have e2 : (t.reduce mpifunc_body).x2 = (ps.length : α) * (v * v) := by
    rw [reduce_x2, sum_map_const t.leaves flat7.x2 (v * v) (fun l hl => (hleaf l hl).2.2.1),
      hlen]
  have havg : (compute_derive_body sqrt (t.reduce mpifunc_body) s0).average = v := by
    rw [derive_average, e0, e1, mul_div_cancel_left₀ _ hn0]
  have hvar : (compute_derive_body sqrt (t.reduce mpifunc_body) s0).variance = 0 := by
    rw [derive_variance, e0, e1, e2, mul_div_cancel_left₀ _ hn0, mul_div_cancel_left₀ _ hn0,
      sub_self, SC_MAX_eq_max, max_self]
  refine ⟨?_, havg, hvar, ?_, ?_, ?_⟩
  · rw [derive_count, e0]
    have hc := double_to_int_intCast (α := α) (ps.length : Int)
    rwa [Int.cast_natCast] at hc
  · rw [derive_standev, hvar, hsqrt]
  · obtain ⟨l, hl, hl3, _⟩ := (reduce_min_spec t).2.1
    rw [derive_min, ← hl3]
    exact (hleaf l hl).2.2.2.1
  · obtain ⟨l, hl, hl4, _⟩ := (reduce_max_spec t).2.1
    rw [derive_max, ← hl4]
    exact (hleaf l hl).2.2.2.2

/-- The scenario of the values 2, 4 and 6 on the data sets of one variable,
the fields read as exact reals: three participants seeded by
sc_statinfo_set1 with the values 2, 4 and 6, whatever their ranks r2, r4 and
r6 and whatever the order and the shape of the reduction; the derive step on
the reduced tuple gives count = 3, sum_values = 12, average = 4,
variance = 56/3 - 16 = 8/3, min = 2 with min_at_rank = r2 and max = 6 with
max_at_rank = r6. -/
theorem scenario_record_fields {α : Type} [LinearOrderedField α] [FloorRing α]
    (sqrt : α → α) (r2 r4 r6 : Int) (a2 a4 a6 s0 : sc_statinfo_t α)
    (n2 n4 n6 : Option String) (t : RTree (flat7 α))
    (h : t.leaves.Perm ([(r2, sc_statinfo_set1 a2 2 n2), (r4, sc_statinfo_set1 a4 4 n4),
      (r6, sc_statinfo_set1 a6 6 n6)].map contribution)) :
    (compute_derive_body sqrt (t.reduce mpifunc_body) s0).count = 3 ∧
    (compute_derive_body sqrt (t.reduce mpifunc_body) s0).sum_values = 12 ∧
    (compute_derive_body sqrt (t.reduce mpifunc_body) s0).average = 4 ∧
    (compute_derive_body sqrt (t.reduce mpifunc_body) s0).variance = 56 / 3 - 16 ∧
    (compute_derive_body sqrt (t.reduce mpifunc_body) s0).variance = 8 / 3 ∧
    (compute_derive_body sqrt (t.reduce mpifunc_body) s0).min = 2 ∧
    (compute_derive_body sqrt (t.reduce mpifunc_body) s0).min_at_rank = r2 ∧
    (compute_derive_body sqrt (t.reduce mpifunc_body) s0).max = 6 ∧
    (compute_derive_body sqrt (t.reduce mpifunc_body) s0).max_at_rank = r6 := by
  have e0 : (t.reduce mpifunc_body).x0 = 3 := by
    rw [reduce_x0, (h.map flat7.x0).sum_eq]
    simp only [List.map_cons, List.map_nil, List.sum_cons, List.sum_nil, contribution,
      compute_flatten_body, sc_statinfo_set1, Int.cast_one]
    norm_num
  have e1 : (t.reduce mpifunc_body).x1 = 12 := by
    rw [reduce_x1, (h.map flat7.x1).sum_eq]
    simp only [List.map_cons, List.map_nil, List.sum_cons, List.sum_nil, contribution,
      compute_flatten_body, sc_statinfo_set1]
    norm_num
  have e2 : (t.reduce mpifunc_body).x2 = 56 := by
    rw [reduce_x2, (h.map flat7.x2).sum_eq]
    simp only [List.map_cons, List.map_nil, List.sum_cons, List.sum_nil, contribution,
      compute_flatten_body, sc_statinfo_set1]
    norm_num
  have hmem : ∀ l ∈ t.leaves, l = contribution (r2, sc_statinfo_set1 a2 2 n2) ∨
      l = contribution (r4, sc_statinfo_set1 a4 4 n4) ∨
      l = contribution (r6, sc_statinfo_set1 a6 6 n6) := by
    intro l hl
    have hl2 := h.mem_iff.mp hl
    simpa only [List.map_cons, List.map_nil, List.mem_cons, List.mem_singleton,
      List.not_mem_nil, or_false] using hl2
  have m2 : contribution (r2, sc_statinfo_set1 a2 2 n2) ∈ t.leaves :=
    h.mem_iff.mpr (List.mem_cons_self _ _)
  have m6 : contribution (r6, sc_statinfo_set1 a6 6 n6) ∈ t.leaves :=
    h.mem_iff.mpr (List.mem_cons_of_mem _ (List.mem_cons_of_mem _ (List.mem_cons_self _ _)))
  have k3 : (t.reduce mpifunc_body).x3 = 2 ∧ (t.reduce mpifunc_body).x5 = (r2 : α) := by
    obtain ⟨ha, ⟨l, hl, hl3, hl5⟩, _⟩ := reduce_min_spec t
    have hle := ha _ m2
    rw [← hl3] at hle
    rw [← hl3, ← hl5]
    rcases hmem l hl with rfl | rfl | rfl
    · exact ⟨rfl, rfl⟩
    · exfalso
      have : (4 : α) ≤ 2 := hle
      norm_num at this
    · exfalso
      have : (6 : α) ≤ 2 := hle
      norm_num at this
  have k4 : (t.reduce mpifunc_body).x4 = 6 ∧ (t.reduce mpifunc_body).x6 = (r6 : α) := by
    obtain ⟨ha, ⟨l, hl, hl4, hl6⟩, _⟩ := reduce_max_spec t
    have hle := ha _ m6
    rw [← hl4] at hle
    rw [← hl4, ← hl6]
    rcases hmem l hl with rfl | rfl | rfl
    · exfalso
      have : (6 : α) ≤ 2 := hle
      norm_num at this
    · exfalso
      have : (6 : α) ≤ 4 := hle
      norm_num at this
    · exact ⟨rfl, rfl⟩
  have hvar : (compute_derive_body sqrt (t.reduce mpifunc_body) s0).variance = 8 / 3 := by
    rw [derive_variance, e0, e1, e2, SC_MAX_eq_max]
    norm_num
  refine ⟨?_, ?_, ?_, ?_, hvar, ?_, ?_, ?_, ?_⟩
  · rw [derive_count, e0]
    have hc := double_to_int_intCast (α := α) 3
    simpa using hc
  · show (t.reduce mpifunc_body).x1 = 12
    exact e1
  · rw [derive_average, e0, e1]
    norm_num
  · rw [hvar]
    norm_num
  · rw [derive_min]
    exact k3.1
  · rw [derive_min_at_rank, k3.2]
    exact double_to_int_intCast r2
  · rw [derive_max]
    exact k4.1
  · rw [derive_max_at_rank, k4.2]
    exact double_to_int_intCast r6


/-! ## The gather of the stand-in -/

theorem MPI_Gather_eq {β C : Type} (abi : c_sizes) (p : List β) (np : Int)
    (tp : MPI_Datatype) (q : List β) (nq : Int) (tq : MPI_Datatype) (rank : Int) (comm : C) :
    MPI_Gather abi p np tp q nq tq rank comm =
      if rank = 0 ∧ np ≥ 0 ∧ nq ≥ 0 then
        match sc_mpi_sizeof abi tp, sc_mpi_sizeof abi tq with
        | some sp, some sq =>
          if np.toNat * sp = nq.toNat * sq then
            some (MPI_SUCCESS, memcpy q p (np.toNat * sp))
          else none
        | _, _ => none
      else none := by
  unfold MPI_Gather SC_ASSERT
  by_cases hc : rank = 0 ∧ np ≥ 0 ∧ nq ≥ 0
  · rw [if_pos hc, if_pos hc]
    cases hp : sc_mpi_sizeof abi tp with
    | none => rfl
    | some sp =>
      cases hq : sc_mpi_sizeof abi tq with
      | none => rfl
      | some sq =>
        by_cases he : np.toNat * sp = nq.toNat * sq
        · simp [he]
        · simp [he]
  · rw [if_neg hc, if_neg hc]
    rfl

theorem byte_counts_eq_iff (np nq : Int) (sp sq : Nat) (hp : 0 ≤ np) (hq : 0 ≤ nq) :
    np.toNat * sp = nq.toNat * sq ↔ np * (sp : Int) = nq * (sq : Int) := by
  obtain ⟨a, rfl⟩ := Int.eq_ofNat_of_zero_le hp
  obtain ⟨b, rfl⟩ := Int.eq_ofNat_of_zero_le hq
  simp only [Int.toNat_ofNat]
  constructor
  · intro h
    exact_mod_cast h
  · intro h
    exact_mod_cast h

theorem memcpy_take {β : Type} (q p : List β) (n : Nat) (h : n ≤ p.length) :
    (memcpy q p n).take n = p.take n := by
  unfold memcpy
  rw [List.take_append_of_le_length (by rw [List.length_take]; omega)]
  rw [List.take_take, min_self]

theorem memcpy_drop {β : Type} (q p : List β) (n : Nat) (h : n ≤ p.length) :
    (memcpy q p n).drop n = q.drop n := by
  unfold memcpy
  have hl : (p.take n).length = n := by
    rw [List.length_take]
    omega
  rw [List.drop_append_of_le_length (by omega), List.drop_of_length_le (by omega),
    List.nil_append]

/-- C20: on the stand-in MPI_Gather succeeds exactly when root is 0, both
counts are not negative and send_count * sizeof (send type) equals
recv_count * sizeof (recv type), both sizes being those of recognised
datatypes; on success the first send_count * sizeof (send type) bytes of
the receive buffer are those of the send buffer and the rest is unchanged;
every mismatch of the byte counts aborts, so nothing is written. -/
theorem gather_contract {β C : Type} (abi : c_sizes) (p : List β) (np : Int)
    (tp : MPI_Datatype) (q : List β) (nq : Int) (tq : MPI_Datatype) (rank : Int) (comm : C) :
    ((∃ q1, MPI_Gather abi p np tp q nq tq rank comm = some (MPI_SUCCESS, q1)) ↔
      (rank = 0 ∧ 0 ≤ np ∧ 0 ≤ nq ∧ ∃ sp sq, sc_mpi_sizeof abi tp = some sp ∧
        sc_mpi_sizeof abi tq = some sq ∧ np * (sp : Int) = nq * (sq : Int))) ∧
    (∀ r, MPI_Gather abi p np tp q nq tq rank comm = some r →
      ∃ sp, sc_mpi_sizeof abi tp = some sp ∧
        r = (MPI_SUCCESS, memcpy q p (np.toNat * sp)) ∧
        (np.toNat * sp ≤ p.length →
          r.2.take (np.toNat * sp) = p.take (np.toNat * sp) ∧
          r.2.drop (np.toNat * sp) = q.drop (np.toNat * sp))) ∧
    (∀ sp sq, sc_mpi_sizeof abi tp = some sp → sc_mpi_sizeof abi tq = some sq →
      np * (sp : Int) ≠ nq * (sq : Int) →
      MPI_Gather abi p np tp q nq tq rank comm = none) := by
  rw [MPI_Gather_eq]
  refine ⟨⟨?_, ?_⟩, ?_, ?_⟩
  · rintro ⟨q1, h⟩
    by_cases hc : rank = 0 ∧ np ≥ 0 ∧ nq ≥ 0
    · rw [if_pos hc] at h
      cases hp : sc_mpi_sizeof abi tp with
      | none => simp [hp] at h
      | some sp =>
        cases hq : sc_mpi_sizeof abi tq with
        | none => simp [hp, hq] at h
        | some sq =>
          simp only [hp, hq] at h
          by_cases he : np.toNat * sp = nq.toNat * sq
          · exact ⟨hc.1, hc.2.1, hc.2.2, sp, sq, rfl, rfl,
              (byte_counts_eq_iff np nq sp sq hc.2.1 hc.2.2).mp he⟩
          · rw [if_neg he] at h
            exact absurd h (by simp)
    · rw [if_neg hc] at h
      exact absurd h (by simp)
  · rintro ⟨h0, hp0, hq0, sp, sq, hp, hq, he⟩
    refine ⟨memcpy q p (np.toNat * sp), ?_⟩
    rw [if_pos ⟨h0, hp0, hq0⟩]
    simp only [hp, hq]
    rw [if_pos ((byte_counts_eq_iff np nq sp sq hp0 hq0).mpr he)]
  · intro r h
    by_cases hc : rank = 0 ∧ np ≥ 0 ∧ nq ≥ 0
    · rw [if_pos hc] at h
      cases hp : sc_mpi_sizeof abi tp with
      | none => simp [hp] at h
      | some sp =>
        cases hq : sc_mpi_sizeof abi tq with
        | none => simp [hp, hq] at h
        | some sq =>
          simp only [hp, hq] at h
          by_cases he : np.toNat * sp = nq.toNat * sq
          · rw [if_pos he] at h
            have hr : r = (MPI_SUCCESS, memcpy q p (np.toNat * sp)) :=
              (Option.some.inj h).symm
            refine ⟨sp, rfl, hr, fun hlen => ?_⟩
            rw [hr]
            exact ⟨memcpy_take q p _ hlen, memcpy_drop q p _ hlen⟩
          · rw [if_neg he] at h
            exact absurd h (by simp)
    · rw [if_neg hc] at h
      exact absurd h (by simp)
  · intro sp sq hp hq hne
    by_cases hc : rank = 0 ∧ np ≥ 0 ∧ nq ≥ 0
    · rw [if_pos hc]
      simp only [hp, hq]
      rw [if_neg (fun he => hne ((byte_counts_eq_iff np nq sp sq hc.2.1 hc.2.2).mp he))]
    · rw [if_neg hc]

/-! ## Further claims on the sample data -/

/-- C12 fails on the code: at a reduced count of 0 the average is no
sentinel but the result of the division by zero, a NaN for sum_values = 0
and plus infinity for sum_values = 1. -/
theorem zero_count_has_no_sentinel :
    sample_empty.x0 = 0 ∧ sample_empty_one.x0 = 0 ∧
    (compute_derive_body_ieee id sample_empty sample_blank_ieee).average = ieee.nan ∧
    (compute_derive_body_ieee id sample_empty sample_blank_ieee).average =
      ieee.div (ieee.fin sample_empty.x1) (ieee.fin 0) ∧
    (compute_derive_body_ieee id sample_empty_one sample_blank_ieee).average = ieee.pinf ∧
    (compute_derive_body_ieee id sample_empty_one sample_blank_ieee).average =
      ieee.div (ieee.fin sample_empty_one.x1) (ieee.fin 0) ∧
    ¬ ∃ sentinel : ieee ℚ, ∀ f : flat7 ℚ, f.x0 = 0 →
      (compute_derive_body_ieee id f sample_blank_ieee).average = sentinel := by
  have ha : (compute_derive_body_ieee id sample_empty sample_blank_ieee).average =
      ieee.nan := by
    rw [derive_ieee_average]
    simp [sample_empty, ieee.div]
  have hb : (compute_derive_body_ieee id sample_empty_one sample_blank_ieee).average =
      ieee.pinf := by
    rw [derive_ieee_average]
    simp [sample_empty_one, ieee.div]
  refine ⟨rfl, rfl, ha, ?_, hb, ?_, ?_⟩
  · rw [ha]
    simp [sample_empty, ieee.div]
  · rw [hb]
    simp [sample_empty_one, ieee.div]
  · rintro ⟨sentinel, hs⟩
    have h1 := hs sample_empty rfl
    have h2 := hs sample_empty_one rfl
    rw [ha] at h1
    rw [hb] at h2
    rw [← h1] at h2
    exact absurd h2 (by simp)

theorem zero_count_is_divided_by_witness :
    (∀ l ∈ sample_zero_tree.leaves, l.x0 = 0) ∧
    (compute_derive_body_ieee id (sample_zero_tree.reduce mpifunc_body)
      sample_blank_ieee).average = ieee.pinf ∧
    (compute_derive_body_ieee id (sample_zero_tree.reduce mpifunc_body)
      sample_blank_ieee).variance = ieee.fin 0 ∧
    (compute_derive_body_ieee id (sample_zero_tree.reduce mpifunc_body)
      sample_blank_ieee).variance_mean = ieee.nan := by
  have h0 : ∀ l ∈ sample_zero_tree.leaves, l.x0 = 0 := by
    intro l hl
    simp only [sample_zero_tree, RTree.leaves, List.singleton_append, List.mem_cons,
      List.mem_singleton, List.not_mem_nil, or_false] at hl
    rcases hl with rfl | rfl
    · rfl
    · rfl
  obtain ⟨_, _, _, _, hpos, _, hvar, _, hvm, _⟩ :=
    zero_count_is_divided_by id sample_zero_tree sample_blank_ieee h0
  refine ⟨h0, hpos ?_, hvar, hvm⟩
  rw [reduce_x1]
  simp [sample_zero_tree, RTree.leaves, sample_empty, sample_empty_one]

theorem equal_samples_give_value_witness :
    sample_equal_tree.leaves.Perm (sample_equal_group.map contribution) ∧
    (compute_derive_body id (sample_equal_tree.reduce mpifunc_body) sample_blank).count = 2 ∧
    (compute_derive_body id (sample_equal_tree.reduce mpifunc_body) sample_blank).average = 3 ∧
    (compute_derive_body id (sample_equal_tree.reduce mpifunc_body) sample_blank).variance = 0 ∧
    (compute_derive_body id (sample_equal_tree.reduce mpifunc_body) sample_blank).standev = 0 ∧
    (compute_derive_body id (sample_equal_tree.reduce mpifunc_body) sample_blank).min = 3 ∧
    (compute_derive_body id (sample_equal_tree.reduce mpifunc_body) sample_blank).max = 3 := by
  have hperm : sample_equal_tree.leaves.Perm (sample_equal_group.map contribution) :=
    List.Perm.swap _ _ _
  exact ⟨hperm, equal_samples_give_value id 3 sample_equal_group sample_equal_tree sample_blank
    rfl (by simp [sample_equal_group])
    (by
      intro p hp
      simp only [sample_equal_group, List.mem_cons, List.mem_singleton, List.not_mem_nil,
        or_false] at hp
      rcases hp with rfl | rfl
      · exact ⟨sample_blank, none, rfl⟩
      · exact ⟨sample_blank, some "b", rfl⟩)
    hperm⟩

theorem scenario_record_fields_sample :
    sample_scenario_tree.leaves.Perm
      ([((1 : Int), sc_statinfo_set1 sample_blank 2 none),
        ((2 : Int), sc_statinfo_set1 sample_blank 4 none),
        ((0 : Int), sc_statinfo_set1 sample_blank 6 none)].map contribution) ∧
    (compute_derive_body id (sample_scenario_tree.reduce mpifunc_body) sample_blank).count = 3 ∧
    (compute_derive_body id (sample_scenario_tree.reduce mpifunc_body)
      sample_blank).average = 4 ∧
    (compute_derive_body id (sample_scenario_tree.reduce mpifunc_body)
      sample_blank).variance = 8 / 3 ∧
    (compute_derive_body id (sample_scenario_tree.reduce mpifunc_body)
      sample_blank).min_at_rank = 1 ∧
    (compute_derive_body id (sample_scenario_tree.reduce mpifunc_body)
      sample_blank).max_at_rank = 0 := by
  have hperm : sample_scenario_tree.leaves.Perm
      ([((1 : Int), sc_statinfo_set1 sample_blank 2 none),
        ((2 : Int), sc_statinfo_set1 sample_blank 4 none),
        ((0 : Int), sc_statinfo_set1 sample_blank 6 none)].map contribution) := by
    simp only [sample_scenario_tree, RTree.leaves, List.map, List.cons_append,
      List.nil_append]
    exact (List.Perm.swap _ _ _).trans (List.Perm.cons _ (List.Perm.swap _ _ _))
  obtain ⟨h1, _, h3, _, h5, _, h7, _, h9⟩ :=
    scenario_record_fields id 1 2 0 sample_blank sample_blank sample_blank sample_blank
      none none none sample_scenario_tree hperm
  exact ⟨hperm, h1, h3, h5, h7, h9⟩

theorem single_mode_is_one_participant_run_witness :
    sample_one_participant.rank = 0 ∧
    (∀ b, (sample_one_participant.tree b).leaves = [b]) ∧
    sc_statinfo_compute id () [sc_statinfo_set1 sample_blank 3 none, sample_blank] =
      some (sc_statinfo_compute_mpi id sample_one_participant
        [sc_statinfo_set1 sample_blank 3 none, sample_blank]) :=
  ⟨rfl, fun _ => rfl,
    single_mode_is_one_participant_run id () sample_one_participant
      [sc_statinfo_set1 sample_blank 3 none, sample_blank] rfl (fun _ => rfl)⟩


/-! ## Broadcast, reductions and point-to-point calls of the stand-in -/

theorem assert_op_recognised (op : MPI_Op) (h : ∀ k, op ≠ MPI_Op.other k) :
    mpi_dummy_assert_op op = some () := by
  cases op with
  | other k => exact absurd rfl (h k)
  | _ => rfl

theorem MPI_Allreduce_eq {β C : Type} (abi : c_sizes) (p q : List β) (n : Int)
    (t : MPI_Datatype) (op : MPI_Op) (comm : C) (s : Nat) (hn : 0 ≤ n)
    (hop : ∀ k, op ≠ MPI_Op.other k) (hs : sc_mpi_sizeof abi t = some s) :
    MPI_Allreduce abi p q n t op comm = some (MPI_SUCCESS, memcpy q p (n.toNat * s)) := by
  unfold MPI_Allreduce SC_ASSERT
  rw [if_pos (ge_iff_le.mpr hn), assert_op_recognised op hop, hs]
  rfl

theorem MPI_Reduce_eq {β C : Type} (abi : c_sizes) (p q : List β) (n : Int)
    (t : MPI_Datatype) (op : MPI_Op) (comm : C) (s : Nat) (hn : 0 ≤ n)
    (hop : ∀ k, op ≠ MPI_Op.other k) (hs : sc_mpi_sizeof abi t = some s) :
    MPI_Reduce abi p q n t op 0 comm = some (MPI_SUCCESS, memcpy q p (n.toNat * s)) := by
  unfold MPI_Reduce SC_ASSERT
  rw [if_pos ⟨rfl, ge_iff_le.mpr hn⟩, assert_op_recognised op hop, hs]
  rfl

theorem MPI_Allreduce_unknown_op {β C : Type} (abi : c_sizes) (p q : List β) (n : Int)
    (t : MPI_Datatype) (k : Nat) (comm : C) :
    MPI_Allreduce abi p q n t (MPI_Op.other k) comm = none := by
  unfold MPI_Allreduce SC_ASSERT
  by_cases hn : n ≥ 0
  · rw [if_pos hn]
    rfl
  · rw [if_neg hn]
    rfl

theorem MPI_Reduce_unknown_op {β C : Type} (abi : c_sizes) (p q : List β) (n : Int)
    (t : MPI_Datatype) (k : Nat) (rank : Int) (comm : C) :
    MPI_Reduce abi p q n t (MPI_Op.other k) rank comm = none := by
  unfold MPI_Reduce SC_ASSERT
  by_cases hc : rank = 0 ∧ n ≥ 0
  · rw [if_pos hc]
    rfl
  · rw [if_neg hc]
    rfl

theorem MPI_Allreduce_map {β C : Type} (abi : c_sizes) (p q : List β) (n : Int)
    (t : MPI_Datatype) (op : MPI_Op) (comm : C) (hn : 0 ≤ n)
    (hop : ∀ k, op ≠ MPI_Op.other k) :
    MPI_Allreduce abi p q n t op comm =
      (sc_mpi_sizeof abi t).map (fun s => (MPI_SUCCESS, memcpy q p (n.toNat * s))) := by
  unfold MPI_Allreduce SC_ASSERT
  rw [if_pos (ge_iff_le.mpr hn), assert_op_recognised op hop]
  cases sc_mpi_sizeof abi t <;> rfl

theorem MPI_Reduce_map {β C : Type} (abi : c_sizes) (p q : List β) (n : Int)
    (t : MPI_Datatype) (op : MPI_Op) (comm : C) (hn : 0 ≤ n)
    (hop : ∀ k, op ≠ MPI_Op.other k) :
    MPI_Reduce abi p q n t op 0 comm =
      (sc_mpi_sizeof abi t).map (fun s => (MPI_SUCCESS, memcpy q p (n.toNat * s))) := by
  unfold MPI_Reduce SC_ASSERT
  rw [if_pos ⟨rfl, ge_iff_le.mpr hn⟩, assert_op_recognised op hop]
  cases sc_mpi_sizeof abi t <;> rfl

/-- C21: on the stand-in, where the group has the one participant of rank 0,
MPI_Allreduce and MPI_Reduce with a root of the group copy, for every
recognised operator, every datatype and every count n >= 0, exactly
n * sizeof (type) bytes of the send buffer to the receive buffer and return
MPI_SUCCESS: the call is sc_mpi_sizeof followed by the copy, so that for a
datatype of size s the first n * s bytes of the receive buffer are those of
the send buffer and the others are kept.  The result is the same whichever
recognised operator is given, and an unknown operator aborts, whatever the
other arguments. -/
theorem reduce_is_copy {β C : Type} (abi : c_sizes) (p q : List β) (n : Int)
    (t : MPI_Datatype) (op op2 : MPI_Op) (rank : Int) (comm : C) (hn : 0 ≤ n)
    (hop : ∀ k, op ≠ MPI_Op.other k) (hop2 : ∀ k, op2 ≠ MPI_Op.other k)
    (hroot : 0 ≤ rank ∧ rank < (MPI_Comm_size comm).2) :
    MPI_Allreduce abi p q n t op comm =
      (sc_mpi_sizeof abi t).map (fun s => (MPI_SUCCESS, memcpy q p (n.toNat * s))) ∧
    MPI_Reduce abi p q n t op rank comm =
      (sc_mpi_sizeof abi t).map (fun s => (MPI_SUCCESS, memcpy q p (n.toNat * s))) ∧
    (∀ s : Nat, sc_mpi_sizeof abi t = some s →
      MPI_Allreduce abi p q n t op comm = some (MPI_SUCCESS, memcpy q p (n.toNat * s)) ∧
      MPI_Reduce abi p q n t op rank comm = some (MPI_SUCCESS, memcpy q p (n.toNat * s)) ∧
      ((n.toNat : Int) * (s : Int) = n * (s : Int)) ∧
      (n.toNat * s ≤ p.length →
        (memcpy q p (n.toNat * s)).take (n.toNat * s) = p.take (n.toNat * s) ∧
        (memcpy q p (n.toNat * s)).drop (n.toNat * s) = q.drop (n.toNat * s))) ∧
    MPI_Allreduce abi p q n t op2 comm = MPI_Allreduce abi p q n t op comm ∧
    MPI_Reduce abi p q n t op2 rank comm = MPI_Reduce abi p q n t op rank comm ∧
    (∀ k, MPI_Allreduce abi p q n t (MPI_Op.other k) comm = none) ∧
    (∀ k root, MPI_Reduce abi p q n t (MPI_Op.other k) root comm = none) := by
  have hrank : rank = 0 := by
    have h2 : rank < 1 := hroot.2
    omega
  subst hrank
  refine ⟨MPI_Allreduce_map abi p q n t op comm hn hop,
    MPI_Reduce_map abi p q n t op comm hn hop, ?_, ?_, ?_,
    fun k => MPI_Allreduce_unknown_op abi p q n t k comm,
    fun k root => MPI_Reduce_unknown_op abi p q n t k root comm⟩
  · intro s hs
    refine ⟨MPI_Allreduce_eq abi p q n t op comm s hn hop hs,
      MPI_Reduce_eq abi p q n t op comm s hn hop hs, ?_, ?_⟩
    · rw [Int.toNat_of_nonneg hn]
    · intro hlen
      exact ⟨memcpy_take q p _ hlen, memcpy_drop q p _ hlen⟩
  · rw [MPI_Allreduce_map abi p q n t op comm hn hop,
      MPI_Allreduce_map abi p q n t op2 comm hn hop2]
  · rw [MPI_Reduce_map abi p q n t op comm hn hop,
      MPI_Reduce_map abi p q n t op2 comm hn hop2]

/-- C22 fails on the code for MPI_Waitall: called with zero requests it
returns MPI_SUCCESS. -/
theorem waitall_zero_returns_success :
    MPI_Waitall 0 () () = some MPI_SUCCESS := rfl

/-- C22, as the code has it: on the stand-in every call of MPI_Send,
MPI_Isend and MPI_Irecv aborts, whatever the arguments; MPI_Waitall aborts
for every count other than 0 and returns MPI_SUCCESS for the count 0. -/
theorem point_to_point_aborts {B C R S : Type} (buf : B) (count : Int)
    (datatype : MPI_Datatype) (peer tag : Int) (comm : C) (request : R) (statuses : S) :
    MPI_Send buf count datatype peer tag comm = none ∧
    MPI_Isend buf count datatype peer tag comm request = none ∧
    MPI_Irecv buf count datatype peer tag comm request = none ∧
    (count ≠ 0 → MPI_Waitall count request statuses = none) ∧
    (count = 0 → MPI_Waitall count request statuses = some MPI_SUCCESS) := by
  refine ⟨rfl, rfl, rfl, ?_, ?_⟩
  · intro h
    unfold MPI_Waitall SC_CHECK_ABORT
    rw [if_neg h]
    rfl
  · intro h
    unfold MPI_Waitall SC_CHECK_ABORT
    rw [if_pos h]
    rfl

/-- C23: on the stand-in MPI_Bcast returns MPI_SUCCESS if and only if root
is 0, and then the buffer is unchanged; for every other root the call
aborts, and no call returns an error code. -/
theorem bcast_contract {β C : Type} (p : List β) (n : Int) (t : MPI_Datatype) (rank : Int)
    (comm : C) :
    (MPI_Bcast p n t rank comm = some (MPI_SUCCESS, p) ↔ rank = 0) ∧
    (rank ≠ 0 → MPI_Bcast p n t rank comm = none) ∧
    (∀ r, MPI_Bcast p n t rank comm = some r → r = (MPI_SUCCESS, p)) := by
  unfold MPI_Bcast SC_ASSERT
  by_cases h : rank = 0
  · rw [if_pos h]
    exact ⟨⟨fun _ => h, fun _ => rfl⟩, fun h2 => absurd h h2,
      fun r hr => (Option.some.inj hr).symm⟩
  · rw [if_neg h]
    refine ⟨⟨fun h2 => ?_, fun h2 => absurd h2 h⟩, fun _ => rfl, fun r hr => ?_⟩
    · exact absurd h2 (by simp)
    · exact absurd hr (by simp)

theorem reduce_is_copy_witness :
    (0 : Int) ≤ 1 ∧ ((0 : Int) ≤ 0 ∧ (0 : Int) < (MPI_Comm_size ()).2) ∧
    sc_mpi_sizeof sample_lp64 MPI_Datatype.MPI_INT = some 4 ∧
    MPI_Allreduce sample_lp64 sample_send sample_recv 1 MPI_Datatype.MPI_INT MPI_Op.MPI_SUM () =
      some (MPI_SUCCESS, [1, 2, 3, 4, 0, 0]) ∧
    MPI_Reduce sample_lp64 sample_send sample_recv 1 MPI_Datatype.MPI_INT MPI_Op.MPI_SUM 0 () =
      some (MPI_SUCCESS, [1, 2, 3, 4, 0, 0]) ∧
    MPI_Allreduce sample_lp64 sample_send sample_recv 1 MPI_Datatype.MPI_INT MPI_Op.MPI_MAX () =
      MPI_Allreduce sample_lp64 sample_send sample_recv 1 MPI_Datatype.MPI_INT
        MPI_Op.MPI_SUM () ∧
    MPI_Reduce sample_lp64 sample_send sample_recv 1 MPI_Datatype.MPI_INT (MPI_Op.other 7) 0 () =
      none := by
  obtain ⟨_, _, h3, h4, _, _, h7⟩ :=
    reduce_is_copy sample_lp64 sample_send sample_recv 1 MPI_Datatype.MPI_INT MPI_Op.MPI_SUM
      MPI_Op.MPI_MAX 0 () (by decide) (fun k h => by cases h) (fun k h => by cases h)
      ⟨by decide, by decide⟩
  obtain ⟨h1, h2, _, _⟩ := h3 4 rfl
  exact ⟨by decide, ⟨by decide, by decide⟩, rfl, h1, h2, h4, h7 7 0⟩

/-! ## Claims about sc_statinfo_print -/

/-- C24: sc_statinfo_print never changes the numeric result.  For every
array of records, every combination of the flags full and summary and every
stream, the array after the call is the array before it.  When nout is NULL
the call returns with the stream still NULL: nothing is written.  When nout
is a stream, what was written to it before is kept and the call only
appends. -/
theorem print_leaves_records_unchanged {α : Type} [LinearOrderedField α]
    (stats : List (sc_statinfo_t α)) (full summary : Bool)
    (nout : Option (List (output_call α))) :
    (sc_statinfo_print stats full summary nout).1 = stats ∧
    sc_statinfo_print stats full summary none = (stats, none) ∧
    (∀ written : List (output_call α), ∃ calls : List (output_call α),
      (sc_statinfo_print stats full summary (some written)).2 = some (written ++ calls)) := by
  refine ⟨?_, rfl, ?_⟩
  · cases nout <;> rfl
  · intro written
    cases full <;> cases summary
    · exact ⟨print_loop print_short_body 0 stats, rfl⟩
    · exact ⟨print_loop print_short_body 0 stats ++ ([output_call.fputs "Summary = "] ++
        print_loop print_summary_body 0 stats ++ [output_call.fputs " ];\n"]), by
          simp [sc_statinfo_print, List.append_assoc]⟩
    · exact ⟨print_loop print_full_body 0 stats, rfl⟩
    · exact ⟨print_loop print_full_body 0 stats ++ ([output_call.fputs "Summary = "] ++
        print_loop print_summary_body 0 stats ++ [output_call.fputs " ];\n"]), by
          simp [sc_statinfo_print, List.append_assoc]⟩


/-! ## The reduction operator on buffers of doubles -/

section mem_body

variable {α : Type} [LinearOrderedField α]

theorem mpifunc_mem_sums_frame (mem : Nat → α) (inp inout a : Nat)
    (h0 : a ≠ inout + 0) (h1 : a ≠ inout + 1) (h2 : a ≠ inout + 2) :
    mpifunc_mem_sums mem inp inout a = mem a := by
  unfold mpifunc_mem_sums
  rw [Function.update_noteq h2, Function.update_noteq h1, Function.update_noteq h0]

theorem mpifunc_mem_min_frame (mem : Nat → α) (inp inout a : Nat)
    (h3 : a ≠ inout + 3) (h5 : a ≠ inout + 5) :
    mpifunc_mem_min mem inp inout a = mem a := by
  unfold mpifunc_mem_min
  dsimp only
  split_ifs
  · rw [Function.update_noteq h5, Function.update_noteq h3]
  · rw [Function.update_noteq h5]
  · rfl

theorem mpifunc_mem_max_frame (mem : Nat → α) (inp inout a : Nat)
    (h4 : a ≠ inout + 4) (h6 : a ≠ inout + 6) :
    mpifunc_mem_max mem inp inout a = mem a := by
  unfold mpifunc_mem_max
  dsimp only
  split_ifs
  · rw [Function.update_noteq h6, Function.update_noteq h4]
  · rw [Function.update_noteq h6]
  · rfl

theorem mpifunc_mem_body_frame (mem : Nat → α) (inp inout a : Nat)
    (h : a < inout ∨ inout + 7 ≤ a) :
    mpifunc_mem_body mem inp inout a = mem a := by
  unfold mpifunc_mem_body
  rw [mpifunc_mem_max_frame _ _ _ _ (by omega) (by omega),
    mpifunc_mem_min_frame _ _ _ _ (by omega) (by omega),
    mpifunc_mem_sums_frame _ _ _ _ (by omega) (by omega) (by omega)]

theorem mpifunc_mem_sums_x0 (mem : Nat → α) (inp inout : Nat) :
    mpifunc_mem_sums mem inp inout (inout + 0) = mem (inout + 0) + mem (inp + 0) := by
  unfold mpifunc_mem_sums
  rw [Function.update_noteq (by omega), Function.update_noteq (by omega),
    Function.update_same]

theorem mpifunc_mem_sums_x1 (mem : Nat → α) (inp inout : Nat) (h : inp + 1 ≠ inout + 0) :
    mpifunc_mem_sums mem inp inout (inout + 1) = mem (inout + 1) + mem (inp + 1) := by
  unfold mpifunc_mem_sums
  rw [Function.update_noteq (by omega), Function.update_same,
    Function.update_noteq (by omega), Function.update_noteq h]

theorem mpifunc_mem_sums_x2 (mem : Nat → α) (inp inout : Nat) (h0 : inp + 2 ≠ inout + 0)
    (h1 : inp + 2 ≠ inout + 1) :
    mpifunc_mem_sums mem inp inout (inout + 2) = mem (inout + 2) + mem (inp + 2) := by
  unfold mpifunc_mem_sums
  rw [Function.update_same, Function.update_noteq (by omega), Function.update_noteq (by omega),
    Function.update_noteq h1, Function.update_noteq h0]

theorem mpifunc_mem_min_x3 (mem : Nat → α) (inp inout : Nat) :
    mpifunc_mem_min mem inp inout (inout + 3) =
      if mem (inp + 3) < mem (inout + 3) then mem (inp + 3) else mem (inout + 3) := by
  unfold mpifunc_mem_min
  dsimp only
  split_ifs
  · rw [Function.update_noteq (by omega), Function.update_same]
  · rw [Function.update_noteq (by omega)]
  · rfl

theorem mpifunc_mem_min_x5 (mem : Nat → α) (inp inout : Nat) (h : inp + 5 ≠ inout + 3) :
    mpifunc_mem_min mem inp inout (inout + 5) =
      if mem (inp + 3) < mem (inout + 3) then mem (inp + 5)
      else if mem (inp + 3) = mem (inout + 3) then SC_MIN (mem (inp + 5)) (mem (inout + 5))
      else mem (inout + 5) := by
  unfold mpifunc_mem_min
  dsimp only
  split_ifs
  · rw [Function.update_same, Function.update_noteq h]
  · rw [Function.update_same]
  · rfl

theorem mpifunc_mem_max_x4 (mem : Nat → α) (inp inout : Nat) :
    mpifunc_mem_max mem inp inout (inout + 4) =
      if mem (inp + 4) > mem (inout + 4) then mem (inp + 4) else mem (inout + 4) := by
  unfold mpifunc_mem_max
  dsimp only
  split_ifs
  · rw [Function.update_noteq (by omega), Function.update_same]
  · rw [Function.update_noteq (by omega)]
  · rfl

theorem mpifunc_mem_max_x6 (mem : Nat → α) (inp inout : Nat) (h : inp + 6 ≠ inout + 4) :
    mpifunc_mem_max mem inp inout (inout + 6) =
      if mem (inp + 4) > mem (inout + 4) then mem (inp + 6)
      else if mem (inp + 4) = mem (inout + 4) then SC_MIN (mem (inp + 6)) (mem (inout + 6))
      else mem (inout + 6) := by
  unfold mpifunc_mem_max
  dsimp only
  split_ifs
  · rw [Function.update_same, Function.update_noteq h]
  · rw [Function.update_same]
  · rfl

theorem mpifunc_mem_body_read (mem : Nat → α) (inp inout : Nat)
    (h : inp + 7 ≤ inout ∨ inout + 7 ≤ inp) :
    read7 (mpifunc_mem_body mem inp inout) inout =
      mpifunc_body (read7 mem inp) (read7 mem inout) := by
  apply flat7_eq_of_fields
  · rw [mpifunc_body_x0]
    unfold mpifunc_mem_body read7
    dsimp only
    rw [mpifunc_mem_max_frame _ _ _ _ (by omega) (by omega),
      mpifunc_mem_min_frame _ _ _ _ (by omega) (by omega), mpifunc_mem_sums_x0]
  · rw [mpifunc_body_x1]
    unfold mpifunc_mem_body read7
    dsimp only
    rw [mpifunc_mem_max_frame _ _ _ _ (by omega) (by omega),
      mpifunc_mem_min_frame _ _ _ _ (by omega) (by omega),
      mpifunc_mem_sums_x1 _ _ _ (by omega)]
  · rw [mpifunc_body_x2]
    unfold mpifunc_mem_body read7
    dsimp only
    rw [mpifunc_mem_max_frame _ _ _ _ (by omega) (by omega),
      mpifunc_mem_min_frame _ _ _ _ (by omega) (by omega),
      mpifunc_mem_sums_x2 _ _ _ (by omega) (by omega)]
  · rw [mpifunc_body_x3]
    unfold mpifunc_mem_body read7
    dsimp only
    rw [mpifunc_mem_max_frame _ _ _ _ (by omega) (by omega), mpifunc_mem_min_x3,
      mpifunc_mem_sums_frame _ _ _ (inp + 3) (by omega) (by omega) (by omega),
      mpifunc_mem_sums_frame _ _ _ (inout + 3) (by omega) (by omega) (by omega)]
  · rw [mpifunc_body_x4]
    unfold mpifunc_mem_body read7
    dsimp only
    rw [mpifunc_mem_max_x4,
      mpifunc_mem_min_frame _ _ _ (inp + 4) (by omega) (by omega),
      mpifunc_mem_min_frame _ _ _ (inout + 4) (by omega) (by omega),
      mpifunc_mem_sums_frame _ _ _ (inp + 4) (by omega) (by omega) (by omega),
      mpifunc_mem_sums_frame _ _ _ (inout + 4) (by omega) (by omega) (by omega)]
  · rw [mpifunc_body_x5]
    unfold mpifunc_mem_body read7
    dsimp only
    rw [mpifunc_mem_max_frame _ _ _ _ (by omega) (by omega),
      mpifunc_mem_min_x5 _ _ _ (by omega),
      mpifunc_mem_sums_frame _ _ _ (inp + 3) (by omega) (by omega) (by omega),
      mpifunc_mem_sums_frame _ _ _ (inout + 3) (by omega) (by omega) (by omega),
      mpifunc_mem_sums_frame _ _ _ (inp + 5) (by omega) (by omega) (by omega),
      mpifunc_mem_sums_frame _ _ _ (inout + 5) (by omega) (by omega) (by omega)]
  · rw [mpifunc_body_x6]
    unfold mpifunc_mem_body read7
    dsimp only
    rw [mpifunc_mem_max_x6 _ _ _ (by omega),
      mpifunc_mem_min_frame _ _ _ (inp + 4) (by omega) (by omega),
      mpifunc_mem_min_frame _ _ _ (inout + 4) (by omega) (by omega),
      mpifunc_mem_min_frame _ _ _ (inp + 6) (by omega) (by omega),
      mpifunc_mem_min_frame _ _ _ (inout + 6) (by omega) (by omega),
      mpifunc_mem_sums_frame _ _ _ (inp + 4) (by omega) (by omega) (by omega),
      mpifunc_mem_sums_frame _ _ _ (inout + 4) (by omega) (by omega) (by omega),
      mpifunc_mem_sums_frame _ _ _ (inp + 6) (by omega) (by omega) (by omega),
      mpifunc_mem_sums_frame _ _ _ (inout + 6) (by omega) (by omega) (by omega)]

end mem_body

theorem read7_congr {α : Type} (f g : Nat → α) (p : Nat) (h : ∀ j, j < 7 → f (p + j) = g (p + j)) :
    read7 f p = read7 g p := by
  unfold read7
  rw [h 0 (by omega), h 1 (by omega), h 2 (by omega), h 3 (by omega), h 4 (by omega),
    h 5 (by omega), h 6 (by omega)]

section mem_loop

variable {α : Type} [LinearOrderedField α]

theorem mpifunc_mem_loop_frame (n : Nat) : ∀ (mem : Nat → α) (inp inout a : Nat),
    (a < inout ∨ inout + 7 * n ≤ a) → mpifunc_mem_loop n mem inp inout a = mem a := by
  induction n with
  | zero => intro mem inp inout a _; rfl
  | succ n ih =>
    intro mem inp inout a h
    show mpifunc_mem_loop n (mpifunc_mem_body mem inp inout) (inp + 7) (inout + 7) a = mem a
    rw [ih _ _ _ _ (by omega), mpifunc_mem_body_frame _ _ _ _ (by omega)]

theorem mpifunc_mem_loop_read (n : Nat) : ∀ (mem : Nat → α) (inp inout k : Nat),
    (inp + 7 * n ≤ inout ∨ inout + 7 * n ≤ inp) → k < n →
    read7 (mpifunc_mem_loop n mem inp inout) (inout + 7 * k) =
      mpifunc_body (read7 mem (inp + 7 * k)) (read7 mem (inout + 7 * k)) := by
  induction n with
  | zero => intro mem inp inout k _ hk; omega
  | succ n ih =>
    intro mem inp inout k hsep hk
    show read7 (mpifunc_mem_loop n (mpifunc_mem_body mem inp inout) (inp + 7) (inout + 7))
      (inout + 7 * k) = _
    cases k with
    | zero =>
      rw [read7_congr _ (mpifunc_mem_body mem inp inout) _
        (fun j hj => mpifunc_mem_loop_frame n _ _ _ _ (by omega))]
      exact mpifunc_mem_body_read mem inp inout (by omega)
    | succ k =>
      have e1 : inout + 7 * (k + 1) = inout + 7 + 7 * k := by omega
      have e2 : inp + 7 * (k + 1) = inp + 7 + 7 * k := by omega
      rw [e1, e2, ih _ _ _ k (by omega) (by omega),
        read7_congr _ mem (inp + 7 + 7 * k)
          (fun j hj => mpifunc_mem_body_frame mem inp inout _ (by omega)),
        read7_congr _ mem (inout + 7 + 7 * k)
          (fun j hj => mpifunc_mem_body_frame mem inp inout _ (by omega))]

end mem_loop

/-! ## Data set by data set description of the list-level loops -/

theorem mpifunc_at_index {α : Type} [LinearOrderedField α] (a : List (flat7 α)) :
    ∀ (b : List (flat7 α)) (n k : Nat),
    (sc_statinfo_mpifunc a b n)[k]? = mpifunc_at (decide (k < n)) a[k]? b[k]? := by
  induction a with
  | nil =>
    intro b n k
    cases b <;> cases n <;> simp [sc_statinfo_mpifunc, mpifunc_at]
  | cons x a ih =>
    intro b n k
    cases b with
    | nil => cases n <;> simp [sc_statinfo_mpifunc, mpifunc_at]
    | cons y b =>
      cases n with
      | zero =>
        simp only [sc_statinfo_mpifunc]
        cases h : (y :: b)[k]? <;> cases h2 : (x :: a)[k]? <;> simp [mpifunc_at]
      | succ n =>
        cases k with
        | zero => simp [sc_statinfo_mpifunc, mpifunc_at]
        | succ k =>
          simp only [sc_statinfo_mpifunc, List.getElem?_cons_succ, ih b n k,
            Nat.add_lt_add_iff_right]

theorem compute_derive_at_index {α : Type} [LinearOrderedField α] [FloorRing α]
    (sqrt : α → α) (fl : List (flat7 α)) : ∀ (st : List (sc_statinfo_t α)) (k : Nat),
    (compute_derive sqrt fl st)[k]? = compute_derive_at sqrt fl[k]? st[k]? := by
  induction fl with
  | nil =>
    intro st k
    cases st <;> simp [compute_derive, compute_derive_at]
  | cons f fl ih =>
    intro st k
    cases st with
    | nil => simp [compute_derive, compute_derive_at]
    | cons s st =>
      cases k with
      | zero => simp [compute_derive, compute_derive_at]
      | succ k => simp only [compute_derive, List.getElem?_cons_succ, ih st k]

theorem reduce_at_index {α : Type} [LinearOrderedField α] (n k : Nat)
    (t : RTree (List (flat7 α))) :
    (t.reduce (fun invec inoutvec => sc_statinfo_mpifunc invec inoutvec n))[k]? =
      (t.map (fun b => b[k]?)).reduce (mpifunc_at (decide (k < n))) := by
  induction t with
  | leaf b => rfl
  | node l r ihl ihr =>
    simp only [RTree.reduce, RTree.map, mpifunc_at_index, ihl, ihr]

theorem load7_at_index {α : Type} (mem : Nat → α) (p n k : Nat) :
    (load7 mem p n)[k]? = if k < n then some (read7 mem (p + 7 * k)) else none := by
  unfold load7
  by_cases h : k < n
  · rw [if_pos h, List.getElem?_map, List.getElem?_range h]
    rfl
  · rw [if_neg h, List.getElem?_eq_none (by simpa using h)]

theorem compute_mpi_at_index {α : Type} [LinearOrderedField α] [FloorRing α]
    (sqrt : α → α) (mpicomm : real_transport α) (stats : List (sc_statinfo_t α)) (i : Nat) :
    (sc_statinfo_compute_mpi sqrt mpicomm stats)[i]? =
      compute_derive_at sqrt
        (((mpicomm.tree (compute_flatten mpicomm.rank stats)).map (fun b => b[i]?)).reduce
          (mpifunc_at (decide (i < stats.length))))
        stats[i]? := by
  unfold sc_statinfo_compute_mpi
  dsimp only
  rw [compute_derive_at_index, reduce_at_index]

theorem decide_lt_length_of_index_eq {β : Type} (l l' : List β) (i : Nat) (h : l[i]? = l'[i]?) :
    decide (i < l.length) = decide (i < l'.length) := by
  by_cases h1 : i < l.length
  · have h2 : i < l'.length := by
      by_contra hc
      rw [List.getElem?_eq_getElem h1, List.getElem?_eq_none (by omega)] at h
      cases h
    simp [h1, h2]
  · have h2 : ¬ i < l'.length := by
      intro hc
      rw [List.getElem?_eq_getElem hc, List.getElem?_eq_none (by omega)] at h
      cases h
    simp [h1, h2]

/-! ## Claim about the independence of the variables -/

/-- C25: variables are reduced independently.  The two buffers of
sc_statinfo_mpifunc are two arrays of len data sets of seven doubles in a
memory of doubles, starting at the elements invec and inoutvec, that do not
overlap.  After the call, data set k of the in-out buffer is the merge of
data set k of the input buffer and data set k of the in-out buffer as they
were before it, for every k below len; the input buffer is unchanged; no
element of the in-out buffer at index 7 * len or beyond, and no element of
the memory outside the len data sets of the in-out buffer, is changed; as
lists of data sets, the in-out buffer after the call is the list-level
sc_statinfo_mpifunc of the two buffers.  Consequently the record that
sc_statinfo_compute yields for the variable i depends only on the records
stats[i]: on the stand-in it is the one-variable computation on stats[i],
and on a real transport two runs that agree in data set i of every
contribution and in the record stats[i] of the caller agree in the record i
of the result. -/
theorem variables_reduced_independently {α : Type} [LinearOrderedField α] [FloorRing α]
    (mem : Nat → α) (invec inoutvec : Nat) (len : Int)
    (hsep : invec + 7 * len.toNat ≤ inoutvec ∨ inoutvec + 7 * len.toNat ≤ invec) :
    (∀ k : Nat, (k : Int) < len →
      read7 (sc_statinfo_mpifunc_mem mem invec inoutvec len) (inoutvec + 7 * k) =
        mpifunc_body (read7 mem (invec + 7 * k)) (read7 mem (inoutvec + 7 * k))) ∧
    (∀ j : Nat, (j : Int) < 7 * len →
      sc_statinfo_mpifunc_mem mem invec inoutvec len (invec + j) = mem (invec + j)) ∧
    (∀ j : Nat, 7 * len ≤ (j : Int) →
      sc_statinfo_mpifunc_mem mem invec inoutvec len (inoutvec + j) = mem (inoutvec + j)) ∧
    (∀ a : Nat, a < inoutvec ∨ inoutvec + 7 * len.toNat ≤ a →
      sc_statinfo_mpifunc_mem mem invec inoutvec len a = mem a) ∧
    load7 (sc_statinfo_mpifunc_mem mem invec inoutvec len) inoutvec len.toNat =
      sc_statinfo_mpifunc (load7 mem invec len.toNat) (load7 mem inoutvec len.toNat)
        len.toNat ∧
    (∀ {C : Type} (sqrt : α → α) (mpicomm : C) (stats : List (sc_statinfo_t α)),
      ∃ out, sc_statinfo_compute sqrt mpicomm stats = some out ∧
        ∀ i : Nat, out[i]? = (stats[i]?).map (compute_single_body sqrt)) ∧
    (∀ (sqrt : α → α) (mpicomm mpicomm' : real_transport α)
      (stats stats' : List (sc_statinfo_t α)) (i : Nat),
      (mpicomm.tree (compute_flatten mpicomm.rank stats)).map (fun b => b[i]?) =
        (mpicomm'.tree (compute_flatten mpicomm'.rank stats')).map (fun b => b[i]?) →
      stats[i]? = stats'[i]? →
      (sc_statinfo_compute_mpi sqrt mpicomm stats)[i]? =
        (sc_statinfo_compute_mpi sqrt mpicomm' stats')[i]?) := by
  have hframe : ∀ a : Nat, a < inoutvec ∨ inoutvec + 7 * len.toNat ≤ a →
      sc_statinfo_mpifunc_mem mem invec inoutvec len a = mem a :=
    fun a ha => mpifunc_mem_loop_frame len.toNat mem invec inoutvec a ha
  have hread : ∀ k : Nat, k < len.toNat →
      read7 (sc_statinfo_mpifunc_mem mem invec inoutvec len) (inoutvec + 7 * k) =
        mpifunc_body (read7 mem (invec + 7 * k)) (read7 mem (inoutvec + 7 * k)) :=
    fun k hk => mpifunc_mem_loop_read len.toNat mem invec inoutvec k hsep hk
  refine ⟨fun k hk => hread k (by omega), fun j hj => hframe _ (by omega),
    fun j hj => hframe _ (by omega), hframe, ?_, ?_, ?_⟩
  · apply List.ext_getElem?
    intro k
    rw [mpifunc_at_index, load7_at_index, load7_at_index, load7_at_index]
    by_cases hk : k < len.toNat
    · rw [if_pos hk, if_pos hk, if_pos hk, hread k hk]
      simp [mpifunc_at, hk]
    · rw [if_neg hk, if_neg hk, if_neg hk]
      rfl
  · intro C sqrt mpicomm stats
    refine ⟨stats.map (compute_single_body sqrt), sc_statinfo_compute_eq sqrt mpicomm stats,
      fun i => ?_⟩
    rw [List.getElem?_map]
  · intro sqrt mpicomm mpicomm' stats stats' i htree hstats
    rw [compute_mpi_at_index, compute_mpi_at_index, htree, hstats,
      decide_lt_length_of_index_eq stats stats' i hstats]

theorem variables_reduced_independently_witness :
    ((0 : Nat) + 7 * (2 : Int).toNat ≤ 14 ∨ 14 + 7 * (2 : Int).toNat ≤ 0) ∧
    read7 (sc_statinfo_mpifunc_mem sample_memory 0 14 2) (14 + 7 * 1) =
      { x0 := 2, x1 := 10, x2 := 50, x3 := 5, x4 := 5, x5 := 0, x6 := 0 } ∧
    sc_statinfo_mpifunc_mem sample_memory 0 14 2 (0 + 3) = 4 ∧
    sc_statinfo_mpifunc_mem sample_memory 0 14 2 (14 + 14) = 99 ∧
    (sc_statinfo_compute_mpi id
        (sample_pair (compute_flatten 1 [sc_statinfo_set1 sample_blank 4 none,
          sc_statinfo_set1 sample_blank 7 none]))
        [sc_statinfo_set1 sample_blank 3 none, sc_statinfo_set1 sample_blank 5 none])[0]? =
      (sc_statinfo_compute_mpi id
        (sample_pair (compute_flatten 1 [sc_statinfo_set1 sample_blank 4 none,
          sc_statinfo_set1 sample_blank 9 none]))
        [sc_statinfo_set1 sample_blank 3 none, sc_statinfo_set1 sample_blank 6 none])[0]? := by
  obtain ⟨h1, h2, h3, _, _, _, h7⟩ :=
    variables_reduced_independently sample_memory 0 14 2 (Or.inl (by decide))
  refine ⟨Or.inl (by decide), ?_, ?_, ?_, ?_⟩
  · rw [h1 1 (by decide)]
    norm_num [mpifunc_body, read7, sample_memory, SC_MIN]
  · rw [h2 3 (by decide)]
    simp [sample_memory]
  · rw [h3 14 (by decide)]
    simp [sample_memory]
  · exact h7 id _ _ _ _ 0 rfl rfl

/-- When the two buffers are the same array the input buffer does not keep
its content: the separation of the buffers is needed. -/
theorem overlapping_buffers_change_input :
    sc_statinfo_mpifunc_mem sample_memory 0 0 1 0 = 2 ∧ sample_memory 0 = 1 := by
  constructor
  · show mpifunc_mem_max (mpifunc_mem_min (mpifunc_mem_sums sample_memory 0 0) 0 0) 0 0 0 = 2
    rw [mpifunc_mem_max_frame _ _ _ _ (by decide) (by decide),
      mpifunc_mem_min_frame _ _ _ _ (by decide) (by decide), mpifunc_mem_sums_x0]
    norm_num [sample_memory]
  · simp [sample_memory]

/-! ## Further witnesses for the stand-in -/

theorem point_to_point_aborts_witness :
    (1 : Int) ≠ 0 ∧ MPI_Waitall 1 () () = none ∧
    MPI_Send sample_send 1 MPI_Datatype.MPI_INT 0 0 () = none :=
  ⟨by decide,
    (point_to_point_aborts sample_send 1 MPI_Datatype.MPI_INT 0 0 () () ()).2.2.2.1 (by decide),
    (point_to_point_aborts sample_send 1 MPI_Datatype.MPI_INT 0 0 () () ()).1⟩

theorem bcast_contract_witness :
    (1 : Int) ≠ 0 ∧ MPI_Bcast sample_send 5 MPI_Datatype.MPI_INT 1 () = none ∧
    MPI_Bcast sample_send 5 MPI_Datatype.MPI_INT 0 () = some (MPI_SUCCESS, sample_send) :=
  ⟨by decide, (bcast_contract sample_send 5 MPI_Datatype.MPI_INT 1 ()).2.1 (by decide),
    (bcast_contract sample_send 5 MPI_Datatype.MPI_INT 0 ()).1.mpr rfl⟩


/-! ## The global count and the range of int -/

theorem double_to_int_c_of_range {α : Type} [LinearOrderedField α] [FloorRing α] (x : α)
    (h1 : INT_MIN ≤ double_to_int x) (h2 : double_to_int x ≤ INT_MAX) :
    double_to_int_c x = double_to_int x := by
  unfold double_to_int_c
  rw [if_pos ⟨h1, h2⟩]

theorem double_to_int_c_range {α : Type} [LinearOrderedField α] [FloorRing α] (x : α) :
    INT_MIN ≤ double_to_int_c x ∧ double_to_int_c x ≤ INT_MAX := by
  unfold double_to_int_c
  split_ifs with h
  · exact h
  · exact ⟨le_refl _, by decide⟩

theorem derive_c_agrees {α : Type} [LinearOrderedField α] [FloorRing α]
    (sqrt : α → α) (f : flat7 α) (s : sc_statinfo_t α)
    (h0 : INT_MIN ≤ double_to_int f.x0 ∧ double_to_int f.x0 ≤ INT_MAX)
    (h5 : INT_MIN ≤ double_to_int f.x5 ∧ double_to_int f.x5 ≤ INT_MAX)
    (h6 : INT_MIN ≤ double_to_int f.x6 ∧ double_to_int f.x6 ≤ INT_MAX) :
    compute_derive_body_c sqrt f s = compute_derive_body sqrt f s := by
  unfold compute_derive_body_c compute_derive_body
  dsimp only
  rw [double_to_int_c_of_range _ h0.1 h0.2, double_to_int_c_of_range _ h5.1 h5.2,
    double_to_int_c_of_range _ h6.1 h6.2]

theorem derive_c_count {α : Type} [LinearOrderedField α] [FloorRing α]
    (sqrt : α → α) (f : flat7 α) (s : sc_statinfo_t α) :
    (compute_derive_body_c sqrt f s).count = double_to_int_c f.x0 := rfl

/-- C6 fails on the code where the sum of the local counts leaves the range
of int.  Two participants report the local count INT_MAX each.  The merge
gives the sum 4294967294 in field 0 of the reduced tuple, and the derive
step converts that double to the int count: the value is not representable,
the count stored is INT_MIN, and no int at all equals the sum of the local
counts. -/
theorem global_count_overflows_int :
    sample_full_tree.leaves = sample_full_group.map contribution ∧
    (sample_full_group.map fun p => p.2.count).sum = 4294967294 ∧
    (sample_full_tree.reduce mpifunc_body).x0 = 4294967294 ∧
    (compute_derive_body_c id (sample_full_tree.reduce mpifunc_body) sample_blank).count =
      INT_MIN ∧
    (compute_derive_body_c id (sample_full_tree.reduce mpifunc_body) sample_blank).count ≠
      (sample_full_group.map fun p => p.2.count).sum ∧
    (∀ c : Int, INT_MIN ≤ c → c ≤ INT_MAX →
      c ≠ (sample_full_group.map fun p => p.2.count).sum) := by
  have hx0 : (sample_full_tree.reduce mpifunc_body).x0 = ((4294967294 : Int) : ℚ) := by
    show (mpifunc_body _ _).x0 = _
    rw [mpifunc_body_x0]
    norm_num [RTree.reduce, contribution, compute_flatten_body, sample_blank, INT_MAX]
  have hcount :
      (compute_derive_body_c id (sample_full_tree.reduce mpifunc_body) sample_blank).count =
        INT_MIN := by
    rw [derive_c_count, hx0]
    unfold double_to_int_c
    rw [double_to_int_intCast, if_neg (by decide)]
  have hsum : (sample_full_group.map fun p => p.2.count).sum = 4294967294 := by decide
  refine ⟨rfl, hsum, ?_, hcount, ?_, ?_⟩
  · rw [hx0]
    norm_num
  · rw [hcount, hsum]
    decide
  · intro c _ h2
    rw [hsum]
    have h3 : INT_MAX = 2147483647 := rfl
    omega


/-! ## Rounding to double -/

theorem round_half_even_intCast (z : Int) : round_half_even (z : ℚ) = z := by
  unfold round_half_even
  simp only [Int.floor_intCast, sub_self]
  norm_num

theorem round_half_even_up (q : ℚ) (f : Int) (h1 : (f : ℚ) + 1 / 2 < q) (h2 : q < f + 1) :
    round_half_even q = f + 1 := by
  have hf : Int.floor q = f := by
    rw [Int.floor_eq_iff]
    constructor <;> linarith
  unfold round_half_even
  simp only [hf]
  rw [if_neg (by linarith), if_pos (by linarith)]

theorem int_log_two_eq (r : ℚ) (e : Int) (h1 : (2 : ℚ) ^ e ≤ r) (h2 : r < (2 : ℚ) ^ (e + 1)) :
    Int.log 2 r = e := by
  have hr : 0 < r := lt_of_lt_of_le (by positivity) h1
  have a1 : e ≤ Int.log 2 r := by
    rw [← Int.zpow_le_iff_le_log (by norm_num) hr]
    simpa using h1
  have a2 : Int.log 2 r < e + 1 := by
    rw [← Int.lt_zpow_iff_log_lt (by norm_num) hr]
    simpa using h2
  omega

theorem round_to_double_of_exponent (x : ℚ) (e : Int) (h1 : (2 : ℚ) ^ e ≤ |x|)
    (h2 : |x| < (2 : ℚ) ^ (e + 1)) :
    round_to_double x = round_half_even (x / (2 : ℚ) ^ (e - 52)) * (2 : ℚ) ^ (e - 52) := by
  have hx : x ≠ 0 := by
    intro h
    rw [h, abs_zero] at h1
    have : (0 : ℚ) < 2 ^ e := by positivity
    linarith
  unfold round_to_double
  rw [if_neg hx]
  simp only [int_log_two_eq |x| e h1 h2]

theorem round_to_double_natCast (n : ℕ) (h : n < 2 ^ 53) : round_to_double (n : ℚ) = n := by
  by_cases h0 : n = 0
  · subst h0
    simp [round_to_double]
  have hpos : (0 : ℚ) < n := by exact_mod_cast Nat.pos_of_ne_zero h0
  have habs : |(n : ℚ)| = n := abs_of_pos hpos
  have hlo : (0 : Int) ≤ Int.log 2 (n : ℚ) := by
    rw [← Int.zpow_le_iff_le_log (by norm_num) hpos]
    simp only [zpow_zero]
    exact_mod_cast Nat.pos_of_ne_zero h0
  have hhi : Int.log 2 (n : ℚ) < 53 := by
    rw [← Int.lt_zpow_iff_log_lt (by norm_num) hpos]
    have h53 : ((n : ℚ)) < (2 : ℚ) ^ (53 : ℕ) := by exact_mod_cast h
    have e53 : (((2 : ℕ) : ℚ)) ^ ((53 : ℕ) : Int) = (2 : ℚ) ^ (53 : ℕ) := by
      rw [zpow_natCast]
      norm_num
    show (n : ℚ) < ((2 : ℕ) : ℚ) ^ ((53 : ℕ) : Int)
    rw [e53]
    exact h53
  unfold round_to_double
  rw [if_neg (ne_of_gt hpos), habs]
  obtain ⟨k, hk⟩ : ∃ k : ℕ, Int.log 2 (n : ℚ) - 52 = -(k : Int) :=
    ⟨(52 - Int.log 2 (n : ℚ)).toNat, by omega⟩
  simp only [hk, zpow_neg, zpow_natCast]
  have e1 : (n : ℚ) / ((2 : ℚ) ^ k)⁻¹ = (((n * 2 ^ k : ℕ) : Int) : ℚ) := by
    push_cast
    field_simp
  rw [e1, round_half_even_intCast]
  push_cast
  field_simp

theorem round_to_double_fifty_six_thirds :
    round_to_double (56 / 3) = 5254199565265579 / 281474976710656 := by
  rw [round_to_double_of_exponent (56 / 3) 4 (by norm_num [abs_of_pos])
    (by norm_num [abs_of_pos]),
    round_half_even_up _ 5254199565265578 (by norm_num) (by norm_num)]
  norm_num

theorem round_to_double_variance :
    round_to_double (5254199565265579 / 281474976710656 - 16) =
      750599937895083 / 281474976710656 := by
  have e : (5254199565265579 / 281474976710656 - 16 : ℚ) / (2 : ℚ) ^ ((1 : Int) - 52) =
      ((6004799503160664 : Int) : ℚ) := by norm_num
  rw [round_to_double_of_exponent _ 1 (by norm_num [abs_of_pos]) (by norm_num [abs_of_pos]),
    e, round_half_even_intCast]
  norm_num

/-! ## The reduction in double arithmetic -/

section double_arithmetic

variable {α : Type} [LinearOrderedField α]

theorem set1_fl_eq (fl : α → α) (stats : sc_statinfo_t α) (value : α)
    (variable_name : Option String) (h : fl (value * value) = value * value) :
    sc_statinfo_set1_fl fl stats value variable_name =
      sc_statinfo_set1 stats value variable_name := by
  unfold sc_statinfo_set1_fl sc_statinfo_set1
  rw [h]

theorem mpifunc_body_fl_eq (fl : α → α) (a b : flat7 α) (h0 : fl (b.x0 + a.x0) = b.x0 + a.x0)
    (h1 : fl (b.x1 + a.x1) = b.x1 + a.x1) (h2 : fl (b.x2 + a.x2) = b.x2 + a.x2) :
    mpifunc_body_fl fl a b = mpifunc_body a b := by
  unfold mpifunc_body_fl mpifunc_body
  dsimp only
  rw [h0, h1, h2]

theorem sum_of_naturals (l : List α) (h : ∀ x ∈ l, ∃ n : ℕ, x = n) : ∃ n : ℕ, l.sum = n := by
  induction l with
  | nil => exact ⟨0, by simp⟩
  | cons x l ih =>
    obtain ⟨n, hn⟩ := h x (List.mem_cons_self _ _)
    obtain ⟨m, hm⟩ := ih (fun y hy => h y (List.mem_cons_of_mem _ hy))
    exact ⟨n + m, by rw [List.sum_cons, hn, hm, Nat.cast_add]⟩

theorem fl_fixes_sum (fl : α → α) (B : ℕ) (hfl : ∀ n : ℕ, n ≤ B → fl (n : α) = n)
    (l : List α) (h : ∀ x ∈ l, ∃ n : ℕ, x = n) (hB : l.sum ≤ B) : fl l.sum = l.sum := by
  obtain ⟨n, hn⟩ := sum_of_naturals l h
  rw [hn] at hB ⊢
  exact hfl n (by exact_mod_cast hB)

theorem sum_nonneg_of_naturals (l : List α) (h : ∀ x ∈ l, ∃ n : ℕ, x = n) : 0 ≤ l.sum := by
  obtain ⟨n, hn⟩ := sum_of_naturals l h
  rw [hn]
  exact Nat.cast_nonneg n

theorem reduce_fl_eq (fl : α → α) (B : ℕ) (hfl : ∀ n : ℕ, n ≤ B → fl (n : α) = n)
    (t : RTree (flat7 α)) :
    (∀ l ∈ t.leaves, (∃ n : ℕ, l.x0 = n) ∧ (∃ n : ℕ, l.x1 = n) ∧ (∃ n : ℕ, l.x2 = n)) →
    (t.leaves.map flat7.x0).sum ≤ B → (t.leaves.map flat7.x1).sum ≤ B →
    (t.leaves.map flat7.x2).sum ≤ B →
    t.reduce (mpifunc_body_fl fl) = t.reduce mpifunc_body := by
  induction t with
  | leaf b => intro _ _ _ _; rfl
  | node l r ihl ihr =>
    intro hleaf b0 b1 b2
    have hl : ∀ x ∈ l.leaves, (∃ n : ℕ, x.x0 = n) ∧ (∃ n : ℕ, x.x1 = n) ∧ (∃ n : ℕ, x.x2 = n) :=
      fun x hx => hleaf x (List.mem_append_left _ hx)
    have hr : ∀ x ∈ r.leaves, (∃ n : ℕ, x.x0 = n) ∧ (∃ n : ℕ, x.x1 = n) ∧ (∃ n : ℕ, x.x2 = n) :=
      fun x hx => hleaf x (List.mem_append_right _ hx)
    have n0 : ∀ x ∈ (RTree.node l r).leaves.map flat7.x0, ∃ n : ℕ, x = n := by
      intro x hx
      obtain ⟨y, hy, rfl⟩ := List.mem_map.mp hx
      exact (hleaf y hy).1
    have n1 : ∀ x ∈ (RTree.node l r).leaves.map flat7.x1, ∃ n : ℕ, x = n := by
      intro x hx
      obtain ⟨y, hy, rfl⟩ := List.mem_map.mp hx
      exact (hleaf y hy).2.1
    have n2 : ∀ x ∈ (RTree.node l r).leaves.map flat7.x2, ∃ n : ℕ, x = n := by
      intro x hx
      obtain ⟨y, hy, rfl⟩ := List.mem_map.mp hx
      exact (hleaf y hy).2.2
    have f0 := fl_fixes_sum fl B hfl _ n0 b0
    have f1 := fl_fixes_sum fl B hfl _ n1 b1
    have f2 := fl_fixes_sum fl B hfl _ n2 b2
    simp only [RTree.leaves, List.map_append, List.sum_append] at b0 b1 b2 n0 n1 n2
    have p0l := sum_nonneg_of_naturals _ (fun x hx => n0 x (List.mem_append_left _ hx))
    have p0r := sum_nonneg_of_naturals _ (fun x hx => n0 x (List.mem_append_right _ hx))
    have p1l := sum_nonneg_of_naturals _ (fun x hx => n1 x (List.mem_append_left _ hx))
    have p1r := sum_nonneg_of_naturals _ (fun x hx => n1 x (List.mem_append_right _ hx))
    have p2l := sum_nonneg_of_naturals _ (fun x hx => n2 x (List.mem_append_left _ hx))
    have p2r := sum_nonneg_of_naturals _ (fun x hx => n2 x (List.mem_append_right _ hx))
    have el := ihl hl (by linarith) (by linarith) (by linarith)
    have er := ihr hr (by linarith) (by linarith) (by linarith)
    show mpifunc_body_fl fl (l.reduce (mpifunc_body_fl fl)) (r.reduce (mpifunc_body_fl fl)) =
      mpifunc_body (l.reduce mpifunc_body) (r.reduce mpifunc_body)
    rw [el, er]
    have s0 : (r.reduce mpifunc_body).x0 + (l.reduce mpifunc_body).x0 =
        ((RTree.node l r).leaves.map flat7.x0).sum := by
      rw [← reduce_x0 (RTree.node l r), ← mpifunc_body_x0]
      rfl
    have s1 : (r.reduce mpifunc_body).x1 + (l.reduce mpifunc_body).x1 =
        ((RTree.node l r).leaves.map flat7.x1).sum := by
      rw [← reduce_x1 (RTree.node l r), ← mpifunc_body_x1]
      rfl
    have s2 : (r.reduce mpifunc_body).x2 + (l.reduce mpifunc_body).x2 =
        ((RTree.node l r).leaves.map flat7.x2).sum := by
      rw [← reduce_x2 (RTree.node l r), ← mpifunc_body_x2]
      rfl
    exact mpifunc_body_fl_eq fl _ _ (by rw [s0]; exact f0) (by rw [s1]; exact f1)
      (by rw [s2]; exact f2)

theorem leaves_map {β γ : Type} (f : β → γ) (t : RTree β) :
    (t.map f).leaves = t.leaves.map f := by
  induction t with
  | leaf b => rfl
  | node l r ihl ihr => simp only [RTree.map, RTree.leaves, ihl, ihr, List.map_append]

theorem reduce_singletons (body : flat7 α → flat7 α → flat7 α)
    (op : List (flat7 α) → List (flat7 α) → List (flat7 α))
    (hop : ∀ x y, op [x] [y] = [body x y]) (t : RTree (List (flat7 α))) :
    (∀ b ∈ t.leaves, ∃ c, b = [c]) →
    t.reduce op = [(t.map first_data_set).reduce body] := by
  induction t with
  | leaf b =>
    intro h
    obtain ⟨c, rfl⟩ := h b (List.mem_singleton_self b)
    rfl
  | node l r ihl ihr =>
    intro h
    show op (l.reduce op) (r.reduce op) = _
    rw [ihl (fun b hb => h b (List.mem_append_left _ hb)),
      ihr (fun b hb => h b (List.mem_append_right _ hb)), hop]
    rfl

end double_arithmetic

/-! ## The scenario of the values 2, 4 and 6 through sc_statinfo_compute -/

theorem scenario_reduced_tuple {α : Type} [LinearOrderedField α]
    (r2 r4 r6 : Int) (a2 a4 a6 : sc_statinfo_t α) (n2 n4 n6 : Option String)
    (t : RTree (flat7 α))
    (h : t.leaves.Perm ([(r2, sc_statinfo_set1 a2 2 n2), (r4, sc_statinfo_set1 a4 4 n4),
      (r6, sc_statinfo_set1 a6 6 n6)].map contribution)) :
    t.reduce mpifunc_body =
      { x0 := 3, x1 := 12, x2 := 56, x3 := 2, x4 := 6, x5 := (r2 : α), x6 := (r6 : α) } := by
  have e0 : (t.reduce mpifunc_body).x0 = 3 := by
    rw [reduce_x0, (h.map flat7.x0).sum_eq]
    simp only [List.map_cons, List.map_nil, List.sum_cons, List.sum_nil, contribution,
      compute_flatten_body, sc_statinfo_set1, Int.cast_one]
    norm_num
  have e1 : (t.reduce mpifunc_body).x1 = 12 := by
    rw [reduce_x1, (h.map flat7.x1).sum_eq]
    simp only [List.map_cons, List.map_nil, List.sum_cons, List.sum_nil, contribution,
      compute_flatten_body, sc_statinfo_set1]
    norm_num
  have e2 : (t.reduce mpifunc_body).x2 = 56 := by
    rw [reduce_x2, (h.map flat7.x2).sum_eq]
    simp only [List.map_cons, List.map_nil, List.sum_cons, List.sum_nil, contribution,
      compute_flatten_body, sc_statinfo_set1]
    norm_num
  have hmem : ∀ l ∈ t.leaves, l = contribution (r2, sc_statinfo_set1 a2 2 n2) ∨
      l = contribution (r4, sc_statinfo_set1 a4 4 n4) ∨
      l = contribution (r6, sc_statinfo_set1 a6 6 n6) := by
    intro l hl
    have hl2 := h.mem_iff.mp hl
    simpa only [List.map_cons, List.map_nil, List.mem_cons, List.mem_singleton,
      List.not_mem_nil, or_false] using hl2
  have m2 : contribution (r2, sc_statinfo_set1 a2 2 n2) ∈ t.leaves :=
    h.mem_iff.mpr (List.mem_cons_self _ _)
  have m6 : contribution (r6, sc_statinfo_set1 a6 6 n6) ∈ t.leaves :=
    h.mem_iff.mpr (List.mem_cons_of_mem _ (List.mem_cons_of_mem _ (List.mem_cons_self _ _)))
  have k3 : (t.reduce mpifunc_body).x3 = 2 ∧ (t.reduce mpifunc_body).x5 = (r2 : α) := by
    obtain ⟨ha, ⟨l, hl, hl3, hl5⟩, _⟩ := reduce_min_spec t
    have hle := ha _ m2
    rw [← hl3] at hle
    rw [← hl3, ← hl5]
    rcases hmem l hl with rfl | rfl | rfl
    · exact ⟨rfl, rfl⟩
    · exfalso
      have : (4 : α) ≤ 2 := hle
      norm_num at this
    · exfalso
      have : (6 : α) ≤ 2 := hle
      norm_num at this
  have k4 : (t.reduce mpifunc_body).x4 = 6 ∧ (t.reduce mpifunc_body).x6 = (r6 : α) := by
    obtain ⟨ha, ⟨l, hl, hl4, hl6⟩, _⟩ := reduce_max_spec t
    have hle := ha _ m6
    rw [← hl4] at hle
    rw [← hl4, ← hl6]
    rcases hmem l hl with rfl | rfl | rfl
    · exfalso
      have : (6 : α) ≤ 2 := hle
      norm_num at this
    · exfalso
      have : (6 : α) ≤ 4 := hle
      norm_num at this
    · exact ⟨rfl, rfl⟩
  exact flat7_eq_of_fields _ _ e0 e1 e2 k3.1 k4.1 k3.2 k4.2

theorem scenario_buffers {α : Type} [LinearOrderedField α]
    (c2 c4 c6 : flat7 α) (t : RTree (List (flat7 α)))
    (h : t.leaves.Perm [[c2], [c4], [c6]]) :
    (∀ b ∈ t.leaves, ∃ c, b = [c]) ∧ (t.map first_data_set).leaves.Perm [c2, c4, c6] := by
  constructor
  · intro b hb
    have hb2 := h.mem_iff.mp hb
    simp only [List.mem_cons, List.mem_singleton, List.not_mem_nil, or_false] at hb2
    rcases hb2 with rfl | rfl | rfl
    · exact ⟨c2, rfl⟩
    · exact ⟨c4, rfl⟩
    · exact ⟨c6, rfl⟩
  · rw [leaves_map]
    exact h.map first_data_set

theorem scenario_exact_compute {α : Type} [LinearOrderedField α] [FloorRing α]
    (sqrt : α → α) (r2 r4 r6 : Int) (a2 a4 a6 s : sc_statinfo_t α)
    (n2 n4 n6 : Option String) (mpicomm : real_transport α)
    (h : (mpicomm.tree (compute_flatten mpicomm.rank [s])).leaves.Perm
      [compute_flatten r2 [sc_statinfo_set1 a2 2 n2],
        compute_flatten r4 [sc_statinfo_set1 a4 4 n4],
        compute_flatten r6 [sc_statinfo_set1 a6 6 n6]]) :
    sc_statinfo_compute_mpi sqrt mpicomm [s] =
      [compute_derive_body sqrt
        { x0 := 3, x1 := 12, x2 := 56, x3 := 2, x4 := 6, x5 := (r2 : α), x6 := (r6 : α) } s] := by
  obtain ⟨h1, h2⟩ := scenario_buffers _ _ _ _ h
  unfold sc_statinfo_compute_mpi
  dsimp only
  rw [reduce_singletons mpifunc_body _ (fun x y => rfl) _ h1,
    scenario_reduced_tuple r2 r4 r6 a2 a4 a6 n2 n4 n6 _ h2]
  rfl

theorem scenario_double_compute (sqrt : ℚ → ℚ) (r2 r4 r6 : Int)
    (a2 a4 a6 s : sc_statinfo_t ℚ) (n2 n4 n6 : Option String) (mpicomm : real_transport ℚ)
    (h : (mpicomm.tree (compute_flatten mpicomm.rank [s])).leaves.Perm
      [compute_flatten r2 [sc_statinfo_set1_fl round_to_double a2 2 n2],
        compute_flatten r4 [sc_statinfo_set1_fl round_to_double a4 4 n4],
        compute_flatten r6 [sc_statinfo_set1_fl round_to_double a6 6 n6]]) :
    sc_statinfo_compute_mpi_fl round_to_double sqrt mpicomm [s] =
      [compute_derive_body_fl round_to_double sqrt
        { x0 := 3, x1 := 12, x2 := 56, x3 := 2, x4 := 6, x5 := (r2 : ℚ), x6 := (r6 : ℚ) } s] := by
  have hfl : ∀ n : ℕ, n ≤ 56 → round_to_double (n : ℚ) = n :=
    fun n hn => round_to_double_natCast n (by omega)
  have f2 : round_to_double ((2 : ℚ) * 2) = 2 * 2 := by
    have := hfl 4 (by omega)
    norm_num at this ⊢
    exact this
  have f4 : round_to_double ((4 : ℚ) * 4) = 4 * 4 := by
    have := hfl 16 (by omega)
    norm_num at this ⊢
    exact this
  have f6 : round_to_double ((6 : ℚ) * 6) = 6 * 6 := by
    have := hfl 36 (by omega)
    norm_num at this ⊢
    exact this
  rw [set1_fl_eq _ _ _ _ f2, set1_fl_eq _ _ _ _ f4, set1_fl_eq _ _ _ _ f6] at h
  obtain ⟨h1, h2⟩ := scenario_buffers _ _ _ _ h
  have h3 : ((mpicomm.tree (compute_flatten mpicomm.rank [s])).map first_data_set).leaves.Perm
      ([(r2, sc_statinfo_set1 a2 2 n2), (r4, sc_statinfo_set1 a4 4 n4),
        (r6, sc_statinfo_set1 a6 6 n6)].map contribution) := h2
  have hnat : ∀ l ∈ ((mpicomm.tree (compute_flatten mpicomm.rank [s])).map
      first_data_set).leaves,
      (∃ n : ℕ, l.x0 = n) ∧ (∃ n : ℕ, l.x1 = n) ∧ (∃ n : ℕ, l.x2 = n) := by
    intro l hl
    have hl2 := h3.mem_iff.mp hl
    simp only [List.map_cons, List.map_nil, List.mem_cons, List.mem_singleton,
      List.not_mem_nil, or_false] at hl2
    rcases hl2 with rfl | rfl | rfl
    · exact ⟨⟨1, by simp [contribution, compute_flatten_body, sc_statinfo_set1]⟩,
        ⟨2, by simp [contribution, compute_flatten_body, sc_statinfo_set1]⟩,
        ⟨4, by norm_num [contribution, compute_flatten_body, sc_statinfo_set1]⟩⟩
    · exact ⟨⟨1, by simp [contribution, compute_flatten_body, sc_statinfo_set1]⟩,
        ⟨4, by simp [contribution, compute_flatten_body, sc_statinfo_set1]⟩,
        ⟨16, by norm_num [contribution, compute_flatten_body, sc_statinfo_set1]⟩⟩
    · exact ⟨⟨1, by simp [contribution, compute_flatten_body, sc_statinfo_set1]⟩,
        ⟨6, by simp [contribution, compute_flatten_body, sc_statinfo_set1]⟩,
        ⟨36, by norm_num [contribution, compute_flatten_body, sc_statinfo_set1]⟩⟩
  have htuple := scenario_reduced_tuple r2 r4 r6 a2 a4 a6 n2 n4 n6 _ h3
  have b0 : ((((mpicomm.tree (compute_flatten mpicomm.rank [s])).map
      first_data_set).leaves.map flat7.x0).sum : ℚ) ≤ ((56 : ℕ) : ℚ) := by
    rw [← reduce_x0, htuple]
    norm_num
  have b1 : ((((mpicomm.tree (compute_flatten mpicomm.rank [s])).map
      first_data_set).leaves.map flat7.x1).sum : ℚ) ≤ ((56 : ℕ) : ℚ) := by
    rw [← reduce_x1, htuple]
    norm_num
  have b2 : ((((mpicomm.tree (compute_flatten mpicomm.rank [s])).map
      first_data_set).leaves.map flat7.x2).sum : ℚ) ≤ ((56 : ℕ) : ℚ) := by
    rw [← reduce_x2, htuple]
    norm_num
  unfold sc_statinfo_compute_mpi_fl
  dsimp only
  rw [reduce_singletons (mpifunc_body_fl round_to_double) _ (fun x y => rfl) _ h1,
    reduce_fl_eq round_to_double 56 hfl _ hnat b0 b1 b2, htuple]
  rfl

theorem scenario_double_fields (sqrt : ℚ → ℚ) (r2 r6 : Int) (s : sc_statinfo_t ℚ) :
    (compute_derive_body_fl round_to_double sqrt
      { x0 := 3, x1 := 12, x2 := 56, x3 := 2, x4 := 6, x5 := (r2 : ℚ), x6 := (r6 : ℚ) }
      s).count = 3 ∧
    (compute_derive_body_fl round_to_double sqrt
      { x0 := 3, x1 := 12, x2 := 56, x3 := 2, x4 := 6, x5 := (r2 : ℚ), x6 := (r6 : ℚ) }
      s).sum_values = 12 ∧
    (compute_derive_body_fl round_to_double sqrt
      { x0 := 3, x1 := 12, x2 := 56, x3 := 2, x4 := 6, x5 := (r2 : ℚ), x6 := (r6 : ℚ) }
      s).average = 4 ∧
    (compute_derive_body_fl round_to_double sqrt
      { x0 := 3, x1 := 12, x2 := 56, x3 := 2, x4 := 6, x5 := (r2 : ℚ), x6 := (r6 : ℚ) }
      s).variance = 750599937895083 / 281474976710656 ∧
    (compute_derive_body_fl round_to_double sqrt
      { x0 := 3, x1 := 12, x2 := 56, x3 := 2, x4 := 6, x5 := (r2 : ℚ), x6 := (r6 : ℚ) }
      s).min = 2 ∧
    (compute_derive_body_fl round_to_double sqrt
      { x0 := 3, x1 := 12, x2 := 56, x3 := 2, x4 := 6, x5 := (r2 : ℚ), x6 := (r6 : ℚ) }
      s).min_at_rank = r2 ∧
    (compute_derive_body_fl round_to_double sqrt
      { x0 := 3, x1 := 12, x2 := 56, x3 := 2, x4 := 6, x5 := (r2 : ℚ), x6 := (r6 : ℚ) }
      s).max = 6 ∧
    (compute_derive_body_fl round_to_double sqrt
      { x0 := 3, x1 := 12, x2 := 56, x3 := 2, x4 := 6, x5 := (r2 : ℚ), x6 := (r6 : ℚ) }
      s).max_at_rank = r6 := by
  have f4 : round_to_double (12 / 3) = 4 := by
    have := round_to_double_natCast 4 (by norm_num)
    norm_num at this ⊢
    exact this
  have f16 : round_to_double (4 * 4) = 16 := by
    have := round_to_double_natCast 16 (by norm_num)
    norm_num at this ⊢
    exact this
  refine ⟨?_, rfl, ?_, ?_, rfl, ?_, rfl, ?_⟩
  · show double_to_int (3 : ℚ) = 3
    have hc := double_to_int_intCast (α := ℚ) 3
    simpa using hc
  · show round_to_double (12 / 3) = 4
    exact f4
  · show SC_MAX (round_to_double (round_to_double (56 / 3) -
      round_to_double (round_to_double (12 / 3) * round_to_double (12 / 3)))) 0 = _
    rw [f4, f16, round_to_double_fifty_six_thirds, round_to_double_variance, SC_MAX_eq_max]
    norm_num
  · exact double_to_int_intCast r2
  · exact double_to_int_intCast r6

/-- C14 fails on the code for the variance: in double arithmetic 56/3 is
rounded before 16 is subtracted.  The participant of rank 0, seeded with 6,
calls sc_statinfo_compute on a transport that merges its buffer with those
of rank 1, seeded with 2, and of rank 2, seeded with 4: the variance of the
record it gets is 750599937895083 / 2 ^ 48, the double 0x1.5555555555558p+1,
and not 8/3. -/
theorem scenario_variance_in_doubles :
    (sc_statinfo_compute_mpi_fl round_to_double id
      (sample_trio (compute_flatten 1 [sc_statinfo_set1_fl round_to_double sample_blank 2 none])
        (compute_flatten 2 [sc_statinfo_set1_fl round_to_double sample_blank 4 none]))
      [sc_statinfo_set1_fl round_to_double sample_blank 6 none]).map
        (fun out => out.variance) = [750599937895083 / 281474976710656] ∧
    (750599937895083 / 281474976710656 : ℚ) ≠ 8 / 3 := by
  constructor
  · rw [scenario_double_compute id 1 2 0 sample_blank sample_blank sample_blank
      (sc_statinfo_set1_fl round_to_double sample_blank 6 none) none none none
      (sample_trio (compute_flatten 1 [sc_statinfo_set1_fl round_to_double sample_blank 2 none])
        (compute_flatten 2 [sc_statinfo_set1_fl round_to_double sample_blank 4 none]))
      ((List.Perm.swap _ _ _).trans (List.Perm.cons _ (List.Perm.swap _ _ _)))]
    simp only [List.map_cons, List.map_nil]
    rw [(scenario_double_fields id 1 0 _).2.2.2.1]
  · norm_num

/-- C14, as the code has it: three participants seeded by sc_statinfo_set1
with the values 2, 4 and 6, whatever their ranks r2, r4 and r6 and whatever
the order and the shape of the reduction the transport performs.  The call
of sc_statinfo_compute on the one-variable array returns the reduced and
derived record with count = 3, sum_values = 12, average = 4, min = 2 with
min_at_rank = r2 and max = 6 with max_at_rank = r6.  Its variance is
56/3 - 16 = 8/3 when the fields are read as exact reals; in double
arithmetic, where 56/3 is rounded to the nearest double before 16 is
subtracted, it is the double 750599937895083 / 2 ^ 48, which is above 8/3 by
less than 2 ^ (-49). -/
theorem scenario_two_four_six {α : Type} [LinearOrderedField α] [FloorRing α]
    (sqrt : α → α) (sqrtd : ℚ → ℚ) (r2 r4 r6 : Int)
    (a2 a4 a6 s : sc_statinfo_t α) (b2 b4 b6 sd : sc_statinfo_t ℚ)
    (n2 n4 n6 : Option String) (mpicomm : real_transport α) (mpicommd : real_transport ℚ)
    (h : (mpicomm.tree (compute_flatten mpicomm.rank [s])).leaves.Perm
      [compute_flatten r2 [sc_statinfo_set1 a2 2 n2],
        compute_flatten r4 [sc_statinfo_set1 a4 4 n4],
        compute_flatten r6 [sc_statinfo_set1 a6 6 n6]])
    (hd : (mpicommd.tree (compute_flatten mpicommd.rank [sd])).leaves.Perm
      [compute_flatten r2 [sc_statinfo_set1_fl round_to_double b2 2 n2],
        compute_flatten r4 [sc_statinfo_set1_fl round_to_double b4 4 n4],
        compute_flatten r6 [sc_statinfo_set1_fl round_to_double b6 6 n6]]) :
    (∃ out, sc_statinfo_compute_mpi sqrt mpicomm [s] = [out] ∧
      out.count = 3 ∧ out.sum_values = 12 ∧ out.average = 4 ∧
      out.variance = 56 / 3 - 16 ∧ out.variance = 8 / 3 ∧
      out.min = 2 ∧ out.min_at_rank = r2 ∧ out.max = 6 ∧ out.max_at_rank = r6) ∧
    (∃ out, sc_statinfo_compute_mpi_fl round_to_double sqrtd mpicommd [sd] = [out] ∧
      out.count = 3 ∧ out.sum_values = 12 ∧ out.average = 4 ∧
      out.variance = round_to_double (56 / 3) - 16 ∧
      out.variance = 750599937895083 / 281474976710656 ∧
      8 / 3 < out.variance ∧ out.variance - 8 / 3 < 1 / 2 ^ 49 ∧
      out.min = 2 ∧ out.min_at_rank = r2 ∧ out.max = 6 ∧ out.max_at_rank = r6) := by
  constructor
  · refine ⟨_, scenario_exact_compute sqrt r2 r4 r6 a2 a4 a6 s n2 n4 n6 mpicomm h, ?_⟩
    have hvar : (compute_derive_body sqrt
        { x0 := 3, x1 := 12, x2 := 56, x3 := 2, x4 := 6, x5 := (r2 : α), x6 := (r6 : α) }
        s).variance = 8 / 3 := by
      rw [derive_variance, SC_MAX_eq_max]
      norm_num
    refine ⟨?_, rfl, ?_, ?_, hvar, rfl, ?_, rfl, ?_⟩
    · rw [derive_count]
      have hc := double_to_int_intCast (α := α) 3
      simpa using hc
    · rw [derive_average]
      norm_num
    · rw [hvar]
      norm_num
    · rw [derive_min_at_rank]
      exact double_to_int_intCast r2
    · rw [derive_max_at_rank]
      exact double_to_int_intCast r6
  · refine ⟨_, scenario_double_compute sqrtd r2 r4 r6 b2 b4 b6 sd n2 n4 n6 mpicommd hd, ?_⟩
    obtain ⟨h1, h2, h3, h4, h5, h6, h7, h8⟩ := scenario_double_fields sqrtd r2 r6 sd
    refine ⟨h1, h2, h3, ?_, h4, ?_, ?_, h5, h6, h7, h8⟩
    · rw [h4, round_to_double_fifty_six_thirds]
      norm_num
    · rw [h4]
      norm_num
    · rw [h4]
      norm_num

theorem scenario_two_four_six_witness :
    (sc_statinfo_compute_mpi id
      (sample_trio (compute_flatten 1 [sc_statinfo_set1 sample_blank 2 none])
        (compute_flatten 2 [sc_statinfo_set1 sample_blank 4 none]))
      [sc_statinfo_set1 sample_blank 6 none]).map
        (fun out => (out.count, out.sum_values, out.average, out.variance, out.min,
          out.min_at_rank, out.max, out.max_at_rank)) = [(3, 12, 4, 8 / 3, 2, 1, 6, 0)] ∧
    (sc_statinfo_compute_mpi_fl round_to_double id
      (sample_trio (compute_flatten 1 [sc_statinfo_set1_fl round_to_double sample_blank 2 none])
        (compute_flatten 2 [sc_statinfo_set1_fl round_to_double sample_blank 4 none]))
      [sc_statinfo_set1_fl round_to_double sample_blank 6 none]).map
        (fun out => (out.count, out.sum_values, out.average, out.variance, out.min,
          out.min_at_rank, out.max, out.max_at_rank)) =
      [(3, 12, 4, 750599937895083 / 281474976710656, 2, 1, 6, 0)] := by
  obtain ⟨⟨o1, e1, c1, c2, c3, _, c5, c6, c7, c8, c9⟩,
      ⟨o2, e2, d1, d2, d3, _, d5, _, _, d6, d7, d8, d9⟩⟩ :=
    scenario_two_four_six id id 1 2 0 sample_blank sample_blank sample_blank
      (sc_statinfo_set1 sample_blank 6 none) sample_blank sample_blank sample_blank
      (sc_statinfo_set1_fl round_to_double sample_blank 6 none) none none none
      (sample_trio (compute_flatten 1 [sc_statinfo_set1 sample_blank 2 none])
        (compute_flatten 2 [sc_statinfo_set1 sample_blank 4 none]))
      (sample_trio (compute_flatten 1 [sc_statinfo_set1_fl round_to_double sample_blank 2 none])
        (compute_flatten 2 [sc_statinfo_set1_fl round_to_double sample_blank 4 none]))
      ((List.Perm.swap _ _ _).trans (List.Perm.cons _ (List.Perm.swap _ _ _)))
      ((List.Perm.swap _ _ _).trans (List.Perm.cons _ (List.Perm.swap _ _ _)))
  constructor
  · rw [e1]
    simp only [List.map_cons, List.map_nil, c1, c2, c3, c5, c6, c7, c8, c9]
  · rw [e2]
    simp only [List.map_cons, List.map_nil, d1, d2, d3, d5, d6, d7, d8, d9]


end SC
